import Mathlib

/-!
# Weather data aggregator

A shallow embedding of the aggregation engine (`src/services/aggregator.js`),
the response cache, the error handler, the geolocation resolvers, the
transformers and the forecast adapters, with the parts of the JavaScript host
semantics they rely on, followed by theorems about them.

Modelling conventions.

* JavaScript numbers are doubles, held as the rationals (`ℚ`) that they are;
  the two non-numbers a numeric field of a provider record can hold,
  `undefined` and `NaN`, are separate constructors of `JsNum`.  The additions
  and the division of `aggregateWeatherData` and its `parseFloat` round to the
  nearest double (`roundDouble`).  `Infinity` is outside the model: the numbers
  of a record are finite, and so is every sum of them (it stays below
  `2 ^ 1024`).  Zero and negative zero, which the code does not tell apart, are
  one number.  Elsewhere (the product `wind_spd * 3.6`, the scaling of time
  values, the quotient of the cache counters) the rounding error of the
  floating-point operation is outside the model.
* Text fields are `Option String`, `none` standing for `undefined`/`null`.
* `String.prototype.toLowerCase` is a host function; every definition that
  calls it takes it as the argument `toLowerCase`.
* `new Date()` and the formatting of dates are host functions; the forecast
  code of the engine takes the formatted date of day offset `i` as the argument
  `dateOf i`.  The `timestamp` member of the records, the wall-clock time or
  the time of the reading, is left out of them; the OpenWeather forecast
  adapter, which reads it back, carries its time value next to the record.
* The adapter calls are in flight concurrently; what each call ends in is the
  argument `outcome` of the engine, and the order in which the promises settle
  is its argument `settling`.
* Numeric fields hold numbers and text fields hold strings, as the data model
  says; a record that breaks this (a string in `temp`, a number in
  `description`) is outside the model.
-/

namespace WeatherAggregator

/-! ## Values -/

/-- The value of a numeric field: `undefined`, `NaN`, or a number. -/
inductive JsNum where
  | undefined
  | nan
  | num (q : ℚ)
  deriving DecidableEq

/-- The expression `x || 0` for a numeric field `x`: `undefined`, `NaN` and `0`
are falsy and give `0`, every other number gives itself. -/
def JsNum.orZero : JsNum → ℚ
  | .num q => q
  | .undefined => 0
  | .nan => 0

/-- The number of binary digits of `n`, counted by at most `fuel` halvings;
`bitLength n n` is the number of binary digits of `n`. -/
def bitLength : ℕ → ℕ → ℕ
  | 0, _ => 0
  | fuel + 1, n => if n = 0 then 0 else bitLength fuel (n / 2) + 1

/-- The exponent `e` of the binade of the positive rational `a / b`:
`2 ^ e ≤ a / b < 2 ^ (e + 1)`.  The difference `e0` of the numbers of binary
digits of `a` and `b` is `e` or `e + 1`; the comparison of `a / b` with
`2 ^ e0` tells which. -/
def binaryExponent (a b : ℕ) : ℤ :=
  let e0 : ℤ := (bitLength a a : ℤ) - (bitLength b b : ℤ)
  if a * 2 ^ (-e0).toNat < b * 2 ^ e0.toNat then e0 - 1 else e0

/-- The integer nearest to `n / d`, the even one of two that are equally
near. -/
def roundHalfEven (n d : ℕ) : ℕ :=
  let q := n / d
  let r := n % d
  if 2 * r < d then q else if d < 2 * r then q + 1 else if q % 2 = 0 then q else q + 1

/-- The double nearest to the rational `x`, the one with the even significand
when two are equally near: the result that an arithmetic operation of the host
with the exact result `x`, and `parseFloat` for a numeral that denotes `x`,
deliver.  With `x = ± a / b` and `2 ^ e ≤ a / b < 2 ^ (e + 1)`, the doubles
around `x` are the multiples of `2 ^ u` for `u = e - 52`, and for `u = -1074`
below the normal range; the significand `m` is `a / (b * 2 ^ u)` rounded to the
nearest integer.  (The host delivers `Infinity` for a magnitude of `2 ^ 1024`
or more, which is outside the model.) -/
def roundDouble (x : ℚ) : ℚ :=
  if x = 0 then 0
  else
    let a : ℕ := x.num.natAbs
    let b : ℕ := x.den
    let u : ℤ := max (binaryExponent a b - 52) (-1074)
    let m : ℕ := roundHalfEven (a * 2 ^ (-u).toNat) (b * 2 ^ u.toNat)
    if x < 0 then -((m : ℚ) * 2 ^ u) else (m : ℚ) * 2 ^ u

/-- The integer `n` that `Number.prototype.toFixed` picks for a non-negative `x`
and two fraction digits: `n / 100 - x` as close to zero as possible, the
larger `n` when there are two. -/
def toFixedDigits (x : ℚ) : ℤ := ⌊x * 100 + 1 / 2⌋

/-- The expression `parseFloat(x.toFixed(2))` for a double `x`.  `toFixed`
prints the decimal `n / 100` picked by `toFixedDigits`, for a negative `x` that
of `-x` behind a minus sign, and `parseFloat` reads it as the nearest double.
(A double of magnitude `1e21` or more is printed in exponent form and read back
as itself; such a double is an integer, so that also is what is computed
here.) -/
def toFixed2 (x : ℚ) : ℚ :=
  roundDouble
    (if x < 0 then -((toFixedDigits (-x) : ℚ) / 100) else (toFixedDigits x : ℚ) / 100)

/-- JavaScript truthiness of a text value: `undefined`, `null` and the empty
string are falsy. -/
def truthy : Option String → Bool
  | none => false
  | some s => s != ""

/-! ## Records -/

/-- The canonical current-conditions record built by the transformers of
`src/utils/dataTransformer.js` (the `current` member of their result). -/
structure Observation where
  temp : JsNum
  feels_like : JsNum
  humidity : JsNum
  pressure : JsNum
  wind_speed : JsNum
  wind_direction : JsNum
  description : Option String
  condition : Option String
  icon : Option String
  clouds : JsNum
  uv_index : JsNum
  visibility : JsNum
  rain_1h : JsNum
  snow_1h : JsNum
  aqi : JsNum
  is_day : Option Bool
  deriving DecidableEq

/-- The `location` member of a transformer result. -/
structure SourceLocation where
  name : Option String
  country : Option String
  lat : JsNum
  lon : JsNum
  deriving DecidableEq

/-- What a provider adapter returns for one reading: the transformer result,
with the `date` member that the forecast adapters add. -/
structure Source where
  provider : String
  location : Option SourceLocation
  current : Observation
  date : Option String
  deriving DecidableEq

/-! ## Count objects

`aggregateWeatherData` counts text values in plain objects (`descriptions`,
`conditions`) created by the literal `{}`. -/

/-- A property value in a count object: a number, or the string that `+ 1`
produces when the value read was not a number. -/
inductive CountVal where
  | count (n : Nat)
  | text
  deriving DecidableEq

/-- A count object: its own properties in creation order. -/
abbrev CountObj := List (String × CountVal)

/-- The function-valued properties that an object literal inherits from
`Object.prototype`. -/
def objectPrototypeKeys : List String :=
  ["constructor", "__defineGetter__", "__defineSetter__", "hasOwnProperty",
   "__lookupGetter__", "__lookupSetter__", "isPrototypeOf", "propertyIsEnumerable",
   "toString", "valueOf", "toLocaleString"]

/-- The number named by a property key that is an array index: a canonical
decimal numeral of an integer from `0` to `2^32 - 2`. -/
def arrayIndex? (key : String) : Option Nat :=
  let cs := key.data
  if cs ≠ [] ∧ cs.all Char.isDigit ∧ (cs.head? ≠ some '0' ∨ cs.length = 1) then
    let n := cs.foldl (fun n c => 10 * n + (c.toNat - 48)) 0
    if n < 2 ^ 32 - 1 then some n else none
  else none

/-- Writes `value` to the own property `key`: an existing property keeps its
place, a new one is created last. -/
def setProp (o : CountObj) (key : String) (value : CountVal) : CountObj :=
  if o.any (fun e => e.1 == key) then
    o.map (fun e => if e.1 == key then (key, value) else e)
  else o ++ [(key, value)]

/-- The statement `obj[key] = (obj[key] || 0) + 1`.

* An own number `n` becomes `n + 1`; an own string stays a string.
* A key with no own property that names an inherited function reads that
  function, which is truthy, and `+ 1` makes a string of it.
* `__proto__` reads `Object.prototype`; the string made of it is handed to the
  `__proto__` setter, which ignores a value that is not an object.
* Any other new key reads `undefined` and is created with the value `1`. -/
def increment (o : CountObj) (key : String) : CountObj :=
  if key = "__proto__" then o
  else
    match o.lookup key with
    | some (.count n) => setProp o key (.count (n + 1))
    | some .text => setProp o key .text
    | none =>
      if key ∈ objectPrototypeKeys then setProp o key .text
      else setProp o key (.count 1)

/-- The statement `if (text) obj[text] = (obj[text] || 0) + 1`. -/
def countText (o : CountObj) (text : Option String) : CountObj :=
  match text with
  | some s => if truthy (some s) then increment o s else o
  | none => o

/-- The own properties in the order of `Object.entries`: array-index keys in
ascending numeric order, then the other keys in creation order. -/
def entries (o : CountObj) : List (String × CountVal) :=
  let indexed := o.filterMap (fun e => (arrayIndex? e.1).map (fun n => (n, e)))
  (indexed.insertionSort (fun a b => a.1 ≤ b.1)).map (fun p => p.2)
    ++ o.filter (fun e => (arrayIndex? e.1).isNone)

/-- The state of the loop of `findMostCommon`. -/
structure MostCommon where
  maxCount : Nat
  mostCommon : Option String
  deriving DecidableEq

/-- The loop `Object.entries(countObj).forEach(...)` of `findMostCommon`, run
from the state `st` over the entries `es`.  In the test `count > maxCount` a
count that is a string (never a numeral) converts to `NaN`, and the test
fails. -/
def scan (st : MostCommon) (es : List (String × CountVal)) : MostCommon :=
  es.foldl
    (fun (st : MostCommon) (e : String × CountVal) =>
      match e.2 with
      | .count n => if n > st.maxCount then ⟨n, some e.1⟩ else st
      | .text => st)
    st

/-- `findMostCommon` of `src/services/aggregator.js`. -/
def findMostCommon (countObj : CountObj) : Option String :=
  (scan ⟨0, none⟩ (entries countObj)).mostCommon

/-! ## The field aggregator -/

/-- The object `result` of `aggregateWeatherData` while the sources are
visited. -/
structure Accumulator where
  temp : ℚ
  feels_like : ℚ
  humidity : ℚ
  pressure : ℚ
  wind_speed : ℚ
  wind_direction : ℚ
  descriptions : CountObj
  conditions : CountObj

/-- The body of `sources.forEach` in `aggregateWeatherData`; each `+=` is an
addition of doubles. -/
def accumulate (toLowerCase : String → String) (result : Accumulator) (source : Source) :
    Accumulator :=
  let current := source.current
  let desc := current.description.map toLowerCase
  let cond := current.condition.map toLowerCase
  { temp := roundDouble (result.temp + current.temp.orZero)
    feels_like := roundDouble (result.feels_like + current.feels_like.orZero)
    humidity := roundDouble (result.humidity + current.humidity.orZero)
    pressure := roundDouble (result.pressure + current.pressure.orZero)
    wind_speed := roundDouble (result.wind_speed + current.wind_speed.orZero)
    wind_direction := roundDouble (result.wind_direction + current.wind_direction.orZero)
    descriptions := countText result.descriptions desc
    conditions := countText result.conditions cond }

/-- `aggregateWeatherData` of `src/services/aggregator.js`.  `none` is the
`null` returned for no sources.  `average` is the expression
`parseFloat((result[key] / sources.length).toFixed(2))`, with the division of
doubles. -/
def aggregateWeatherData (toLowerCase : String → String) (sources : List Source) :
    Option Observation :=
  match sources with
  | [] => none
  | [source] => some source.current
  | first :: _ =>
    let result := sources.foldl (accumulate toLowerCase) ⟨0, 0, 0, 0, 0, 0, [], []⟩
    let average := fun (total : ℚ) =>
      JsNum.num (toFixed2 (roundDouble (total / (sources.length : ℚ))))
    some
      { temp := average result.temp
        feels_like := average result.feels_like
        humidity := average result.humidity
        pressure := average result.pressure
        wind_speed := average result.wind_speed
        wind_direction := average result.wind_direction
        description := findMostCommon result.descriptions
        condition := findMostCommon result.conditions
        icon := first.current.icon
        clouds := .undefined
        uv_index := .undefined
        visibility := .undefined
        rain_1h := .undefined
        snow_1h := .undefined
        aqi := .undefined
        is_day := none }

/-! ## The aggregation engine -/

/-- The three provider adapters, in the order in which the engine calls them. -/
inductive Provider where
  | openweather
  | weatherapi
  | weatherbit
  deriving DecidableEq

/-- The name by which the allowlist selects an adapter. -/
def Provider.name : Provider → String
  | .openweather => "openweather"
  | .weatherapi => "weatherapi"
  | .weatherbit => "weatherbit"

/-- The expression `options.providers || ['openweather', 'weatherapi', 'weatherbit']`;
an array, also an empty one, is truthy. -/
def allowlist (providers : Option (List String)) : List String :=
  providers.getD ["openweather", "weatherapi", "weatherbit"]

/-- The array `promises`: one call per adapter that `providers.includes` finds,
in the order of the three `if` statements. -/
def dispatch (providers : Option (List String)) : List Provider :=
  [Provider.openweather, Provider.weatherapi, Provider.weatherbit].filter
    (fun p => (allowlist providers).contains p.name)

/-- An order in which the dispatched promises settle: each of them once. -/
structure Settling (providers : Option (List String)) where
  order : List Provider
  perm : order.Perm (dispatch providers)

/-- The `location` member of a result: the coordinates of the request and, once
a callback has set them, a name and a country. -/
structure ResultLocation where
  lat : JsNum
  lon : JsNum
  name : Option String
  country : Option String
  deriving DecidableEq

/-- The object `results` of `getCurrentWeather`. -/
structure WeatherResult where
  sources : List Source
  location : ResultLocation
  aggregated : Option Observation
  deriving DecidableEq

/-- The `.then` callback of `getCurrentWeather`, the same for the three
adapters. -/
def onCurrentWeather (results : WeatherResult) (data : Source) : WeatherResult :=
  let results := { results with sources := results.sources ++ [data] }
  match data.location with
  | some location =>
    if truthy location.name then
      { results with
        location := { results.location with name := location.name, country := location.country } }
    else results
  | none => results

/-- One promise settles: a fulfilled one runs the `.then` callback, a rejected
one runs the `.catch` callback, which logs the message and leaves `results`
alone. -/
def settleCurrentWeather (outcome : Provider → Except String Source) (results : WeatherResult)
    (p : Provider) : WeatherResult :=
  match outcome p with
  | .ok data => onCurrentWeather results data
  | .error _ => results

/-- `getCurrentWeather` of `src/services/aggregator.js`: `outcome p` is what the
call to adapter `p` ends in, `settling` the order in which the calls end. -/
def getCurrentWeather (toLowerCase : String → String) (lat lon : JsNum)
    (providers : Option (List String)) (outcome : Provider → Except String Source)
    (settling : Settling providers) : Except String WeatherResult :=
  let results := settling.order.foldl (settleCurrentWeather outcome)
    { sources := [], location := ⟨lat, lon, none, none⟩, aggregated := none }
  if results.sources.length = 0 then
    .error "No weather data available from any provider"
  else
    .ok { results with aggregated := aggregateWeatherData toLowerCase results.sources }

/-! ## Forecasts -/

/-- An element of `results.sources` in `getForecast`. -/
structure ForecastSource where
  provider : String
  data : List Source
  deriving DecidableEq

/-- An element of `dayData.sources`. -/
structure DaySource where
  provider : String
  forecast : Source
  deriving DecidableEq

/-- The object `dayData` of `aggregateForecastData`. -/
structure DayData where
  date : String
  sources : List DaySource
  aggregated : Option Observation
  deriving DecidableEq

/-- The array `dates` of `aggregateForecastData`: the loop `for (i = 0; i < days; i++)`
pushes the formatted date of day offset `i`. -/
def forecastDates (dateOf : Nat → String) (days : ℤ) : List String :=
  (List.range days.toNat).map dateOf

/-- The body of `dates.forEach` in `aggregateForecastData` up to the test
`dayData.sources.length > 0`: the sources collected for `date` and their
aggregate. -/
def dayData (toLowerCase : String → String) (dates : List String) (sources : List ForecastSource)
    (date : String) : DayData :=
  let index := dates.indexOf date
  let daySources := sources.filterMap (fun source =>
    if h : index < source.data.length then
      some { provider := source.provider, forecast := source.data[index] }
    else none)
  { date := date
    sources := daySources
    aggregated :=
      if daySources.length > 0 then
        aggregateWeatherData toLowerCase (daySources.map (fun source => source.forecast))
      else none }

/-- `aggregateForecastData` of `src/services/aggregator.js`. -/
def aggregateForecastData (toLowerCase : String → String) (dateOf : Nat → String)
    (sources : List ForecastSource) (days : ℤ) : List DayData :=
  let dates := forecastDates dateOf days
  (dates.map (dayData toLowerCase dates sources)).filter (fun day => day.sources.length > 0)

/-- The object `results` of `getForecast`. -/
structure ForecastResult where
  sources : List ForecastSource
  daily : List DayData
  location : ResultLocation
  deriving DecidableEq

/-- The `.then` callback of `getForecast` for the adapter `p`. -/
def onForecast (p : Provider) (results : ForecastResult) (data : List Source) : ForecastResult :=
  let results := { results with sources := results.sources ++ [⟨p.name, data⟩] }
  match data.head? with
  | some first =>
    match first.location with
    | some location =>
      { results with
        location := { results.location with name := location.name, country := location.country } }
    | none => results
  | none => results

/-- One forecast promise settles. -/
def settleForecast (outcome : Provider → Except String (List Source)) (results : ForecastResult)
    (p : Provider) : ForecastResult :=
  match outcome p with
  | .ok data => onForecast p results data
  | .error _ => results

/-- `getForecast` of `src/services/aggregator.js`. -/
def getForecast (toLowerCase : String → String) (dateOf : Nat → String) (lat lon : JsNum)
    (days : ℤ) (providers : Option (List String))
    (outcome : Provider → Except String (List Source)) (settling : Settling providers) :
    Except String ForecastResult :=
  let results := settling.order.foldl (settleForecast outcome)
    { sources := [], daily := [], location := ⟨lat, lon, none, none⟩ }
  if results.sources.length = 0 then
    .error "No forecast data available from any provider"
  else
    .ok { results with daily := aggregateForecastData toLowerCase dateOf results.sources days }

/-! ## Helpers for stating and evaluating -/

/-- The six numeric fields that `aggregateWeatherData` accumulates. -/
inductive NumField where
  | temp
  | feels_like
  | humidity
  | pressure
  | wind_speed
  | wind_direction
  deriving DecidableEq

/-- The numeric field of an observation. -/
def NumField.get : NumField → Observation → JsNum
  | .temp, o => o.temp
  | .feels_like, o => o.feels_like
  | .humidity, o => o.humidity
  | .pressure, o => o.pressure
  | .wind_speed, o => o.wind_speed
  | .wind_direction, o => o.wind_direction

/-- The running total of a numeric field in the accumulator. -/
def NumField.total : NumField → Accumulator → ℚ
  | .temp, a => a.temp
  | .feels_like, a => a.feels_like
  | .humidity, a => a.humidity
  | .pressure, a => a.pressure
  | .wind_speed, a => a.wind_speed
  | .wind_direction, a => a.wind_direction

/-- The sum of the doubles `values` as the loop of `aggregateWeatherData` forms
it: from 0, in list order, each addition rounded to the nearest double. -/
def doubleSum (values : List ℚ) : ℚ :=
  values.foldl (fun total value => roundDouble (total + value)) 0

/-- The mean of the doubles `values` as `aggregateWeatherData` computes it: the
quotient of doubles of their `doubleSum` by their number. -/
def doubleMean (values : List ℚ) : ℚ :=
  roundDouble (doubleSum values / (values.length : ℚ))

/-- The two text fields that `aggregateWeatherData` counts. -/
inductive TextField where
  | description
  | condition
  deriving DecidableEq

/-- The text field of an observation. -/
def TextField.get : TextField → Observation → Option String
  | .description, o => o.description
  | .condition, o => o.condition

/-- The count object of a text field in the accumulator. -/
def TextField.counts : TextField → Accumulator → CountObj
  | .description, a => a.descriptions
  | .condition, a => a.conditions

/-- The lower-cased values of a text field, in the order of the sources. -/
def loweredValues (toLowerCase : String → String) (f : TextField) (sources : List Source) :
    List (Option String) :=
  sources.map (fun s => (f.get s.current).map toLowerCase)

/-- A text value that a count object treats as an ordinary key: absent, or a
string that is neither an array index nor a name inherited from
`Object.prototype`. -/
def plainText : Option String → Bool
  | none => true
  | some k => (arrayIndex? k).isNone && !(objectPrototypeKeys.contains k) && k != "__proto__"

/-- Invariant of the loop of `findMostCommon` after the entries `done`: the
state holds the first entry whose count is the largest so far. -/
structure ScanInv (done : List (String × CountVal)) (st : MostCommon) : Prop where
  none_case : st.mostCommon = none →
    st.maxCount = 0 ∧ ∀ e ∈ done, ∀ m, e.2 = .count m → m = 0
  some_case : ∀ w, st.mostCommon = some w →
    ∃ l1 l2, done = l1 ++ (w, .count st.maxCount) :: l2 ∧
      (∀ e ∈ l1, ∀ m, e.2 = .count m → m < st.maxCount) ∧
      (∀ e ∈ l2, ∀ m, e.2 = .count m → m ≤ st.maxCount)

/-- Invariant of a count object `o` after the plain text values `vals` were
counted: each key holds its number of occurrences, and the keys stand in the
order of their first occurrences. -/
structure TallyInv (vals : List (Option String)) (o : CountObj) : Prop where
  entry : ∀ e ∈ o, arrayIndex? e.1 = none ∧ truthy (some e.1) = true ∧
    e.2 = .count (vals.count (some e.1)) ∧ some e.1 ∈ vals
  covered : ∀ v ∈ vals, truthy v = true → ∃ e ∈ o, some e.1 = v
  order : ∀ l1 e l2, o = l1 ++ e :: l2 →
    ∃ pre post, vals = pre ++ some e.1 :: post ∧ some e.1 ∉ pre ∧
      ∀ v ∈ pre, truthy v = true → ∃ e' ∈ l1, some e'.1 = v

/-- Lower-casing of the ASCII letters, on which `toLowerCase` agrees with it;
used to evaluate the definitions on ASCII text. -/
def asciiLower (s : String) : String := String.mk (s.data.map Char.toLower)

/-- An observation with every field absent. -/
def Observation.empty : Observation :=
  ⟨.undefined, .undefined, .undefined, .undefined, .undefined, .undefined, none, none, none,
   .undefined, .undefined, .undefined, .undefined, .undefined, .undefined, none⟩

/-- A reading of `provider` with the observation `current` and no location. -/
def reading (provider : String) (current : Observation) : Source :=
  ⟨provider, none, current, none⟩

/-- The fulfilled value of an adapter call, if it has one. -/
def fulfilled {α : Type} (outcome : Provider → Except String α) (p : Provider) : Option α :=
  match outcome p with
  | .ok data => some data
  | .error _ => none

/-- A fulfilled call that provides a location name: the test
`data.location && data.location.name`. -/
def providesName (data : Source) : Bool :=
  truthy (data.location.bind (fun l => l.name))

/-- The settling order that is the dispatch order. -/
def inDispatchOrder (providers : Option (List String)) : Settling providers :=
  ⟨dispatch providers, List.Perm.refl _⟩

/-- A settling order of the default allowlist in which the WeatherAPI call ends
before the OpenWeather call. -/
def weatherapiFirst : Settling none :=
  ⟨[.weatherapi, .openweather, .weatherbit], List.Perm.swap _ _ _⟩

/-- A settling order of the default allowlist in which the OpenWeather call
ends last. -/
def openweatherLast : Settling none :=
  ⟨[.weatherapi, .weatherbit, .openweather],
    (List.Perm.cons _ (List.Perm.swap _ _ _)).trans (List.Perm.swap _ _ _)⟩

/-- Example outcomes: OpenWeather and WeatherAPI answer, Weatherbit times out. -/
def twoAnswers : Provider → Except String Source
  | .openweather =>
    .ok ⟨"openweather", some ⟨some "London", some "GB", .num 51, .num 0⟩,
      { Observation.empty with condition := some "Rain", icon := some "10d" }, none⟩
  | .weatherapi =>
    .ok ⟨"weatherapi", some ⟨some "City of London", some "United Kingdom", .num 51, .num 0⟩,
      { Observation.empty with condition := some "Clouds", icon := some "116.png" }, none⟩
  | .weatherbit => .error "timeout of 5000ms exceeded"

/-- Example outcomes: every call fails. -/
def noAnswer {α : Type} : Provider → Except String α :=
  fun _ => .error "timeout of 5000ms exceeded"

/-- The largest number of forecast days that any provider returned. -/
def longestForecast (sources : List ForecastSource) : Nat :=
  (sources.map (fun s => s.data.length)).foldr max 0

/-- Example dates: a week of consecutive days. -/
def weekFrom (i : Nat) : String :=
  (["2026-11-04", "2026-11-05", "2026-11-06", "2026-11-07", "2026-11-08", "2026-11-09",
    "2026-11-10"])[i]?.getD "later"

/-- A forecast day of `provider` with the temperature `temp`. -/
def forecastDay (provider : String) (temp : ℚ) : Source :=
  reading provider { Observation.empty with temp := .num temp }

/-- Example forecasts: provider A returns five days, provider B three. -/
def fiveAndThree : List ForecastSource :=
  [⟨"A", [forecastDay "A" 10, forecastDay "A" 11, forecastDay "A" 12, forecastDay "A" 13,
      forecastDay "A" 14]⟩,
   ⟨"B", [forecastDay "B" 20, forecastDay "B" 21, forecastDay "B" 22]⟩]

/-- Example forecast outcomes: only WeatherAPI answers, with three days. -/
def threeDays : Provider → Except String (List Source)
  | .weatherapi =>
    .ok [forecastDay "weatherapi" 20, forecastDay "weatherapi" 21, forecastDay "weatherapi" 22]
  | _ => .error "timeout of 5000ms exceeded"

/-! ## The response cache -/

/-- Modelled from the spec: the store of the `node-cache` package, a
dependency that is not part of the source tree — a map from keys to entries,
held as its own properties in creation order, with the cumulative hit and miss
counters of `cache.stats`.  The expiry of entries after their TTL is left out:
the operations are taken at instants at which no stored entry has expired. -/
structure NodeCache (α : Type) where
  data : List (String × α)
  hits : Nat
  misses : Nat

/-- Modelled from the spec: `cache.get(key)` of `node-cache` — the entry stored
under `key`, counted as a hit, or `undefined`, counted as a miss. -/
def NodeCache.get {α : Type} (cache : NodeCache α) (key : String) : Option α × NodeCache α :=
  match cache.data.lookup key with
  | some value => (some value, { cache with hits := cache.hits + 1 })
  | none => (none, { cache with misses := cache.misses + 1 })

/-- Modelled from the spec: `cache.set(key, value)` of `node-cache`. -/
def NodeCache.set {α : Type} (cache : NodeCache α) (key : String) (value : α) : NodeCache α :=
  if cache.data.any (fun e => e.1 == key) then
    { cache with data := cache.data.map (fun e => if e.1 == key then (key, value) else e) }
  else { cache with data := cache.data ++ [(key, value)] }

/-- Modelled from the spec: `cache.del(key)` of `node-cache` — removes the entry
stored under `key`, if there is one. -/
def NodeCache.del {α : Type} (cache : NodeCache α) (key : String) : NodeCache α :=
  { cache with data := cache.data.filter (fun e => e.1 != key) }

/-- Modelled from the spec: `cache.flushAll()` of `node-cache` — removes every
entry and resets the counters. -/
def NodeCache.flushAll {α : Type} (_cache : NodeCache α) : NodeCache α :=
  ⟨[], 0, 0⟩

/-- Modelled from the spec: `cache.keys()` of `node-cache`. -/
def NodeCache.keys {α : Type} (cache : NodeCache α) : List String :=
  cache.data.map (fun e => e.1)

/-- What `cacheMiddleware` does with a request: answer it from the cache, or
pass it on with `res.cacheData` attached. -/
inductive CacheLookup (α : Type) where
  | hit (cachedData : α)
  | miss
  deriving DecidableEq

/-- `cacheMiddleware` of `src/middleware/cache.js` for the request with the URL
`key`.  The stored payloads are response objects, so a found entry is
truthy. -/
def cacheMiddleware {α : Type} (cache : NodeCache α) (key : String) :
    CacheLookup α × NodeCache α :=
  match cache.get key with
  | (some cachedData, cache) => (.hit cachedData, cache)
  | (none, cache) => (.miss, cache)

/-- The function `res.cacheData` that `cacheMiddleware` attaches on a miss. -/
def cacheData {α : Type} (cache : NodeCache α) (key : String) (data : α) : NodeCache α :=
  cache.set key data

/-- `invalidateCache` of `src/middleware/cache.js`; `none` is a call without a
key.  The test `if (key)` is the truthiness of the key. -/
def invalidateCache {α : Type} (cache : NodeCache α) (key : Option String) : NodeCache α :=
  match key with
  | some k => if truthy (some k) then cache.del k else cache.flushAll
  | none => cache.flushAll

/-- The object returned by `getCacheStats`, without the size estimates of
`cache.getStats()`. -/
structure CacheStats where
  keys : List String
  hits : Nat
  misses : Nat
  hitRate : ℚ

/-- `getCacheStats` of `src/middleware/cache.js`.  In
`hits / (hits + misses || 1)` the sum is formed first, and `|| 1` replaces a
sum of `0` by `1`. -/
def getCacheStats {α : Type} (cache : NodeCache α) : CacheStats :=
  { keys := cache.keys
    hits := cache.hits
    misses := cache.misses
    hitRate := (cache.hits : ℚ) /
      (if cache.hits + cache.misses = 0 then 1 else ((cache.hits + cache.misses : Nat) : ℚ)) }

/-! ## Errors and the error handler -/

/-- The body of an error response of a provider, as far as the code reads it:
`data.message`, `data.error?.message` and `data.error` as a text. -/
structure ErrorData where
  message : Option String
  error_message : Option String
  error : Option String
  deriving DecidableEq

/-- The `response` member of an axios error. -/
structure ErrorResponse where
  status : Option Nat
  url : Option String
  data : Option ErrorData
  deriving DecidableEq

/-- An error object: its `message`, and the `response` and `code` members that
axios adds. -/
structure JsError where
  message : String
  response : Option ErrorResponse
  code : Option String
  deriving DecidableEq

/-- The expression `new Error(message)`. -/
def newError (message : String) : JsError := ⟨message, none, none⟩

/-- The method `String.prototype.includes`. -/
def includes (s searchString : String) : Bool :=
  s.data.tails.any (fun t => searchString.data.isPrefixOf t)

/-- The variable `details` of the error handler. -/
inductive ErrorDetails where
  | provider (url : String) (response : Option ErrorData)
  | cause (message : String)
  deriving DecidableEq

/-- The error response that the handler sends, without its `timestamp`;
`status` is also the HTTP status. -/
structure ErrorBody where
  status : Nat
  error : String
  path : String
  details : Option ErrorDetails
  deriving DecidableEq

/-- The chain of tests of the error handler: status code, message and
details. -/
def classify (err : JsError) : Nat × String × Option ErrorDetails :=
  match err.response with
  | some response =>
    ((match response.status with
      | some status => if status = 0 then 500 else status
      | none => 500),
     "External API error: " ++ err.message,
     some (.provider (if truthy response.url then response.url.getD "" else "unknown")
       response.data))
  | none =>
    if includes err.message "No locations found" then (404, err.message, none)
    else if includes err.message "Missing required parameters" then (400, err.message, none)
    else if includes err.message "No weather data available"
        || includes err.message "No forecast data available" then
      (503, "Weather data services unavailable", some (.cause err.message))
    else if err.code = some "ECONNABORTED" then
      (504, "Request to weather provider timed out", none)
    else if err.code = some "ENOTFOUND" ∨ err.code = some "ECONNREFUSED" then
      (503, "Weather provider service unavailable", none)
    else (500, "Server error", none)

/-- The error handler of `src/utils/errorHandler.js` (`module.exports`):
`production` is the test `process.env.NODE_ENV === 'production'`, `originalUrl`
the URL of the request. -/
def errorHandler (production : Bool) (originalUrl : String) (err : JsError) : ErrorBody :=
  let (statusCode, message, details) := classify err
  { status := statusCode
    error := message
    path := originalUrl
    details := if production then none else details }

/-! ## Geolocation -/

/-- A location as the geocoding service returns it and as the resolvers return
it. -/
structure Place where
  name : Option String
  lat : JsNum
  lon : JsNum
  country : Option String
  state : Option String
  deriving DecidableEq

/-- The `catch` block of the two resolvers: an error with a `response` is
replaced by a new error, any other error is thrown again. -/
def geocodingError (error : JsError) : JsError :=
  match error.response with
  | some response =>
    match response.data with
    | some data =>
      newError ("Geocoding API error: " ++
        (if truthy data.message then data.message.getD "" else error.message))
    | none => newError "Cannot read properties of undefined (reading 'message')"
  | none => error

/-- `getCoordinatesByCity` of `src/services/geolocation.js`; `response` is what
the request to the geocoding service ends in, `none` standing for a falsy
`response.data`. -/
def getCoordinatesByCity (cityName : String) (response : Except JsError (Option (List Place))) :
    Except JsError (List Place) :=
  match response with
  | .ok (some (location :: locations)) =>
    .ok ((location :: locations).map (fun location =>
      { location with state := if truthy location.state then location.state else none }))
  | .ok _ => .error (geocodingError (newError ("No locations found for city: " ++ cityName)))
  | .error error => .error (geocodingError error)

/-- `getCoordinatesByZip` of `src/services/geolocation.js`; the member `zip` of
the result is the argument `zipCode`. -/
def getCoordinatesByZip (zipCode : String) (response : Except JsError (Option Place)) :
    Except JsError (Place × String) :=
  match response with
  | .ok (some location) => .ok ({ location with state := none }, zipCode)
  | .ok none => .error (geocodingError (newError ("No location found for zip code: " ++ zipCode)))
  | .error error => .error (geocodingError error)

/-- The error with which an axios call rejects when its timeout has passed. -/
def timeoutError : JsError := ⟨"timeout of 5000ms exceeded", none, some "ECONNABORTED"⟩

/-! ## Transformers

The payloads of the providers are modelled by the members that the
transformers read; a member reached through optional chaining (`data.main?.temp`,
`data.weather?.[0]?.icon`) is one optional leaf named after its path.  The
`timestamp` member of a transformer result is not part of `Source`; what
remains of it is that building it throws for a time that `Date` cannot
represent.  The members `region` and `state` of the location, which nothing
reads, are left out. -/

/-- JavaScript truthiness of a numeric value: `undefined`, `NaN` and `0` are
falsy. -/
def JsNum.truthy : JsNum → Bool
  | .num q => q != 0
  | .undefined => false
  | .nan => false

/-- The product `x * k` for a numeric value `x`: `undefined` converts to `NaN`,
and `NaN` stays `NaN`. -/
def JsNum.times (x : JsNum) (k : ℚ) : JsNum :=
  match x with
  | .num q => .num (q * k)
  | .undefined => .nan
  | .nan => .nan

/-- The expression `x || 0` as a value of a numeric field. -/
def JsNum.orZeroNum (x : JsNum) : JsNum := .num x.orZero

/-- The expression `text || fallback` for a text value. -/
def orText (text : Option String) (fallback : String) : String :=
  match text with
  | some s => if truthy (some s) then s else fallback
  | none => fallback

/-- The time value of `new Date(x * 1000)`: `x * 1000` cut to a whole number of
milliseconds, and no time value (`NaN`) when `x` is not a number or the product
is beyond 8.64e15 in magnitude. -/
def timeValue : JsNum → Option ℤ
  | .num q =>
    if (q.num * 1000).natAbs ≤ 8640000000000000 * q.den then
      some ((q.num * 1000).tdiv (q.den : ℤ))
    else none
  | .undefined => none
  | .nan => none

/-- The `RangeError` that `toISOString` throws for a date without a time
value. -/
def invalidTime : JsError := newError "Invalid time value"

/-- The `TypeError` thrown by reading the member `name` of `undefined`. -/
def cannotRead (name : String) : JsError :=
  newError ("Cannot read properties of undefined (reading '" ++ name ++ "')")

/-- The payload of OpenWeather for one reading. -/
structure OpenWeatherData where
  dt : JsNum
  name : Option String
  sys_country : Option String
  coord_lat : JsNum
  coord_lon : JsNum
  main_temp : JsNum
  main_feels_like : JsNum
  main_humidity : JsNum
  main_pressure : JsNum
  wind_speed : JsNum
  wind_deg : JsNum
  weather_description : Option String
  weather_main : Option String
  weather_icon : Option String
  clouds_all : JsNum
  uvi : JsNum
  visibility : JsNum
  rain_1h : JsNum
  snow_1h : JsNum
  deriving DecidableEq

/-- `transformOpenWeatherData` of `src/utils/dataTransformer.js`. -/
def transformOpenWeatherData (data : OpenWeatherData) : Except JsError Source :=
  match timeValue data.dt with
  | none => .error invalidTime
  | some _ =>
    .ok
      { provider := "openweather"
        location := some
          { name := some (orText data.name "Unknown")
            country := some (orText data.sys_country "")
            lat := data.coord_lat
            lon := data.coord_lon }
        current :=
          { temp := data.main_temp
            feels_like := data.main_feels_like
            humidity := data.main_humidity
            pressure := data.main_pressure
            wind_speed := data.wind_speed
            wind_direction := data.wind_deg
            description := data.weather_description
            condition := data.weather_main
            icon := data.weather_icon
            clouds := data.clouds_all
            uv_index := data.uvi.orZeroNum
            visibility := data.visibility
            rain_1h := data.rain_1h.orZeroNum
            snow_1h := data.snow_1h.orZeroNum
            aqi := .undefined
            is_day := none }
        date := none }

/-- The member `current` of the payload of WeatherAPI, and the member `day` of
one of its forecast days. -/
structure WeatherApiCurrent where
  last_updated_epoch : JsNum
  temp_c : JsNum
  feelslike_c : JsNum
  humidity : JsNum
  pressure_mb : JsNum
  wind_kph : JsNum
  wind_degree : JsNum
  condition_text : Option String
  condition_icon : Option String
  cloud : JsNum
  uv : JsNum
  vis_km : JsNum
  precip_mm : JsNum
  is_day : JsNum
  deriving DecidableEq

/-- The member `location` of the payload of WeatherAPI. -/
structure WeatherApiLocation where
  name : Option String
  country : Option String
  lat : JsNum
  lon : JsNum
  deriving DecidableEq

/-- The payload of WeatherAPI for one reading. -/
structure WeatherApiData where
  current : Option WeatherApiCurrent
  location : Option WeatherApiLocation
  deriving DecidableEq

/-- `transformWeatherApiData` of `src/utils/dataTransformer.js`.  A truthy
`last_updated_epoch` is turned into the timestamp, which throws when it has no
time value; otherwise the timestamp is the current time. -/
def transformWeatherApiData (data : WeatherApiData) : Except JsError Source :=
  match data.current with
  | none => .error (cannotRead "last_updated_epoch")
  | some current =>
    if current.last_updated_epoch.truthy && (timeValue current.last_updated_epoch).isNone then
      .error invalidTime
    else
      .ok
        { provider := "weatherapi"
          location := some
            { name := some (orText (data.location.bind (fun l => l.name)) "Unknown")
              country := some (orText (data.location.bind (fun l => l.country)) "")
              lat := (data.location.map (fun l => l.lat)).getD .undefined
              lon := (data.location.map (fun l => l.lon)).getD .undefined }
          current :=
            { temp := current.temp_c
              feels_like := current.feelslike_c
              humidity := current.humidity
              pressure := current.pressure_mb
              wind_speed := current.wind_kph
              wind_direction := current.wind_degree
              description := current.condition_text
              condition := current.condition_text
              icon := current.condition_icon
              clouds := current.cloud
              uv_index := current.uv
              visibility := current.vis_km
              rain_1h := current.precip_mm.orZeroNum
              snow_1h := .undefined
              aqi := .undefined
              is_day := some (decide (current.is_day = .num 1)) }
          date := none }

/-- An element of the array `data` of the payload of Weatherbit. -/
structure WeatherBitCurrent where
  ts : JsNum
  temp : JsNum
  app_temp : JsNum
  rh : JsNum
  pres : JsNum
  wind_spd : JsNum
  wind_dir : JsNum
  weather_description : Option String
  weather_icon : Option String
  clouds : JsNum
  uv : JsNum
  vis : JsNum
  precip : JsNum
  snow : JsNum
  aqi : JsNum
  valid_date : Option String
  deriving DecidableEq

/-- The payload of Weatherbit. -/
structure WeatherBitData where
  data : Option (List WeatherBitCurrent)
  city_name : Option String
  country_code : Option String
  lat : JsNum
  lon : JsNum
  deriving DecidableEq

/-- `transformWeatherBitData` of `src/utils/dataTransformer.js`. -/
def transformWeatherBitData (data : WeatherBitData) : Except JsError Source :=
  match data.data with
  | none => .error (cannotRead "0")
  | some [] => .error (cannotRead "ts")
  | some (current :: _) =>
    if current.ts.truthy && (timeValue current.ts).isNone then .error invalidTime
    else
      .ok
        { provider := "weatherbit"
          location := some
            { name := some (orText data.city_name "Unknown")
              country := some (orText data.country_code "")
              lat := data.lat
              lon := data.lon }
          current :=
            { temp := current.temp
              feels_like := current.app_temp
              humidity := current.rh
              pressure := current.pres
              wind_speed := current.wind_spd.times (36 / 10)
              wind_direction := current.wind_dir
              description := current.weather_description
              condition := current.weather_description
              icon := current.weather_icon
              clouds := current.clouds
              uv_index := current.uv
              visibility := current.vis
              rain_1h := current.precip.orZeroNum
              snow_1h := current.snow.orZeroNum
              aqi := current.aqi
              is_day := none }
          date := none }

/-! ## Forecast adapters

`http` is the transport: what the one request of the adapter ends in, as a
function of its query parameters (the credential is left out of them).
`isoDate` gives the date part `YYYY-MM-DD` of `toISOString` for a time value,
`noonOf date` the time value of `new Date(date + 'T12:00:00Z')` and
`parseDate text` that of `new Date(text)`, each `none` for `NaN`.  A date part
holds hyphens, so it is neither an array index nor the name of an inherited
property, and the object `forecastByDay` lists its keys in creation order. -/

/-- The text of `status` in a template literal. -/
def statusText : Option Nat → String
  | some status => toString status
  | none => "undefined"

/-- The `catch` block of an adapter: an error with a `response` is replaced by
a new error that names the adapter, any other error is thrown again. -/
def adapterError (label member : String) (apiMessage : ErrorData → Option String)
    (error : JsError) : JsError :=
  match error.response with
  | some response =>
    match response.data with
    | some data =>
      newError (label ++ " (" ++ statusText response.status ++ "): " ++
        (if truthy (apiMessage data) then (apiMessage data).getD "" else error.message))
    | none => cannotRead member
  | none => error

/-- The array method `map` with a callback that may throw: the first error
ends it. -/
def mapThrowing {α β : Type} (f : α → Except JsError β) : List α → Except JsError (List β)
  | [] => .ok []
  | a :: rest =>
    match f a with
    | .error e => .error e
    | .ok b =>
      match mapThrowing f rest with
      | .error e => .error e
      | .ok bs => .ok (b :: bs)

/-- The array method `slice(0, end)`: a negative `end` counts from the end of
the array. -/
def slice0 {α : Type} (array : List α) (stop : ℤ) : List α :=
  if stop < 0 then array.take (array.length - stop.natAbs) else array.take stop.toNat

/-- A transformed list item of the OpenWeather forecast together with the time
value of its `timestamp`. -/
structure Sample where
  time : ℤ
  source : Source
  deriving DecidableEq

/-- The body of `response.data.list.forEach` up to the grouping: the date of the
item and the transformed item. -/
def toSample (isoDate : ℤ → String) (item : OpenWeatherData) :
    Except JsError (String × Sample) :=
  match timeValue item.dt with
  | none => .error invalidTime
  | some time =>
    match transformOpenWeatherData item with
    | .ok source => .ok (isoDate time, ⟨time, source⟩)
    | .error e => .error e

/-- The statements `if (!forecastByDay[date]) forecastByDay[date] = []` and
`forecastByDay[date].push(...)`. -/
def pushSample (forecastByDay : List (String × List Sample)) (dated : String × Sample) :
    List (String × List Sample) :=
  if forecastByDay.any (fun g => g.1 == dated.1) then
    forecastByDay.map (fun g => if g.1 == dated.1 then (g.1, g.2 ++ [dated.2]) else g)
  else forecastByDay ++ [(dated.1, [dated.2])]

/-- The object `forecastByDay` after the loop over the dated samples. -/
def groupByDay (dated : List (String × Sample)) : List (String × List Sample) :=
  dated.foldl pushSample []

/-- The variables `closestToDiff`, `none` standing for `Infinity`, and
`selectedForecast`. -/
structure Closest where
  closestToDiff : Option Nat
  selectedForecast : Sample
  deriving DecidableEq

/-- The body of `dayForecasts.forEach`: with `NaN` for `noonTarget` the
difference is `NaN` and the test `diff < closestToDiff` fails. -/
def closer (noonTarget : Option ℤ) (st : Closest) (forecast : Sample) : Closest :=
  match noonTarget with
  | some noon =>
    let diff := (forecast.time - noon).natAbs
    match st.closestToDiff with
    | none => ⟨some diff, forecast⟩
    | some closest => if diff < closest then ⟨some diff, forecast⟩ else st
  | none => st

/-- The selection of the representative of a day: `selectedForecast` starts as
the middle element of `dayForecasts`; `none` is `undefined`, for an empty
array. -/
def noonRepresentative (noonTarget : Option ℤ) (dayForecasts : List Sample) : Option Sample :=
  (dayForecasts[dayForecasts.length / 2]?).map (fun middle =>
    (dayForecasts.foldl (closer noonTarget) ⟨none, middle⟩).selectedForecast)

/-- The callback of `.map(date => ...)`: the representative of the day, with its
date. -/
def dailyForecast (noonOf : String → Option ℤ) (group : String × List Sample) :
    Except JsError (String × Sample) :=
  match noonRepresentative (noonOf group.1) group.2 with
  | some selectedForecast => .ok (group.1, selectedForecast)
  | none => .error (newError "Cannot set properties of undefined (setting 'date')")

/-- The days that the OpenWeather adapter selects from the list of the
response: the date and the selected sample of each of the first `days` days. -/
def OpenWeather.dailySamples (isoDate : ℤ → String) (noonOf : String → Option ℤ)
    (list : List OpenWeatherData) (days : ℤ) : Except JsError (List (String × Sample)) :=
  match mapThrowing (toSample isoDate) list with
  | .ok dated => mapThrowing (dailyForecast noonOf) (slice0 (groupByDay dated) days)
  | .error e => .error e

/-- The query parameters of the OpenWeather requests. -/
structure OpenWeatherParams where
  lat : JsNum
  lon : JsNum
  units : String
  deriving DecidableEq

/-- The `catch` block of the OpenWeather forecast adapter. -/
def OpenWeather.forecastError (error : JsError) : JsError :=
  adapterError "OpenWeather forecast API error" "message" (fun d => d.message) error

/-- `getForecast` of `src/services/weatherProviders/openWeather.js`; `units` is
`none` when the argument is `undefined`, and `none` for the list of the response
when the response has none. -/
def OpenWeather.getForecast (isoDate : ℤ → String) (noonOf : String → Option ℤ)
    (http : OpenWeatherParams → Except JsError (Option (List OpenWeatherData)))
    (lat lon : JsNum) (days : ℤ) (units : Option String) : Except JsError (List Source) :=
  match http ⟨lat, lon, units.getD "metric"⟩ with
  | .ok (some list) =>
    match OpenWeather.dailySamples isoDate noonOf list days with
    | .ok daily => .ok (daily.map (fun d => { d.2.source with date := some d.1 }))
    | .error e => .error (OpenWeather.forecastError e)
  | .ok none => .error (OpenWeather.forecastError (cannotRead "forEach"))
  | .error e => .error (OpenWeather.forecastError e)

/-- The query parameters of the WeatherAPI forecast request. -/
structure WeatherApiParams where
  lat : JsNum
  lon : JsNum
  days : ℤ
  aqi : String
  alerts : String
  deriving DecidableEq

/-- An element of `response.data.forecast.forecastday`. -/
structure WeatherApiForecastDay where
  date : Option String
  day : Option WeatherApiCurrent
  deriving DecidableEq

/-- The response of the WeatherAPI forecast request; `forecastday` is `none`
when `forecast.forecastday` cannot be read. -/
structure WeatherApiForecast where
  location : Option WeatherApiLocation
  forecastday : Option (List WeatherApiForecastDay)
  deriving DecidableEq

/-- The constant `validDays` of the WeatherAPI adapter. -/
def WeatherApi.validDays (days : ℤ) : ℤ := min (max days 1) 10

/-- The callback of `forecastday.map` in the WeatherAPI adapter. -/
def WeatherApi.forecastDay (parseDate : String → Option ℤ)
    (location : Option WeatherApiLocation) (day : WeatherApiForecastDay) :
    Except JsError Source :=
  match day.day with
  | none => .error (cannotRead "condition")
  | some dayDay =>
    let forecastData : WeatherApiData :=
      { location := location
        current := some
          { dayDay with
            last_updated_epoch :=
              match day.date.bind parseDate with
              | some time => .num ((time : ℚ) / 1000)
              | none => .nan } }
    match transformWeatherApiData forecastData with
    | .ok transformedData => .ok { transformedData with date := day.date }
    | .error e => .error e

/-- The `catch` block of the WeatherAPI forecast adapter. -/
def WeatherApi.forecastError (error : JsError) : JsError :=
  adapterError "WeatherAPI forecast error" "error" (fun d => d.error_message) error

/-- `getForecast` of `src/services/weatherProviders/weatherApi.js`. -/
def WeatherApi.getForecast (parseDate : String → Option ℤ)
    (http : WeatherApiParams → Except JsError WeatherApiForecast)
    (lat lon : JsNum) (days : ℤ) : Except JsError (List Source) :=
  match http ⟨lat, lon, WeatherApi.validDays days, "no", "no"⟩ with
  | .ok response =>
    match response.forecastday with
    | some forecastday =>
      match mapThrowing (WeatherApi.forecastDay parseDate response.location) forecastday with
      | .ok dailyForecasts => .ok dailyForecasts
      | .error e => .error (WeatherApi.forecastError e)
    | none => .error (WeatherApi.forecastError (cannotRead "forecastday"))
  | .error e => .error (WeatherApi.forecastError e)

/-- The query parameters of the Weatherbit requests. -/
structure WeatherBitParams where
  lat : JsNum
  lon : JsNum
  days : ℤ
  units : String
  deriving DecidableEq

/-- The constant `validDays` of the Weatherbit adapter. -/
def WeatherBit.validDays (days : ℤ) : ℤ := min (max days 1) 16

/-- The callback of `response.data.data.map` in the Weatherbit adapter. -/
def WeatherBit.forecastDay (response : WeatherBitData) (lat lon : JsNum)
    (dayData : WeatherBitCurrent) : Except JsError Source :=
  match transformWeatherBitData
      { data := some [dayData]
        city_name := response.city_name
        country_code := response.country_code
        lat := lat
        lon := lon } with
  | .ok transformedData => .ok { transformedData with date := dayData.valid_date }
  | .error e => .error e

/-- The `catch` block of the Weatherbit forecast adapter. -/
def WeatherBit.forecastError (error : JsError) : JsError :=
  adapterError "Weatherbit forecast API error" "error" (fun d => d.error) error

/-- `getForecast` of `src/services/weatherProviders/weatherBit.js`. -/
def WeatherBit.getForecast (http : WeatherBitParams → Except JsError WeatherBitData)
    (lat lon : JsNum) (days : ℤ) (units : Option String) : Except JsError (List Source) :=
  match http ⟨lat, lon, WeatherBit.validDays days, units.getD "M"⟩ with
  | .ok response =>
    match response.data with
    | some (dayData :: rest) =>
      match mapThrowing (WeatherBit.forecastDay response lat lon) (dayData :: rest) with
      | .ok dailyForecasts => .ok dailyForecasts
      | .error e => .error (WeatherBit.forecastError e)
    | _ => .error (WeatherBit.forecastError (newError "No forecast data returned from Weatherbit"))
  | .error e => .error (WeatherBit.forecastError e)

/-- Invariant of the object `forecastByDay` after the dated samples `dated`:
each group holds, in order, the samples with its date, and the dates stand in
the order of their first appearance. -/
structure GroupInv (dated : List (String × Sample)) (groups : List (String × List Sample)) :
    Prop where
  members : ∀ g ∈ groups,
    g.2 = (dated.filter (fun p => p.1 == g.1)).map (fun p => p.2) ∧
    g.1 ∈ dated.map (fun p => p.1)
  covered : ∀ p ∈ dated, ∃ g ∈ groups, g.1 = p.1
  order : (groups.map (fun g => g.1)).Pairwise
    (fun a b => (dated.map (fun p => p.1)).indexOf a < (dated.map (fun p => p.1)).indexOf b)

/-- Invariant of the loop `dayForecasts.forEach` after the samples `done`:
`selectedForecast` is the first of the samples closest to `noon`. -/
structure ClosestInv (noon : ℤ) (done : List Sample) (st : Closest) : Prop where
  none_case : st.closestToDiff = none → done = []
  some_case : ∀ d, st.closestToDiff = some d →
    d = (st.selectedForecast.time - noon).natAbs ∧
    ∃ pre post, done = pre ++ st.selectedForecast :: post ∧
      (∀ s ∈ pre, d < (s.time - noon).natAbs) ∧
      (∀ s ∈ post, d ≤ (s.time - noon).natAbs)

/-- An OpenWeather payload with the time `dt` and every other member
absent. -/
def openWeatherItem (dt : JsNum) : OpenWeatherData :=
  { dt := dt, name := none, sys_country := none, coord_lat := .undefined,
    coord_lon := .undefined, main_temp := .undefined, main_feels_like := .undefined,
    main_humidity := .undefined, main_pressure := .undefined, wind_speed := .undefined,
    wind_deg := .undefined, weather_description := none, weather_main := none,
    weather_icon := none, clouds_all := .undefined, uvi := .undefined,
    visibility := .undefined, rain_1h := .undefined, snow_1h := .undefined }

/-- A Weatherbit reading with every member absent. -/
def weatherBitItem : WeatherBitCurrent :=
  { ts := .undefined, temp := .undefined, app_temp := .undefined, rh := .undefined,
    pres := .undefined, wind_spd := .undefined, wind_dir := .undefined,
    weather_description := none, weather_icon := none, clouds := .undefined, uv := .undefined,
    vis := .undefined, precip := .undefined, snow := .undefined, aqi := .undefined,
    valid_date := none }

/-- Example calendar for the week from 2026-11-04, day 20761 of the epoch: the
date part of a time value of that week. -/
def weekIsoDate (time : ℤ) : String :=
  weekFrom (time / 86400000 - 20761).toNat

/-- Example calendar: the time value of noon of a date of the week from
2026-11-04. -/
def weekNoonOf (date : String) : Option ℤ :=
  ((List.range 7).find? (fun i => weekFrom i == date)).map
    (fun i => (20761 + (i : ℤ)) * 86400000 + 43200000)

/-- An OpenWeather list item `seconds` after 2026-11-04 00:00 UTC with the
temperature `temp`. -/
def sampleAt (seconds : ℤ) (temp : ℚ) : OpenWeatherData :=
  { openWeatherItem (.num ((1793750400 + seconds : ℤ) : ℚ)) with main_temp := .num temp }

/-- Example list: samples at 09:00, 12:00 and 15:00 of the first day and at
10:30 and 13:30 of the second. -/
def twoDaysOfSamples : List OpenWeatherData :=
  [sampleAt 32400 9, sampleAt 43200 12, sampleAt 54000 15,
   sampleAt 124200 10, sampleAt 135000 13]

/-- Example list, not in chronological order: the samples at 13:30 and at 10:30
of the second day, the later one first. -/
def laterSampleFirst : List OpenWeatherData :=
  [sampleAt 135000 13, sampleAt 124200 10]

/-- Example list: one sample at noon of each of six consecutive days, as many
dates as the 40 three-hourly samples of a response can span. -/
def sixDates : List OpenWeatherData :=
  [sampleAt 43200 10, sampleAt 129600 11, sampleAt 216000 12, sampleAt 302400 13,
   sampleAt 388800 14, sampleAt 475200 15]

/-- A numeric leaf lacking in the payload is emitted as the absent marker. -/
def StaysAbsent (source emitted : JsNum) : Prop :=
  source = .undefined → emitted = .undefined

/-- A text leaf lacking in the payload is emitted as the absent marker. -/
def StaysAbsentText (source emitted : Option String) : Prop :=
  source = none → emitted = none

/-- A WeatherAPI reading with every member absent. -/
def weatherApiItem : WeatherApiCurrent :=
  { last_updated_epoch := .undefined, temp_c := .undefined, feelslike_c := .undefined,
    humidity := .undefined, pressure_mb := .undefined, wind_kph := .undefined,
    wind_degree := .undefined, condition_text := none, condition_icon := none,
    cloud := .undefined, uv := .undefined, vis_km := .undefined, precip_mm := .undefined,
    is_day := .undefined }

/-! # Theorems -/

/-! ## Rounding to the nearest double -/

theorem bitLength_zero (fuel : ℕ) : bitLength fuel 0 = 0 := by
  cases fuel <;> simp [bitLength]

theorem bitLength_spec (fuel n : ℕ) (hfuel : n ≤ fuel) (hn : n ≠ 0) :
    2 ^ (bitLength fuel n - 1) ≤ n ∧ n < 2 ^ bitLength fuel n ∧ 0 < bitLength fuel n := by
  induction fuel generalizing n with
  | zero => omega
  | succ f ih =>
    rw [bitLength, if_neg hn]
    by_cases h2 : n / 2 = 0
    · rw [h2, bitLength_zero]
      have : n = 1 := by omega
      subst this
      simp
    · obtain ⟨h1, h3, h4⟩ := ih (n / 2) (by omega) h2
      refine ⟨?_, ?_, by omega⟩
      · rw [Nat.add_sub_cancel]
        have : 2 ^ bitLength f (n / 2) = 2 * 2 ^ (bitLength f (n / 2) - 1) := by
          rw [← pow_succ']
          congr 1
          omega
        omega
      · rw [pow_succ]
        omega

/-- The two exponents of a power of two with an integer exponent. -/
theorem two_zpow_split (k : ℤ) : (2 : ℚ) ^ k = 2 ^ k.toNat / 2 ^ (-k).toNat := by
  rcases le_total 0 k with h | h
  · have h1 : (-k).toNat = 0 := by omega
    rw [h1, pow_zero, div_one]
    conv_lhs => rw [← Int.toNat_of_nonneg h]
    rw [zpow_natCast]
  · have h1 : k.toNat = 0 := by omega
    have h2 : k = -((-k).toNat : ℤ) := by omega
    rw [h1, pow_zero]
    conv_lhs => rw [h2]
    rw [zpow_neg, zpow_natCast, one_div]

/-- The quotient of the scaled numerator and denominator is the quotient scaled. -/
theorem scaled_div (a b : ℕ) (k : ℤ) :
    ((a * 2 ^ (-k).toNat : ℕ) : ℚ) / ((b * 2 ^ k.toNat : ℕ) : ℚ) = (a : ℚ) / b / 2 ^ k := by
  rw [two_zpow_split k]
  push_cast
  have h1 : (2 : ℚ) ^ k.toNat ≠ 0 := by positivity
  have h2 : (2 : ℚ) ^ (-k).toNat ≠ 0 := by positivity
  by_cases hb : (b : ℚ) = 0
  · simp [hb]
  · field_simp

theorem binaryExponent_spec (a b : ℕ) (ha : 0 < a) (hb : 0 < b) :
    (2 : ℚ) ^ binaryExponent a b ≤ (a : ℚ) / b ∧ (a : ℚ) / b < 2 ^ (binaryExponent a b + 1) := by
  obtain ⟨ha1, ha2, ha3⟩ := bitLength_spec a a le_rfl (by omega)
  obtain ⟨hb1, hb2, hb3⟩ := bitLength_spec b b le_rfl (by omega)
  have hbq : (0 : ℚ) < b := by exact_mod_cast hb
  have haq : (0 : ℚ) < a := by exact_mod_cast ha
  -- the bounds that the bit lengths give
  have hlow : (2 : ℚ) ^ ((bitLength a a : ℤ) - (bitLength b b : ℤ) - 1) < (a : ℚ) / b := by
    rw [lt_div_iff₀ hbq]
    have h1 : (2 : ℚ) ^ (bitLength a a - 1) ≤ a := by exact_mod_cast ha1
    have h2 : (b : ℚ) < 2 ^ bitLength b b := by exact_mod_cast hb2
    have h3 : (2 : ℚ) ^ ((bitLength a a : ℤ) - (bitLength b b : ℤ) - 1)
        = 2 ^ (bitLength a a - 1) / 2 ^ bitLength b b := by
      rw [show ((bitLength a a : ℤ) - (bitLength b b : ℤ) - 1)
          = ((bitLength a a - 1 : ℕ) : ℤ) - ((bitLength b b : ℕ) : ℤ) by omega,
        zpow_sub₀ (by norm_num), zpow_natCast, zpow_natCast]
    rw [h3, div_mul_eq_mul_div, div_lt_iff₀ (by positivity)]
    calc (2 : ℚ) ^ (bitLength a a - 1) * b < 2 ^ (bitLength a a - 1) * 2 ^ bitLength b b := by
          apply mul_lt_mul_of_pos_left h2 (by positivity)
      _ ≤ a * 2 ^ bitLength b b := by
          apply mul_le_mul_of_nonneg_right h1 (by positivity)
  have hhigh : (a : ℚ) / b < 2 ^ ((bitLength a a : ℤ) - (bitLength b b : ℤ) + 1) := by
    rw [div_lt_iff₀ hbq]
    have h1 : (a : ℚ) < 2 ^ bitLength a a := by exact_mod_cast ha2
    have h2 : (2 : ℚ) ^ (bitLength b b - 1) ≤ b := by exact_mod_cast hb1
    have h3 : (2 : ℚ) ^ ((bitLength a a : ℤ) - (bitLength b b : ℤ) + 1)
        = 2 ^ bitLength a a / 2 ^ (bitLength b b - 1) := by
      rw [show ((bitLength a a : ℤ) - (bitLength b b : ℤ) + 1)
          = ((bitLength a a : ℕ) : ℤ) - ((bitLength b b - 1 : ℕ) : ℤ) by omega,
        zpow_sub₀ (by norm_num), zpow_natCast, zpow_natCast]
    rw [h3, div_mul_eq_mul_div, lt_div_iff₀ (by positivity)]
    calc (a : ℚ) * 2 ^ (bitLength b b - 1) < 2 ^ bitLength a a * 2 ^ (bitLength b b - 1) := by
          apply mul_lt_mul_of_pos_right h1 (by positivity)
      _ ≤ 2 ^ bitLength a a * b := by
          apply mul_le_mul_of_nonneg_left h2 (by positivity)
  -- the comparison decides between the two candidates
  have hcmp : ∀ k : ℤ, (a * 2 ^ (-k).toNat < b * 2 ^ k.toNat) ↔ (a : ℚ) / b < 2 ^ k := by
    intro k
    rw [two_zpow_split, div_lt_div_iff₀ hbq (by positivity), mul_comm (2 ^ k.toNat : ℚ) (b : ℚ)]
    norm_cast
  unfold binaryExponent
  simp only
  split
  · rename_i h
    refine ⟨le_of_lt hlow, ?_⟩
    rw [sub_add_cancel]
    exact (hcmp _).1 h
  · rename_i h
    exact ⟨not_lt.1 (fun h' => h ((hcmp _).2 h')), hhigh⟩

theorem roundHalfEven_spec (n d : ℕ) (hd : 0 < d) :
    |(roundHalfEven n d : ℚ) - (n : ℚ) / d| ≤ 1 / 2 := by
  have hdq : (0 : ℚ) < d := by exact_mod_cast hd
  have key : ∀ m : ℕ, (2 * m * d ≤ 2 * n + d) → (2 * n ≤ 2 * m * d + d) →
      |(m : ℚ) - (n : ℚ) / d| ≤ 1 / 2 := by
    intro m h1 h2
    have h1' : (2 : ℚ) * m * d ≤ 2 * n + d := by exact_mod_cast h1
    have h2' : (2 : ℚ) * n ≤ 2 * m * d + d := by exact_mod_cast h2
    rw [abs_le]
    constructor
    · have : (n : ℚ) / d ≤ m + 1 / 2 := by
        rw [div_le_iff₀ hdq]
        linarith
      linarith
    · have : (m : ℚ) - 1 / 2 ≤ n / d := by
        rw [le_div_iff₀ hdq]
        linarith
      linarith
  have hnd := Nat.div_add_mod n d
  have hr : n % d < d := Nat.mod_lt n hd
  unfold roundHalfEven
  simp only
  generalize n / d = q at hnd ⊢
  generalize n % d = r at hnd hr ⊢
  subst hnd
  split
  · apply key <;> linarith
  · split
    · apply key <;> linarith
    · have : 2 * r = d := by omega
      split <;> apply key <;> linarith

/-- The result of `roundDouble` is a multiple `m * 2 ^ u` of a power of two not
below `2 ^ (-1074)`, with a significand `m` of at most `2 ^ 53`, and it is at
most half of `2 ^ u` away from `x`; `2 ^ u` is at most `|x| / 2 ^ 52`, or is
`2 ^ (-1074)`. -/
theorem roundDouble_spec (x : ℚ) :
    ∃ (m : ℕ) (u : ℤ), |roundDouble x| = (m : ℚ) * 2 ^ u ∧ m ≤ 2 ^ 53 ∧ -1074 ≤ u ∧
      |roundDouble x - x| ≤ 2 ^ u / 2 ∧ ((2 : ℚ) ^ u ≤ |x| / 2 ^ 52 ∨ u = -1074) := by
  by_cases hx : x = 0
  · refine ⟨0, -1074, ?_, by norm_num, le_rfl, ?_, Or.inr rfl⟩
    · simp [roundDouble, hx]
    · simp [roundDouble, hx]
      positivity
  · have ha : 0 < x.num.natAbs := Int.natAbs_pos.2 (Rat.num_ne_zero.2 hx)
    have hb : 0 < x.den := x.den_pos
    have habs : |x| = (x.num.natAbs : ℚ) / x.den := by
      conv_lhs => rw [← Rat.num_div_den x]
      rw [abs_div, Nat.cast_natAbs, Int.cast_abs]
      congr 1
      exact abs_of_pos (by exact_mod_cast hb)
    obtain ⟨he1, he2⟩ := binaryExponent_spec _ _ ha hb
    generalize hu : max (binaryExponent x.num.natAbs x.den - 52) (-1074) = u
    generalize hm : roundHalfEven (x.num.natAbs * 2 ^ (-u).toNat) (x.den * 2 ^ u.toNat) = m
    have hround : roundDouble x = if x < 0 then -((m : ℚ) * 2 ^ u) else (m : ℚ) * 2 ^ u := by
      simp only [roundDouble, if_neg hx, hu, hm]
    have hpow : (0 : ℚ) < 2 ^ u := by positivity
    have hu1 : binaryExponent x.num.natAbs x.den - 52 ≤ u := by rw [← hu]; exact le_max_left _ _
    have hu2 : -1074 ≤ u := by rw [← hu]; exact le_max_right _ _
    have hnear := roundHalfEven_spec (x.num.natAbs * 2 ^ (-u).toNat) (x.den * 2 ^ u.toNat)
      (by positivity)
    rw [hm, scaled_div, ← habs] at hnear
    rw [← habs] at he1 he2
    -- the distance from `|x|`
    have hdist : |(m : ℚ) * 2 ^ u - abs x| ≤ 2 ^ u / 2 := by
      have : (m : ℚ) * 2 ^ u - abs x = ((m : ℚ) - abs x / 2 ^ u) * 2 ^ u := by
        field_simp
      rw [this, abs_mul, abs_of_pos hpow]
      calc |(m : ℚ) - abs x / 2 ^ u| * 2 ^ u ≤ 1 / 2 * 2 ^ u :=
            mul_le_mul_of_nonneg_right hnear hpow.le
        _ = 2 ^ u / 2 := by ring
    refine ⟨m, u, ?_, ?_, hu2, ?_, ?_⟩
    · rw [hround]
      split
      · rw [abs_neg, abs_of_nonneg (by positivity)]
      · rw [abs_of_nonneg (by positivity)]
    · -- the significand
      have h1 : |x| / 2 ^ u < 2 ^ 53 := by
        rw [div_lt_iff₀ hpow]
        calc abs x < 2 ^ (binaryExponent x.num.natAbs x.den + 1) := he2
          _ ≤ 2 ^ (u + 53) := zpow_le_zpow_right₀ (by norm_num) (by omega)
          _ = 2 ^ 53 * 2 ^ u := by
              rw [zpow_add₀ (by norm_num), mul_comm]
              norm_num
      have h2 : (m : ℚ) < 2 ^ 53 + 1 := by
        have := (abs_le.1 hnear).2
        linarith
      have h3 : m < 2 ^ 53 + 1 := by exact_mod_cast h2
      omega
    · rw [hround]
      split
      · rename_i hneg
        rw [abs_of_neg hneg] at hdist
        rw [← abs_neg]
        convert hdist using 2
        ring
      · rename_i hneg
        rw [abs_of_nonneg (not_lt.1 hneg)] at hdist
        exact hdist
    · rcases le_total (-1074) (binaryExponent x.num.natAbs x.den - 52) with h | h
      · left
        have : u = binaryExponent x.num.natAbs x.den - 52 := by rw [← hu]; exact max_eq_left h
        rw [this, zpow_sub₀ (by norm_num), show (2 : ℚ) ^ (52 : ℤ) = 2 ^ 52 from by norm_num]
        exact div_le_div_of_nonneg_right he1 (by positivity)
      · right
        rw [← hu]
        exact max_eq_right h

/-- The doubles that the host reads the numerals 0.1, -0.1, 1.01 and 1e30 as,
the two halfway cases below the normal range, and two numbers that are
doubles. -/
theorem roundDouble_examples :
    roundDouble (1 / 10) = 3602879701896397 / 2 ^ 55 ∧
    roundDouble (-(1 / 10)) = -(3602879701896397 / 2 ^ 55) ∧
    roundDouble (101 / 100) = 4548635623644201 / 2 ^ 52 ∧
    roundDouble (10 ^ 30) = 1000000000000000019884624838656 ∧
    roundDouble (1 / 2 ^ 1075) = 0 ∧
    roundDouble (3 / 2 ^ 1075) = 2 / 2 ^ 1074 ∧
    roundDouble 22 = 22 ∧ roundDouble (2013 / 2) = 2013 / 2 := by
  decide!

/-! ## Numeric fields -/

theorem total_foldl_accumulate (lc : String → String) (f : NumField) (sources : List Source)
    (acc : Accumulator) :
    f.total (sources.foldl (accumulate lc) acc)
      = (sources.map (fun s => (f.get s.current).orZero)).foldl
          (fun total value => roundDouble (total + value)) (f.total acc) := by
  induction sources generalizing acc with
  | nil => rfl
  | cons s rest ih =>
    rw [List.foldl_cons, ih, List.map_cons, List.foldl_cons]
    congr 1
    cases f <;> rfl

theorem aggregate_numField (lc : String → String) (f : NumField) (a b : Source)
    (rest : List Source) :
    ∃ r, aggregateWeatherData lc (a :: b :: rest) = some r ∧
      f.get r = .num (toFixed2
        (doubleMean ((a :: b :: rest).map (fun s => (f.get s.current).orZero)))) := by
  refine ⟨_, rfl, ?_⟩
  have h := total_foldl_accumulate lc f (a :: b :: rest) ⟨0, 0, 0, 0, 0, 0, [], []⟩
  unfold doubleMean doubleSum
  rw [List.length_map]
  cases f <;> simp only [NumField.get, NumField.total] at h ⊢ <;> rw [← h]

theorem toFixedDigits_spec (x : ℚ) :
    (toFixedDigits x : ℚ) ≤ x * 100 + 1 / 2 ∧ x * 100 + 1 / 2 < toFixedDigits x + 1 :=
  ⟨Int.floor_le _, Int.lt_floor_add_one _⟩

theorem toFixed2_spec (x : ℚ) :
    ∃ n : ℤ, toFixed2 x = roundDouble ((n : ℚ) / 100) ∧ |(n : ℚ) / 100 - x| ≤ 1 / 200 := by
  unfold toFixed2
  split
  · refine ⟨-toFixedDigits (-x), by push_cast; ring_nf, ?_⟩
    obtain ⟨h1, h2⟩ := toFixedDigits_spec (-x)
    rw [abs_le]; push_cast; constructor <;> linarith
  · refine ⟨toFixedDigits x, rfl, ?_⟩
    obtain ⟨h1, h2⟩ := toFixedDigits_spec x
    rw [abs_le]; constructor <;> linarith

/-- Where every addition is exact — each sum of the first `k` values is a
double — the sum that the loop forms is the sum of the values. -/
theorem doubleSum_exact (values : List ℚ)
    (h : ∀ k ≤ values.length, roundDouble ((values.take k).sum) = (values.take k).sum) :
    doubleSum values = values.sum := by
  induction values using List.reverseRecOn with
  | nil => rfl
  | append_singleton l v ih =>
    have hl : doubleSum l = l.sum := by
      apply ih
      intro k hk
      have := h k (by rw [List.length_append]; omega)
      rwa [List.take_append_of_le_length hk] at this
    have hfull := h (l ++ [v]).length le_rfl
    rw [List.take_length] at hfull
    unfold doubleSum at hl ⊢
    rw [List.foldl_append, List.foldl_cons, List.foldl_nil, hl]
    rw [List.sum_append, List.sum_singleton] at hfull ⊢
    exact hfull

/-! ## Text fields -/

theorem scan_append (st : MostCommon) (es : List (String × CountVal)) (e : String × CountVal) :
    scan st (es ++ [e]) =
      match e.2 with
      | .count n => if n > (scan st es).maxCount then ⟨n, some e.1⟩ else scan st es
      | .text => scan st es := by
  simp [scan, List.foldl_append]

theorem scanInv_scan (es : List (String × CountVal)) : ScanInv es (scan ⟨0, none⟩ es) := by
  induction es using List.reverseRecOn with
  | nil => exact ⟨fun _ => ⟨rfl, by simp⟩, fun w h => by simp [scan] at h⟩
  | append_singleton es e ih =>
    rw [scan_append]
    rcases e with ⟨k, v⟩
    cases v with
    | text =>
      refine ⟨fun h => ?_, fun w h => ?_⟩
      · obtain ⟨h0, hall⟩ := ih.none_case h
        refine ⟨h0, fun e he m hm => ?_⟩
        rcases List.mem_append.1 he with he | he
        · exact hall e he m hm
        · rw [List.mem_singleton.1 he] at hm; cases hm
      · obtain ⟨l1, l2, hsplit, hlt, hle⟩ := ih.some_case w h
        refine ⟨l1, l2 ++ [(k, .text)], by conv_lhs => rw [hsplit, List.append_assoc, List.cons_append]
          , hlt, fun e he m hm => ?_⟩
        rcases List.mem_append.1 he with he | he
        · exact hle e he m hm
        · rw [List.mem_singleton.1 he] at hm; cases hm
    | count n =>
      by_cases hn : n > (scan ⟨0, none⟩ es).maxCount
      · simp only [hn, if_true]
        refine ⟨fun h => by simp at h, fun w h => ?_⟩
        simp at h; subst h
        refine ⟨es, [], rfl, fun e he m hm => ?_, by simp⟩
        cases hmc : (scan ⟨0, none⟩ es).mostCommon with
        | none =>
          have := (ih.none_case hmc).2 e he m hm
          show m < n
          omega
        | some w =>
          obtain ⟨l1, l2, hsplit, hlt, hle⟩ := ih.some_case w hmc
          rw [hsplit] at he
          simp only [List.mem_append, List.mem_cons] at he
          rcases he with he | he | he
          · have := hlt e he m hm; show m < n; omega
          · rw [he] at hm; cases hm; show _ < n; omega
          · have := hle e he m hm; show m < n; omega
      · simp only [hn, if_false]
        refine ⟨fun h => ?_, fun w h => ?_⟩
        · obtain ⟨h0, hall⟩ := ih.none_case h
          refine ⟨h0, fun e he m hm => ?_⟩
          rcases List.mem_append.1 he with he | he
          · exact hall e he m hm
          · rw [List.mem_singleton.1 he] at hm; cases hm; omega
        · obtain ⟨l1, l2, hsplit, hlt, hle⟩ := ih.some_case w h
          refine ⟨l1, l2 ++ [(k, .count n)], by conv_lhs => rw [hsplit, List.append_assoc, List.cons_append]
          , hlt, fun e he m hm => ?_⟩
          rcases List.mem_append.1 he with he | he
          · exact hle e he m hm
          · rw [List.mem_singleton.1 he] at hm; cases hm; omega

theorem mem_of_lookup_eq_some {k : String} {v : CountVal} {o : CountObj}
    (h : o.lookup k = some v) : (k, v) ∈ o := by
  induction o with
  | nil => simp at h
  | cons e o ih =>
    rcases e with ⟨k', v'⟩
    by_cases hk : k = k'
    · subst hk; simp [List.lookup] at h; subst h; simp
    · have : (k == k') = false := by simpa using hk
      simp [List.lookup, this] at h
      exact List.mem_cons_of_mem _ (ih h)

theorem not_mem_of_lookup_eq_none {k : String} {o : CountObj}
    (h : o.lookup k = none) : ∀ e ∈ o, e.1 ≠ k := by
  intro e he hk
  have h' : ∀ a b, (a, b) ∈ o → ¬k = a := by simpa using h
  exact h' e.1 e.2 he hk.symm

theorem setProp_of_mem {o : CountObj} {k : String} (v : CountVal) (h : ∃ e ∈ o, e.1 = k) :
    setProp o k v = o.map (fun e => if e.1 == k then (k, v) else e) := by
  unfold setProp
  rw [if_pos]
  simpa [List.any_eq_true] using h

theorem setProp_of_not_mem {o : CountObj} {k : String} (v : CountVal) (h : ∀ e ∈ o, e.1 ≠ k) :
    setProp o k v = o ++ [(k, v)] := by
  unfold setProp
  rw [if_neg]
  simp only [List.any_eq_true, beq_iff_eq, not_exists, not_and]
  exact fun e he => h e he

theorem plainText_some {k : String} (h : plainText (some k) = true) :
    arrayIndex? k = none ∧ k ∉ objectPrototypeKeys ∧ k ≠ "__proto__" := by
  simpa [plainText, and_assoc] using h

theorem entries_of_plain (o : CountObj) (h : ∀ e ∈ o, arrayIndex? e.1 = none) :
    entries o = o := by
  unfold entries
  have h1 : o.filterMap (fun e => (arrayIndex? e.1).map (fun n => (n, e))) = [] := by
    rw [List.filterMap_eq_nil_iff]
    intro e he
    simp [h e he]
  have h2 : o.filter (fun e => (arrayIndex? e.1).isNone) = o := by
    rw [List.filter_eq_self]
    intro e he
    simp [h e he]
  simp [h1, h2]

theorem TallyInv.skip {vals : List (Option String)} {o : CountObj} (inv : TallyInv vals o)
    (v : Option String) (hv : truthy v = false) : TallyInv (vals ++ [v]) o := by
  refine ⟨fun e he => ?_, fun u hu ht => ?_, fun l1 e l2 h => ?_⟩
  · obtain ⟨h1, h2, h3, h4⟩ := inv.entry e he
    have hne : v ≠ some e.1 := fun h => by rw [h, h2] at hv; cases hv
    refine ⟨h1, h2, ?_, List.mem_append_left _ h4⟩
    rw [h3, List.count_append, List.count_singleton]
    simp [hne]
  · rcases List.mem_append.1 hu with hu | hu
    · exact inv.covered u hu ht
    · rw [List.mem_singleton.1 hu, hv] at ht; cases ht
  · obtain ⟨pre, post, h1, h2, h3⟩ := inv.order l1 e l2 h
    exact ⟨pre, post ++ [v], by rw [h1]; simp, h2, h3⟩

theorem TallyInv.bump {vals : List (Option String)} {o : CountObj} (inv : TallyInv vals o)
    (k : String) (hk : truthy (some k) = true) (hp : plainText (some k) = true) :
    TallyInv (vals ++ [some k]) (increment o k) := by
  obtain ⟨hidx, hproto, hne⟩ := plainText_some hp
  unfold increment
  rw [if_neg hne]
  cases hlook : o.lookup k with
  | none =>
    have hfresh := not_mem_of_lookup_eq_none hlook
    have hnot : some k ∉ vals := by
      intro hmem
      obtain ⟨e, he, hek⟩ := inv.covered _ hmem hk
      exact hfresh e he (Option.some.inj hek)
    simp only [if_neg hproto]
    rw [setProp_of_not_mem _ hfresh]
    refine ⟨fun e he => ?_, fun u hu ht => ?_, fun l1 e l2 h => ?_⟩
    · rcases List.mem_append.1 he with he | he
      · obtain ⟨h1, h2, h3, h4⟩ := inv.entry e he
        refine ⟨h1, h2, ?_, List.mem_append_left _ h4⟩
        have hne' : k ≠ e.1 := fun h => hfresh e he h.symm
        rw [h3, List.count_append, List.count_singleton]
        simp [hne']
      · rw [List.mem_singleton.1 he]
        refine ⟨hidx, hk, ?_, by simp⟩
        rw [List.count_append, List.count_eq_zero_of_not_mem hnot]
        simp
    · rcases List.mem_append.1 hu with hu | hu
      · obtain ⟨e, he, hek⟩ := inv.covered u hu ht
        exact ⟨e, List.mem_append_left _ he, hek⟩
      · exact ⟨(k, .count 1), by simp, (List.mem_singleton.1 hu).symm⟩
    · rcases List.append_eq_append_iff.1 h with ⟨m, hm1, hm2⟩ | ⟨m, hm1, hm2⟩
      · cases m with
        | nil =>
          rw [List.nil_append] at hm2
          injection hm2 with hm2 hm3
          rw [List.append_nil] at hm1
          subst hm1 hm2
          exact ⟨vals, [], rfl, hnot, fun v hv ht => inv.covered v hv ht⟩
        | cons x m =>
          have := congrArg List.length hm2
          simp at this
      · cases m with
        | nil =>
          rw [List.nil_append] at hm2
          injection hm2 with hm2 hm3
          rw [List.append_nil] at hm1
          subst hm1 hm2
          exact ⟨vals, [], rfl, hnot, fun v hv ht => inv.covered v hv ht⟩
        | cons x m =>
          rw [List.cons_append] at hm2
          injection hm2 with hm2 hm3
          subst hm2
          obtain ⟨pre, post, h1, h2, h3⟩ := inv.order l1 e m hm1
          exact ⟨pre, post ++ [some k], by rw [h1]; simp, h2, h3⟩
  | some c =>
    have hmem := mem_of_lookup_eq_some hlook
    obtain ⟨-, -, hc, hkv⟩ := inv.entry _ hmem
    simp only at hc
    subst hc
    simp only
    rw [setProp_of_mem _ ⟨_, hmem, rfl⟩]
    refine ⟨fun e he => ?_, fun u hu ht => ?_, fun l1 e l2 h => ?_⟩
    · obtain ⟨e0, he0, rfl⟩ := List.mem_map.1 he
      obtain ⟨h1, h2, h3, h4⟩ := inv.entry e0 he0
      by_cases hek : e0.1 = k
      · simp only [hek, beq_self_eq_true, if_true]
        refine ⟨hidx, hk, ?_, by simp⟩
        rw [List.count_append]; simp
      · have : (e0.1 == k) = false := by simpa using hek
        simp only [this, Bool.false_eq_true, if_false]
        refine ⟨h1, h2, ?_, List.mem_append_left _ h4⟩
        rw [h3, List.count_append, List.count_singleton]
        have hne' : k ≠ e0.1 := fun h => hek h.symm
        simp [hne']
    · have hcov : ∀ u ∈ vals, truthy u = true →
          ∃ e ∈ o.map (fun e => if e.1 == k then (k, CountVal.count (vals.count (some k) + 1)) else e),
            some e.1 = u := by
        intro u hu ht
        obtain ⟨e, he, hek⟩ := inv.covered u hu ht
        refine ⟨_, List.mem_map_of_mem _ he, ?_⟩
        by_cases hek' : e.1 = k
        · simp [hek', ← hek]
        · have : (e.1 == k) = false := by simpa using hek'
          simp [this, hek]
      rcases List.mem_append.1 hu with hu | hu
      · exact hcov u hu ht
      · rw [List.mem_singleton.1 hu]; exact hcov _ hkv hk
    · obtain ⟨m1, m2, ho, hl1, hrest⟩ := List.map_eq_append_iff.1 h
      obtain ⟨e0, m3, hm2, he0, hl2⟩ := List.map_eq_cons_iff.1 hrest
      subst hm2
      have hkey : e.1 = e0.1 := by
        rw [← he0]
        by_cases hek' : e0.1 = k
        · simp [hek']
        · have : (e0.1 == k) = false := by simpa using hek'
          simp [this]
      obtain ⟨pre, post, h1, h2, h3⟩ := inv.order m1 e0 m3 ho
      refine ⟨pre, post ++ [some k], by rw [h1, hkey]; simp, by rw [hkey]; exact h2,
        fun v hv ht => ?_⟩
      obtain ⟨e', he', hek⟩ := h3 v hv ht
      refine ⟨_, by rw [← hl1]; exact List.mem_map_of_mem _ he', ?_⟩
      by_cases hek' : e'.1 = k
      · simp [hek', ← hek]
      · have : (e'.1 == k) = false := by simpa using hek'
        simp [this, hek]

theorem tallyInv_foldl (vals : List (Option String)) (hplain : ∀ v ∈ vals, plainText v = true) :
    TallyInv vals (vals.foldl countText []) := by
  induction vals using List.reverseRecOn with
  | nil => exact ⟨by simp, by simp, by simp⟩
  | append_singleton vals v ih =>
    have ih := ih (fun u hu => hplain u (List.mem_append_left _ hu))
    rw [List.foldl_append, List.foldl_cons, List.foldl_nil]
    cases v with
    | none => exact ih.skip none rfl
    | some k =>
      by_cases hk : truthy (some k) = true
      · simp only [countText, hk, if_true]
        exact ih.bump k hk (hplain _ (by simp))
      · have hk' : truthy (some k) = false := by simpa using hk
        simp only [countText, hk']
        exact ih.skip _ hk'

theorem counts_foldl_accumulate (lc : String → String) (f : TextField) (sources : List Source)
    (acc : Accumulator) :
    f.counts (sources.foldl (accumulate lc) acc)
      = (loweredValues lc f sources).foldl countText (f.counts acc) := by
  induction sources generalizing acc with
  | nil => rfl
  | cons s rest ih =>
    rw [List.foldl_cons, ih]
    cases f <;> rfl

theorem aggregate_textField (lc : String → String) (f : TextField) (a b : Source)
    (rest : List Source) :
    ∃ r, aggregateWeatherData lc (a :: b :: rest) = some r ∧
      f.get r = findMostCommon ((loweredValues lc f (a :: b :: rest)).foldl countText []) := by
  refine ⟨_, rfl, ?_⟩
  have h := counts_foldl_accumulate lc f (a :: b :: rest) ⟨0, 0, 0, 0, 0, 0, [], []⟩
  cases f <;> simp only [TextField.get, TextField.counts] at h ⊢ <;> rw [h]

/-- What `findMostCommon` returns for the count object of plain text values. -/
theorem findMostCommon_tally (vals : List (Option String))
    (hplain : ∀ v ∈ vals, plainText v = true) :
    (findMostCommon (vals.foldl countText []) = none ↔ ∀ v ∈ vals, truthy v = false) ∧
    ∀ w, findMostCommon (vals.foldl countText []) = some w →
      truthy (some w) = true ∧
      (∀ v ∈ vals, truthy v = true → vals.count v ≤ vals.count (some w)) ∧
      ∃ pre post, vals = pre ++ some w :: post ∧ some w ∉ pre ∧
        ∀ v ∈ pre, truthy v = true → vals.count v < vals.count (some w) := by
  have inv := tallyInv_foldl vals hplain
  have hent : entries (vals.foldl countText []) = vals.foldl countText [] :=
    entries_of_plain _ (fun e he => (inv.entry e he).1)
  have hfind : findMostCommon (vals.foldl countText [])
      = (scan ⟨0, none⟩ (vals.foldl countText [])).mostCommon := by
    unfold findMostCommon scan
    rw [hent]
  have sinv := scanInv_scan (vals.foldl countText [])
  rw [hfind]
  generalize vals.foldl countText [] = o at inv sinv
  constructor
  · constructor
    · intro hnone v hv
      by_contra ht
      have ht : truthy v = true := by simpa using ht
      obtain ⟨e, he, hek⟩ := inv.covered v hv ht
      obtain ⟨-, -, h3, h4⟩ := inv.entry e he
      have h0 := (sinv.none_case hnone).2 e he _ h3
      have := List.count_pos_iff.2 h4
      omega
    · intro hall
      have ho : o = [] := by
        cases o with
        | nil => rfl
        | cons e o =>
          obtain ⟨-, h2, -, h4⟩ := inv.entry e (by simp)
          rw [hall _ h4] at h2; cases h2
      subst ho
      rfl
  · intro w hw
    obtain ⟨l1, l2, hsplit, hlt, hle⟩ := sinv.some_case w hw
    generalize (scan ⟨0, none⟩ o).maxCount = M at hsplit hlt hle
    obtain ⟨-, htw, hcw, -⟩ := inv.entry (w, .count M) (by rw [hsplit]; simp)
    have hM : M = vals.count (some w) := by simpa using hcw
    subst hM
    refine ⟨htw, fun v hv ht => ?_, ?_⟩
    · obtain ⟨e, he, hek⟩ := inv.covered v hv ht
      obtain ⟨-, -, h3, -⟩ := inv.entry e he
      rw [hek] at h3
      rw [hsplit] at he
      simp only [List.mem_append, List.mem_cons] at he
      rcases he with he | he | he
      · exact le_of_lt (hlt e he _ h3)
      · rw [← hek, he]
      · exact hle e he _ h3
    · obtain ⟨pre, post, h1, h2, h3⟩ := inv.order l1 _ l2 hsplit
      refine ⟨pre, post, h1, h2, fun v hv ht => ?_⟩
      obtain ⟨e', he', hek⟩ := h3 v hv ht
      obtain ⟨-, -, h3', -⟩ := inv.entry e' (by rw [hsplit]; simp [he'])
      rw [hek] at h3'
      exact hlt e' he' _ h3'

/-! ## The field aggregator: specified properties -/

/-- C1. Single-source pass-through: for every source `s`, `aggregateWeatherData`
of the one-element list `[s]` returns exactly `s.current`, every numeric and
textual field unchanged and unrounded; so a sole source with `temp` 21.437 gives
the aggregated `temp` 21.437. -/
theorem single_source_pass_through (toLowerCase : String → String) (s : Source) :
    aggregateWeatherData toLowerCase [s] = some s.current ∧
    (aggregateWeatherData toLowerCase
        [reading "openweather" { Observation.empty with temp := .num (21437 / 1000) }]).map
      (fun r => r.temp) = some (.num (21437 / 1000)) :=
  ⟨rfl, rfl⟩

/-- Counterexample to C2 as stated: two sources report the temperatures 1 and
1.01, the latter the double that the numeral 1.01 denotes.  Their arithmetic
mean lies above 1.005: it is less than 0.005 away from 1.01 and more than 0.005
away from 1, so rounded to two fractional digits it is 1.01.  The aggregated
temperature is 1: the sum of the two doubles is rounded down to a double, and
half of it lies below 1.005. -/
theorem rounded_sum_lowers_mean :
    (aggregateWeatherData asciiLower
        [reading "openweather" { Observation.empty with temp := .num 1 },
         reading "weatherapi"
          { Observation.empty with temp := .num (roundDouble (101 / 100)) }]).map
      (fun r => r.temp) = some (.num 1) ∧
    |(1 + roundDouble (101 / 100)) / 2 - 101 / 100| < 1 / 200 ∧
    1 / 200 < |(1 + roundDouble (101 / 100)) / 2 - 1| ∧
    doubleMean [1, roundDouble (101 / 100)] < 1005 / 1000 := by
  decide!

/-- C2, as amended. Multi-source averaging: for every list of more than one
source in which every source reports the field `f` (one of `temp`,
`feels_like`, `humidity`, `pressure`, `wind_speed`, `wind_direction`) with the
number `value s`, the field of the result of `aggregateWeatherData` is
`parseFloat(q.toFixed(2))` for the mean `q` that the code computes in doubles:
the sum of the values formed from 0 in list order, each addition rounded to
the nearest double, divided by the number of sources and rounded again.  It is
the double of a decimal `n / 100` at most half a hundredth away from `q`.
Where the additions and the division are exact — every sum of the first `k`
values and the quotient `sum / N` are doubles — `q` is the arithmetic mean and
the field is `parseFloat((sum / N).toFixed(2))`. -/
theorem multi_source_averaging (toLowerCase : String → String) (sources : List Source)
    (hN : 1 < sources.length) (f : NumField) (value : Source → ℚ)
    (hreported : ∀ s ∈ sources, f.get s.current = .num (value s)) :
    ∃ r, aggregateWeatherData toLowerCase sources = some r ∧
      f.get r = .num (toFixed2 (doubleMean (sources.map value))) ∧
      (∃ n : ℤ, f.get r = .num (roundDouble ((n : ℚ) / 100)) ∧
        |(n : ℚ) / 100 - doubleMean (sources.map value)| ≤ 1 / 200) ∧
      ((∀ k ≤ sources.length,
          roundDouble (((sources.map value).take k).sum) = ((sources.map value).take k).sum) →
        roundDouble ((sources.map value).sum / (sources.length : ℚ))
          = (sources.map value).sum / (sources.length : ℚ) →
        doubleMean (sources.map value) = (sources.map value).sum / (sources.length : ℚ) ∧
        f.get r = .num (toFixed2 ((sources.map value).sum / (sources.length : ℚ)))) := by
  match sources, hN with
  | a :: b :: rest, _ =>
    obtain ⟨r, hr, hf⟩ := aggregate_numField toLowerCase f a b rest
    have hmap : (a :: b :: rest).map (fun s => (f.get s.current).orZero)
        = (a :: b :: rest).map value :=
      List.map_congr_left (fun s hs => by rw [hreported s hs]; rfl)
    rw [hmap] at hf
    obtain ⟨n, hn, hclose⟩ := toFixed2_spec (doubleMean ((a :: b :: rest).map value))
    refine ⟨r, hr, hf, ⟨n, by rw [hf, hn], hclose⟩, fun hsums hquotient => ?_⟩
    have hmean : doubleMean ((a :: b :: rest).map value)
        = ((a :: b :: rest).map value).sum / ((a :: b :: rest).length : ℚ) := by
      unfold doubleMean
      rw [doubleSum_exact _ (by rw [List.length_map]; exact hsums), List.length_map]
      exact hquotient
    exact ⟨hmean, by rw [hf, hmean]⟩

/-- Witness of C2 as amended: the temperatures 20.0, 22.0 and 24.0, whose sums
20, 42 and 66 and whose mean 22 are doubles, give the aggregated temperature
22.00. -/
theorem multi_source_averaging_witness :
    ∃ r, aggregateWeatherData asciiLower
        [reading "openweather" { Observation.empty with temp := .num 20 },
         reading "weatherapi" { Observation.empty with temp := .num 22 },
         reading "weatherbit" { Observation.empty with temp := .num 24 }] = some r ∧
      r.temp = .num 22 := by
  obtain ⟨r, hr, -, -, hexact⟩ := multi_source_averaging asciiLower
    [reading "openweather" { Observation.empty with temp := .num 20 },
     reading "weatherapi" { Observation.empty with temp := .num 22 },
     reading "weatherbit" { Observation.empty with temp := .num 24 }]
    (by decide) .temp (fun s => s.current.temp.orZero)
    (by
      intro s hs
      simp only [List.mem_cons, List.mem_singleton, List.not_mem_nil, or_false] at hs
      rcases hs with rfl | rfl | rfl <;> rfl)
  refine ⟨r, hr, ?_⟩
  rw [show r.temp = NumField.get .temp r from rfl, (hexact (by decide!) (by decide!)).2]
  decide!

/-- C3, evaluated at the failing input: of two sources of which only the first
reports a humidity, 60, the aggregated humidity is 30 — the absent value was
added as 0 and the sum divided by 2 — and not 60. -/
theorem missing_field_halves_humidity :
    ∃ r, aggregateWeatherData asciiLower
        [reading "openweather" { Observation.empty with humidity := .num 60 },
         reading "weatherapi" Observation.empty] = some r ∧
      r.humidity = .num 30 ∧ r.humidity ≠ .num 60 := by
  refine ⟨_, rfl, ?_⟩
  decide!

/-- C4, as amended. Categorical plurality: for every list of more than one
source whose lower-cased values of the field (`description` or `condition`) are
plain — no array-index string, no name inherited from `Object.prototype` — the
merged value is the lower-cased value with the highest case-insensitive
occurrence count, among several with that count the one that occurs first in
the source list, and it is absent exactly when no source reports a non-empty
value. -/
theorem categorical_plurality (toLowerCase : String → String) (f : TextField)
    (sources : List Source) (hN : 1 < sources.length)
    (hplain : ∀ v ∈ loweredValues toLowerCase f sources, plainText v = true) :
    ∃ r, aggregateWeatherData toLowerCase sources = some r ∧
      (f.get r = none ↔ ∀ v ∈ loweredValues toLowerCase f sources, truthy v = false) ∧
      ∀ w, f.get r = some w →
        truthy (some w) = true ∧
        (∀ v ∈ loweredValues toLowerCase f sources, truthy v = true →
          (loweredValues toLowerCase f sources).count v
            ≤ (loweredValues toLowerCase f sources).count (some w)) ∧
        ∃ pre post, loweredValues toLowerCase f sources = pre ++ some w :: post ∧
          some w ∉ pre ∧
          ∀ v ∈ pre, truthy v = true →
            (loweredValues toLowerCase f sources).count v
              < (loweredValues toLowerCase f sources).count (some w) := by
  match sources, hN with
  | a :: b :: rest, _ =>
    obtain ⟨r, hr, hf⟩ := aggregate_textField toLowerCase f a b rest
    refine ⟨r, hr, ?_⟩
    rw [hf]
    exact findMostCommon_tally _ hplain

/-- Witness of C4: the conditions "Rain", "rain", "Clouds" merge to "rain", and
so do the two conditions "rain", "clouds", which occur once each. -/
theorem categorical_plurality_witness :
    (∃ r, aggregateWeatherData asciiLower
        [reading "openweather" { Observation.empty with condition := some "Rain" },
         reading "weatherapi" { Observation.empty with condition := some "rain" },
         reading "weatherbit" { Observation.empty with condition := some "Clouds" }] = some r ∧
      r.condition = some "rain") ∧
    (∃ r, aggregateWeatherData asciiLower
        [reading "openweather" { Observation.empty with condition := some "rain" },
         reading "weatherapi" { Observation.empty with condition := some "clouds" }] = some r ∧
      r.condition = some "rain") := by
  constructor
  · obtain ⟨r, hr, -, -⟩ := categorical_plurality asciiLower .condition
      [reading "openweather" { Observation.empty with condition := some "Rain" },
       reading "weatherapi" { Observation.empty with condition := some "rain" },
       reading "weatherbit" { Observation.empty with condition := some "Clouds" }]
      (by decide) (by decide)
    refine ⟨r, hr, ?_⟩
    have h : some r = _ := hr.symm.trans rfl
    rw [Option.some.inj h]
    decide
  · obtain ⟨r, hr, -, -⟩ := categorical_plurality asciiLower .condition
      [reading "openweather" { Observation.empty with condition := some "rain" },
       reading "weatherapi" { Observation.empty with condition := some "clouds" }]
      (by decide) (by decide)
    refine ⟨r, hr, ?_⟩
    have h : some r = _ := hr.symm.trans rfl
    rw [Option.some.inj h]
    decide

/-- Counterexample to C4 as stated: of the two descriptions "rain" and "5", each
occurring once, "rain" occurs first in the source list, yet the merged
description is "5": `Object.entries` lists the array-index key "5" before the
key "rain".  Two sources that both report the empty description merge to an
absent description. -/
theorem categorical_plurality_numeric_key :
    (aggregateWeatherData asciiLower
        [reading "openweather" { Observation.empty with description := some "rain" },
         reading "weatherapi" { Observation.empty with description := some "5" }]).map
      (fun r => r.description) = some (some "5") ∧
    (aggregateWeatherData asciiLower
        [reading "openweather" { Observation.empty with description := some "" },
         reading "weatherapi" { Observation.empty with description := some "" }]).map
      (fun r => r.description) = some none := by
  constructor <;> decide

/-! ## The aggregation engine -/

theorem foldl_settleCurrentWeather (outcome : Provider → Except String Source)
    (order : List Provider) (init : WeatherResult) :
    order.foldl (settleCurrentWeather outcome) init
      = (order.filterMap (fulfilled outcome)).foldl onCurrentWeather init := by
  induction order generalizing init with
  | nil => rfl
  | cons p order ih =>
    rw [List.foldl_cons, ih]
    unfold settleCurrentWeather
    cases h : outcome p <;> simp [fulfilled, h]

theorem onCurrentWeather_sources (results : WeatherResult) (data : Source) :
    (onCurrentWeather results data).sources = results.sources ++ [data] := by
  unfold onCurrentWeather
  split
  · split <;> rfl
  · rfl

theorem foldl_onCurrentWeather_sources (ds : List Source) (init : WeatherResult) :
    (ds.foldl onCurrentWeather init).sources = init.sources ++ ds := by
  induction ds generalizing init with
  | nil => simp
  | cons d ds ih => rw [List.foldl_cons, ih, onCurrentWeather_sources]; simp

theorem aggregateWeatherData_isSome (lc : String → String) (sources : List Source)
    (h : sources ≠ []) : (aggregateWeatherData lc sources).isSome = true := by
  match sources, h with
  | [_], _ => rfl
  | _ :: _ :: _, _ => rfl

theorem filterMap_fulfilled_eq_nil {α : Type} (outcome : Provider → Except String α)
    (l : List Provider) :
    l.filterMap (fulfilled outcome) = [] ↔ ∀ p ∈ l, ∀ d, outcome p ≠ .ok d := by
  rw [List.filterMap_eq_nil_iff]
  constructor
  · intro h p hp d hd
    have := h p hp
    simp [fulfilled, hd] at this
  · intro h p hp
    cases hd : outcome p with
    | ok d => exact absurd hd (h p hp d)
    | error e => simp [fulfilled, hd]

/-- What `getCurrentWeather` returns, in terms of the fulfilled calls in
settling order. -/
theorem getCurrentWeather_eq (lc : String → String) (lat lon : JsNum)
    (providers : Option (List String)) (outcome : Provider → Except String Source)
    (settling : Settling providers) :
    getCurrentWeather lc lat lon providers outcome settling =
      if settling.order.filterMap (fulfilled outcome) = [] then
        .error "No weather data available from any provider"
      else
        .ok { (settling.order.filterMap (fulfilled outcome)).foldl onCurrentWeather
                { sources := [], location := ⟨lat, lon, none, none⟩, aggregated := none } with
              aggregated :=
                aggregateWeatherData lc (settling.order.filterMap (fulfilled outcome)) } := by
  unfold getCurrentWeather
  simp only [foldl_settleCurrentWeather, foldl_onCurrentWeather_sources, List.nil_append,
    List.length_eq_zero]

theorem onCurrentWeather_location (results : WeatherResult) (data : Source) :
    (onCurrentWeather results data).location =
      if providesName data then
        { results.location with
          name := data.location.bind (fun l => l.name)
          country := data.location.bind (fun l => l.country) }
      else results.location := by
  unfold onCurrentWeather providesName
  cases h : data.location with
  | none => simp [truthy]
  | some l =>
    by_cases hl : truthy l.name = true
    · simp [hl]
    · simp [hl]

theorem foldl_onCurrentWeather_location (ds : List Source) (init : WeatherResult) :
    (ds.foldl onCurrentWeather init).location =
      match (ds.filter providesName).getLast? with
      | some d =>
        { init.location with
          name := d.location.bind (fun l => l.name)
          country := d.location.bind (fun l => l.country) }
      | none => init.location := by
  induction ds using List.reverseRecOn with
  | nil => rfl
  | append_singleton ds d ih =>
    rw [List.foldl_append, List.foldl_cons, List.foldl_nil, onCurrentWeather_location,
      List.filter_append]
    by_cases hd : providesName d = true
    · have hlast : (List.filter providesName ds ++ List.filter providesName [d]).getLast?
          = some d := by simp [hd, List.filter_cons]
      rw [hlast, if_pos hd, ih]
      cases (List.filter providesName ds).getLast? <;> rfl
    · simp [hd, List.filter_cons, ih]

theorem dispatch_nodup (providers : Option (List String)) : (dispatch providers).Nodup := by
  unfold dispatch
  exact List.Nodup.filter _ (by decide)

theorem mem_dispatch (providers : Option (List String)) (p : Provider) :
    p ∈ dispatch providers ↔ p.name ∈ allowlist providers := by
  unfold dispatch
  cases p <;> simp [List.mem_filter]

theorem onForecast_sources (p : Provider) (results : ForecastResult) (data : List Source) :
    (onForecast p results data).sources = results.sources ++ [⟨p.name, data⟩] := by
  unfold onForecast
  split
  · split <;> rfl
  · rfl

theorem foldl_settleForecast_sources (outcome : Provider → Except String (List Source))
    (order : List Provider) (init : ForecastResult) :
    (order.foldl (settleForecast outcome) init).sources
      = init.sources ++ order.filterMap
          (fun p => (fulfilled outcome p).map (fun d => (⟨p.name, d⟩ : ForecastSource))) := by
  induction order generalizing init with
  | nil => simp
  | cons p order ih =>
    rw [List.foldl_cons, ih]
    unfold settleForecast
    cases h : outcome p <;> simp [fulfilled, h, onForecast_sources]

theorem exists_fulfilled {α : Type} (outcome : Provider → Except String α) (l : List Provider)
    (f : Provider → α → ForecastSource)
    (h : ∃ p ∈ l, ∃ d, outcome p = .ok d) :
    l.filterMap (fun p => (fulfilled outcome p).map (f p)) ≠ [] := by
  obtain ⟨p, hp, d, hd⟩ := h
  intro hnil
  have := List.filterMap_eq_nil_iff.1 hnil p hp
  simp [fulfilled, hd] at this

/-! ## The aggregation engine: specified properties -/

/-- C5. Zero-success failure and presence of `aggregated`: for every allowlist,
all adapter outcomes and every settling order, `getCurrentWeather` returns a
result whose `aggregated` is present if at least one dispatched adapter call was
fulfilled, and if none was it fails with 'No weather data available from any
provider', returning no result. -/
theorem zero_success_failure (toLowerCase : String → String) (lat lon : JsNum)
    (providers : Option (List String)) (outcome : Provider → Except String Source)
    (settling : Settling providers) :
    ((∃ p ∈ dispatch providers, ∃ d, outcome p = .ok d) →
      ∃ r, getCurrentWeather toLowerCase lat lon providers outcome settling = .ok r ∧
        r.aggregated.isSome = true) ∧
    ((∀ p ∈ dispatch providers, ∀ d, outcome p ≠ .ok d) →
      getCurrentWeather toLowerCase lat lon providers outcome settling
        = .error "No weather data available from any provider") := by
  rw [getCurrentWeather_eq]
  constructor
  · rintro ⟨p, hp, d, hd⟩
    have hne : settling.order.filterMap (fulfilled outcome) ≠ [] := by
      intro hnil
      exact (filterMap_fulfilled_eq_nil outcome _).1 hnil p (settling.perm.mem_iff.2 hp) d hd
    rw [if_neg hne]
    exact ⟨_, rfl, aggregateWeatherData_isSome _ _ hne⟩
  · intro hall
    rw [if_pos]
    exact (filterMap_fulfilled_eq_nil outcome _).2
      (fun p hp => hall p (settling.perm.mem_iff.1 hp))

/-- Witness of C5: with two fulfilled calls the result carries an aggregate,
and with none the engine fails. -/
theorem zero_success_failure_witness :
    (∃ r, getCurrentWeather asciiLower (.num 51) (.num 0) none twoAnswers (inDispatchOrder none)
        = .ok r ∧ r.aggregated.isSome = true) ∧
    getCurrentWeather asciiLower (.num 51) (.num 0) none noAnswer (inDispatchOrder none)
      = .error "No weather data available from any provider" :=
  ⟨(zero_success_failure asciiLower (.num 51) (.num 0) none twoAnswers (inDispatchOrder none)).1
      ⟨.openweather, by decide, _, rfl⟩,
   (zero_success_failure asciiLower (.num 51) (.num 0) none noAnswer (inDispatchOrder none)).2
      (fun _ _ _ h => by cases h)⟩

/-- C6. Partial-failure tolerance: for every allowlist, all adapter outcomes
with at least one fulfilled dispatched call, and every settling order,
`getCurrentWeather` and `getForecast` return a result, and its `sources` hold,
in some order, exactly one envelope for each dispatched adapter whose call was
fulfilled; the dispatched adapters are the allowed ones, each once. -/
theorem partial_failure_tolerance (toLowerCase : String → String) (dateOf : Nat → String)
    (lat lon : JsNum) (days : ℤ) (providers : Option (List String))
    (current : Provider → Except String Source)
    (forecast : Provider → Except String (List Source))
    (settling settling' : Settling providers) :
    (dispatch providers).Nodup ∧
    (∀ p, p ∈ dispatch providers ↔ p.name ∈ allowlist providers) ∧
    ((∃ p ∈ dispatch providers, ∃ d, current p = .ok d) →
      ∃ r, getCurrentWeather toLowerCase lat lon providers current settling = .ok r ∧
        r.sources.Perm ((dispatch providers).filterMap (fulfilled current))) ∧
    ((∃ p ∈ dispatch providers, ∃ d, forecast p = .ok d) →
      ∃ r, getForecast toLowerCase dateOf lat lon days providers forecast settling' = .ok r ∧
        r.sources.Perm ((dispatch providers).filterMap
          (fun p => (fulfilled forecast p).map (fun d => (⟨p.name, d⟩ : ForecastSource))))) := by
  refine ⟨dispatch_nodup providers, mem_dispatch providers, ?_, ?_⟩
  · rintro ⟨p, hp, d, hd⟩
    have hne : settling.order.filterMap (fulfilled current) ≠ [] := by
      intro hnil
      exact (filterMap_fulfilled_eq_nil current _).1 hnil p (settling.perm.mem_iff.2 hp) d hd
    rw [getCurrentWeather_eq, if_neg hne]
    refine ⟨_, rfl, ?_⟩
    simp only [foldl_onCurrentWeather_sources, List.nil_append]
    exact settling.perm.filterMap _
  · intro h
    obtain ⟨p, hp, d, hd⟩ := h
    have hne := exists_fulfilled forecast settling'.order (fun p d => ⟨p.name, d⟩)
      ⟨p, settling'.perm.mem_iff.2 hp, d, hd⟩
    unfold getForecast
    simp only [foldl_settleForecast_sources, List.nil_append, List.length_eq_zero]
    rw [if_neg hne]
    exact ⟨_, rfl, settling'.perm.filterMap _⟩

/-- Witness of C6: OpenWeather and WeatherAPI answer and Weatherbit times out,
and the current-weather result holds the two envelopes; of the forecast calls
only WeatherAPI answers, and the forecast result holds its envelope. -/
theorem partial_failure_tolerance_witness :
    (∃ r, getCurrentWeather asciiLower (.num 51) (.num 0) none twoAnswers weatherapiFirst = .ok r ∧
      r.sources.Perm ((dispatch none).filterMap (fulfilled twoAnswers))) ∧
    (∃ r, getForecast asciiLower weekFrom (.num 51) (.num 0) 5 none threeDays openweatherLast
        = .ok r ∧
      r.sources.Perm ((dispatch none).filterMap
        (fun p => (fulfilled threeDays p).map (fun d => (⟨p.name, d⟩ : ForecastSource))))) :=
  ⟨(partial_failure_tolerance asciiLower weekFrom (.num 51) (.num 0) 5 none twoAnswers
      threeDays weatherapiFirst openweatherLast).2.2.1 ⟨.openweather, by decide, _, rfl⟩,
   (partial_failure_tolerance asciiLower weekFrom (.num 51) (.num 0) 5 none twoAnswers
      threeDays weatherapiFirst openweatherLast).2.2.2 ⟨.weatherapi, by decide, _, rfl⟩⟩

/-- Counterexample to C7 as stated: with the same outcomes, the run in which
OpenWeather ends first lists its envelope first and aggregates to the condition
"rain" and the icon "10d", and the run in which WeatherAPI ends first lists
WeatherAPI first, against the dispatch order, and aggregates to "clouds" and
"116.png". -/
theorem settling_order_changes_aggregate :
    ((getCurrentWeather asciiLower (.num 51) (.num 0) none twoAnswers
        (inDispatchOrder none)).toOption.map
      (fun r => (r.sources.map (fun s => s.provider),
        r.aggregated.bind (fun o => o.condition), r.aggregated.bind (fun o => o.icon))))
      = some (["openweather", "weatherapi"], some "rain", some "10d") ∧
    ((getCurrentWeather asciiLower (.num 51) (.num 0) none twoAnswers
        weatherapiFirst).toOption.map
      (fun r => (r.sources.map (fun s => s.provider),
        r.aggregated.bind (fun o => o.condition), r.aggregated.bind (fun o => o.icon))))
      = some (["weatherapi", "openweather"], some "clouds", some "116.png") := by
  constructor <;> decide

theorem aggregateWeatherData_icon (lc : String → String) (d : Source) (rest : List Source) :
    (aggregateWeatherData lc (d :: rest)).bind (fun o => o.icon) = d.current.icon := by
  cases rest <;> rfl

/-- C7, as amended. Settling-order dependence: for fixed adapter outcomes the
order of `result.sources` is the order in which the fulfilled calls settled,
`aggregated` is the aggregate of the sources in that order, its icon that of
the first call to settle; and two runs with the same outcomes in which the
fulfilled calls settle in the same order return the same result. -/
theorem sources_in_settling_order (toLowerCase : String → String) (lat lon : JsNum)
    (providers : Option (List String)) (outcome : Provider → Except String Source)
    (settling settling' : Settling providers) :
    (∀ r, getCurrentWeather toLowerCase lat lon providers outcome settling = .ok r →
      r.sources = settling.order.filterMap (fulfilled outcome) ∧
      r.aggregated = aggregateWeatherData toLowerCase r.sources ∧
      r.aggregated.bind (fun o => o.icon) = (r.sources.head?).bind (fun s => s.current.icon)) ∧
    (settling.order.filterMap (fulfilled outcome) = settling'.order.filterMap (fulfilled outcome) →
      getCurrentWeather toLowerCase lat lon providers outcome settling
        = getCurrentWeather toLowerCase lat lon providers outcome settling') := by
  constructor
  · intro r hr
    rw [getCurrentWeather_eq] at hr
    split at hr
    · cases hr
    · rename_i hne
      injection hr with hr
      subst hr
      have hsrc := foldl_onCurrentWeather_sources (settling.order.filterMap (fulfilled outcome))
        { sources := [], location := ⟨lat, lon, none, none⟩, aggregated := none }
      rw [List.nil_append] at hsrc
      dsimp only
      rw [hsrc]
      refine ⟨rfl, rfl, ?_⟩
      cases hds : settling.order.filterMap (fulfilled outcome) with
      | nil => exact absurd hds hne
      | cons d rest => exact aggregateWeatherData_icon _ d rest
  · intro h
    rw [getCurrentWeather_eq, getCurrentWeather_eq, h]

/-- Witness of C7 as amended: when WeatherAPI settles first, the sources are
the WeatherAPI and the OpenWeather envelope in this order; and the settling
orders `weatherapi, openweather, weatherbit` and `weatherapi, weatherbit,
openweather` of the same outcomes give the same result. -/
theorem sources_in_settling_order_witness :
    (∃ r, getCurrentWeather asciiLower (.num 51) (.num 0) none twoAnswers weatherapiFirst = .ok r ∧
      r.sources = weatherapiFirst.order.filterMap (fulfilled twoAnswers)) ∧
    getCurrentWeather asciiLower (.num 51) (.num 0) none twoAnswers weatherapiFirst
      = getCurrentWeather asciiLower (.num 51) (.num 0) none twoAnswers openweatherLast :=
  ⟨⟨_, rfl, ((sources_in_settling_order asciiLower (.num 51) (.num 0) none twoAnswers
      weatherapiFirst openweatherLast).1 _ rfl).1⟩,
   (sources_in_settling_order asciiLower (.num 51) (.num 0) none twoAnswers
      weatherapiFirst openweatherLast).2 (by decide)⟩

/-- Counterexample to C8 as stated: OpenWeather, named "London", settles first
and WeatherAPI, named "City of London", second; the result carries the name and
country of WeatherAPI, the later one. -/
theorem later_source_overwrites_name :
    (getCurrentWeather asciiLower (.num 51) (.num 0) none twoAnswers
        (inDispatchOrder none)).toOption.map
      (fun r => (r.sources.map (fun s => s.location.bind (fun l => l.name)),
        r.location.name, r.location.country))
      = some ([some "London", some "City of London"],
          some "City of London", some "United Kingdom") := by
  decide

/-- C8, as amended. Location name is last-success-wins: the `location` of the
result of `getCurrentWeather` keeps the requested coordinates, and its `name`
and `country` are those of the last fulfilled source, in settling order, that
provides a non-empty location name — every later such source overwrites
them — and are absent when no fulfilled source provides one. -/
theorem location_name_last_wins (toLowerCase : String → String) (lat lon : JsNum)
    (providers : Option (List String)) (outcome : Provider → Except String Source)
    (settling : Settling providers) (r : WeatherResult)
    (hr : getCurrentWeather toLowerCase lat lon providers outcome settling = .ok r) :
    r.location.lat = lat ∧ r.location.lon = lon ∧
    match ((settling.order.filterMap (fulfilled outcome)).filter providesName).getLast? with
    | some d =>
      r.location.name = d.location.bind (fun l => l.name) ∧
      r.location.country = d.location.bind (fun l => l.country)
    | none => r.location.name = none ∧ r.location.country = none := by
  rw [getCurrentWeather_eq] at hr
  split at hr
  · cases hr
  · injection hr with hr
    subst hr
    simp only [foldl_onCurrentWeather_location]
    cases ((settling.order.filterMap (fulfilled outcome)).filter providesName).getLast? <;>
      simp

/-- Witness of C8 as amended: when WeatherAPI settles first and OpenWeather
after it, the result carries the name and country of OpenWeather. -/
theorem location_name_last_wins_witness :
    ∃ r, getCurrentWeather asciiLower (.num 51) (.num 0) none twoAnswers weatherapiFirst = .ok r ∧
      r.location.name = some "London" ∧ r.location.country = some "GB" := by
  have h := location_name_last_wins asciiLower (.num 51) (.num 0) none twoAnswers
    weatherapiFirst _ rfl
  exact ⟨_, rfl, h.2.2⟩

/-! ## Forecast day alignment -/

theorem lt_longestForecast (sources : List ForecastSource) (i : Nat) :
    i < longestForecast sources ↔ ∃ s ∈ sources, i < s.data.length := by
  unfold longestForecast
  induction sources with
  | nil => simp
  | cons s rest ih =>
    simp only [List.map_cons, List.foldr_cons, lt_max_iff, ih, List.mem_cons, exists_eq_or_imp]

theorem forecastDates_length (dateOf : Nat → String) (days : ℤ) :
    (forecastDates dateOf days).length = days.toNat := by
  simp [forecastDates]

theorem indexOf_forecastDates (dateOf : Nat → String) (days : ℤ)
    (hnodup : (forecastDates dateOf days).Nodup) (i : Nat) (hi : i < days.toNat) :
    (forecastDates dateOf days).indexOf (dateOf i) = i := by
  have hlen : i < (forecastDates dateOf days).length := by
    rw [forecastDates_length]; exact hi
  have h := List.indexOf_getElem hnodup i hlen
  have hget : (forecastDates dateOf days)[i] = dateOf i := by
    simp [forecastDates]
  rwa [hget] at h

theorem dateOf_injOn (dateOf : Nat → String) (days : ℤ)
    (hnodup : (forecastDates dateOf days).Nodup) (i j : Nat) (hi : i < days.toNat)
    (hj : j < days.toNat) (h : dateOf i = dateOf j) : i = j := by
  rw [← indexOf_forecastDates dateOf days hnodup i hi,
    ← indexOf_forecastDates dateOf days hnodup j hj, h]

/-- The sources collected for the date at day offset `i`. -/
theorem dayData_sources (lc : String → String) (dateOf : Nat → String) (days : ℤ)
    (sources : List ForecastSource) (hnodup : (forecastDates dateOf days).Nodup) (i : Nat)
    (hi : i < days.toNat) :
    (dayData lc (forecastDates dateOf days) sources (dateOf i)).sources.map
        (fun c => (c.provider, some c.forecast))
      = (sources.filter (fun p => i < p.data.length)).map (fun p => (p.provider, p.data[i]?)) := by
  unfold dayData
  simp only [indexOf_forecastDates dateOf days hnodup i hi]
  induction sources with
  | nil => rfl
  | cons s rest ih =>
    by_cases hs : i < s.data.length
    · simp [List.filterMap_cons, List.filter_cons, hs, ih]
    · simp [List.filterMap_cons, List.filter_cons, hs, ih]

theorem dayData_nonempty (lc : String → String) (dateOf : Nat → String) (days : ℤ)
    (sources : List ForecastSource) (hnodup : (forecastDates dateOf days).Nodup) (i : Nat)
    (hi : i < days.toNat) :
    decide ((dayData lc (forecastDates dateOf days) sources (dateOf i)).sources.length > 0)
      = decide (i < longestForecast sources) := by
  have h := congrArg List.length (dayData_sources lc dateOf days sources hnodup i hi)
  rw [List.length_map, List.length_map] at h
  rw [h, decide_eq_decide, lt_longestForecast]
  constructor
  · intro hpos
    obtain ⟨s, hs⟩ := List.exists_mem_of_length_pos hpos
    rw [List.mem_filter] at hs
    exact ⟨s, hs.1, by simpa using hs.2⟩
  · rintro ⟨s, hs, hlt⟩
    exact List.length_pos_of_mem (List.mem_filter.2 ⟨hs, by simpa using hlt⟩)

theorem filter_lt_range (n m : Nat) :
    (List.range n).filter (fun i => decide (i < m)) = List.range (min n m) := by
  induction n with
  | zero => simp
  | succ n ih =>
    rw [List.range_succ, List.filter_append, ih]
    by_cases h : n < m
    · have h1 : min n m = n := by omega
      have h2 : min (n + 1) m = n + 1 := by omega
      simp [h, h1, h2, List.range_succ]
    · have h1 : min n m = m := by omega
      have h2 : min (n + 1) m = m := by omega
      simp [h, h1, h2]

/-- The daily sequence: the records of the day offsets below both `days` and
the longest forecast, in order. -/
theorem aggregateForecastData_eq (lc : String → String) (dateOf : Nat → String) (days : ℤ)
    (sources : List ForecastSource) (hnodup : (forecastDates dateOf days).Nodup) :
    aggregateForecastData lc dateOf sources days
      = (List.range (min days.toNat (longestForecast sources))).map
          (fun i => dayData lc (forecastDates dateOf days) sources (dateOf i)) := by
  unfold aggregateForecastData
  simp only
  conv_lhs => rw [show forecastDates dateOf days = (List.range days.toNat).map dateOf from rfl,
    List.map_map, List.filter_map]
  rw [← filter_lt_range]
  congr 1
  apply List.filter_congr
  intro i hi
  exact dayData_nonempty lc dateOf days sources hnodup i (List.mem_range.1 hi)

/-! ## Forecasts: specified properties -/

/-- C9. Forecast day alignment is positional: when the generated dates are
pairwise distinct, for every day offset `i` below `days` the entry for that day
is the `i`-th entry of the daily sequence; it is missing exactly when no
provider has `i + 1` elements; its sources are, in the order of `sources`, the
providers with at least `i + 1` elements, each with its element `data[i]`; and
its `aggregated` is `aggregateWeatherData` of exactly those contributions. -/
theorem forecast_day_alignment (toLowerCase : String → String) (dateOf : Nat → String)
    (sources : List ForecastSource) (days : ℤ)
    (hnodup : (forecastDates dateOf days).Nodup) (i : Nat) (hi : (i : ℤ) < days) :
    (∀ day ∈ aggregateForecastData toLowerCase dateOf sources days,
      day.date = dateOf i →
        (aggregateForecastData toLowerCase dateOf sources days)[i]? = some day) ∧
    ((aggregateForecastData toLowerCase dateOf sources days)[i]? = none ↔
      sources.filter (fun p => i < p.data.length) = []) ∧
    ∀ day, (aggregateForecastData toLowerCase dateOf sources days)[i]? = some day →
      day.date = dateOf i ∧
      day.sources.map (fun c => (c.provider, some c.forecast))
        = (sources.filter (fun p => i < p.data.length)).map (fun p => (p.provider, p.data[i]?)) ∧
      day.aggregated = aggregateWeatherData toLowerCase (day.sources.map (fun c => c.forecast)) := by
  have hi' : i < days.toNat := by omega
  rw [aggregateForecastData_eq toLowerCase dateOf days sources hnodup]
  refine ⟨fun day hday hdate => ?_, ?_, fun day hday => ?_⟩
  · obtain ⟨j, hj, rfl⟩ := List.mem_map.1 hday
    have hj' := List.mem_range.1 hj
    have hji : j = i :=
      dateOf_injOn dateOf days hnodup j i (by omega) hi' hdate
    subst hji
    rw [List.getElem?_map, List.getElem?_range hj']
    rfl
  · rw [List.getElem?_eq_none_iff, List.length_map, List.length_range, List.filter_eq_nil_iff]
    constructor
    · intro h s hs hlt
      have : i < longestForecast sources :=
        (lt_longestForecast sources i).2 ⟨s, hs, by simpa using hlt⟩
      omega
    · intro h
      have : ¬ i < longestForecast sources := by
        rw [lt_longestForecast]
        rintro ⟨s, hs, hlt⟩
        exact h s hs (by simpa using hlt)
      omega
  · rw [List.getElem?_map] at hday
    cases hr : (List.range (min days.toNat (longestForecast sources)))[i]? with
    | none => rw [hr] at hday; cases hday
    | some j =>
      rw [hr] at hday
      have hlt : i < (List.range (min days.toNat (longestForecast sources))).length := by
        by_contra hge
        rw [List.getElem?_eq_none (by omega)] at hr
        cases hr
      rw [List.length_range] at hlt
      rw [List.getElem?_range hlt] at hr
      injection hr with hr
      subst hr
      injection hday with hday
      subst hday
      refine ⟨rfl, dayData_sources toLowerCase dateOf days sources hnodup i hi', ?_⟩
      unfold dayData
      simp only
      split
      · rfl
      · rename_i hlen
        have hnil : ∀ l : List DaySource, ¬ l.length > 0 → l = [] := by
          intro l hl
          cases l with
          | nil => rfl
          | cons a l => simp at hl
        rw [hnil _ hlen]
        rfl

/-- Witness of C9: provider A returns five days and provider B three; of the
five requested days, day index 4 holds the contribution of A alone, its fifth
element, and day index 1 holds the second elements of A and B, in this order. -/
theorem forecast_day_alignment_witness :
    (∃ day, (aggregateForecastData asciiLower weekFrom fiveAndThree 5)[4]? = some day ∧
      day.sources.map (fun c => (c.provider, some c.forecast))
        = [("A", some (forecastDay "A" 14))]) ∧
    (∃ day, (aggregateForecastData asciiLower weekFrom fiveAndThree 5)[1]? = some day ∧
      day.sources.map (fun c => (c.provider, some c.forecast))
        = [("A", some (forecastDay "A" 11)), ("B", some (forecastDay "B" 21))]) := by
  have hnodup : (forecastDates weekFrom 5).Nodup := by decide
  constructor
  · refine ⟨_, rfl, ?_⟩
    exact ((forecast_day_alignment asciiLower weekFrom fiveAndThree 5 hnodup 4
      (by decide)).2.2 _ rfl).2.1
  · refine ⟨_, rfl, ?_⟩
    exact ((forecast_day_alignment asciiLower weekFrom fiveAndThree 5 hnodup 1
      (by decide)).2.2 _ rfl).2.1

/-- Counterexample to C10 as stated: five days are requested and the only
provider that answers returns three; the daily sequence of
`aggregateForecastData`, and of `getForecast`, has three entries, not five. -/
theorem fewer_records_than_days :
    (aggregateForecastData asciiLower weekFrom
        [⟨"weatherapi", [forecastDay "weatherapi" 20, forecastDay "weatherapi" 21,
          forecastDay "weatherapi" 22]⟩] 5).map (fun day => day.date)
      = ["2026-11-04", "2026-11-05", "2026-11-06"] ∧
    (getForecast asciiLower weekFrom (.num 51) (.num 0) 5 none threeDays
        (inDispatchOrder none)).toOption.map (fun r => r.daily.length) = some 3 := by
  constructor <;> decide

/-- C10, as amended. One daily record per covered day offset: when the generated
dates are pairwise distinct, the daily sequence returned by
`aggregateForecastData` has exactly `min(days, L)` entries, `L` being the largest
number of days that any provider returned — a day offset that no provider
covers gets no record — and its `i`-th entry is the record for day offset `i`;
`getForecast` returns as `daily` that sequence for its sources. -/
theorem daily_records_cover_offsets (toLowerCase : String → String) (dateOf : Nat → String)
    (sources : List ForecastSource) (days : ℤ)
    (hnodup : (forecastDates dateOf days).Nodup) :
    (aggregateForecastData toLowerCase dateOf sources days).length
      = min days.toNat (longestForecast sources) ∧
    (∀ i, i < (aggregateForecastData toLowerCase dateOf sources days).length →
      ((aggregateForecastData toLowerCase dateOf sources days)[i]?).map (fun day => day.date)
        = some (dateOf i)) ∧
    ∀ (lat lon : JsNum) (providers : Option (List String))
      (outcome : Provider → Except String (List Source)) (settling : Settling providers)
      (r : ForecastResult),
      getForecast toLowerCase dateOf lat lon days providers outcome settling = .ok r →
        r.daily = aggregateForecastData toLowerCase dateOf r.sources days := by
  refine ⟨?_, ?_, ?_⟩
  · rw [aggregateForecastData_eq toLowerCase dateOf days sources hnodup, List.length_map,
      List.length_range]
  · rw [aggregateForecastData_eq toLowerCase dateOf days sources hnodup]
    intro i hi
    rw [List.length_map, List.length_range] at hi
    rw [List.getElem?_map, List.getElem?_range hi]
    rfl
  · intro lat lon providers outcome settling r hr
    unfold getForecast at hr
    simp only at hr
    split at hr
    · cases hr
    · injection hr with hr
      subst hr
      rfl

/-- Witness of C10 as amended: provider A returns five days and provider B
three; seven requested days give five records, and two requested days give
two. -/
theorem daily_records_cover_offsets_witness :
    (aggregateForecastData asciiLower weekFrom fiveAndThree 7).length = 5 ∧
    (aggregateForecastData asciiLower weekFrom fiveAndThree 2).length = 2 :=
  ⟨(daily_records_cover_offsets asciiLower weekFrom fiveAndThree 7 (by decide)).1.trans
      (by decide),
   (daily_records_cover_offsets asciiLower weekFrom fiveAndThree 2 (by decide)).1.trans
      (by decide)⟩

/-! ## Forecast entries -/

/-- C11. Invariant of forecast results: every entry of the daily sequence
produced by `aggregateForecastData` has at least one contributing source and a
present `aggregated`; no entry has zero sources or an absent `aggregated`. -/
theorem forecast_entries_have_sources (toLowerCase : String → String) (dateOf : Nat → String)
    (sources : List ForecastSource) (days : ℤ) :
    ∀ day ∈ aggregateForecastData toLowerCase dateOf sources days,
      day.sources ≠ [] ∧ day.aggregated.isSome = true ∧
      day.aggregated = aggregateWeatherData toLowerCase (day.sources.map (fun c => c.forecast)) := by
  intro day hday
  unfold aggregateForecastData at hday
  simp only [List.mem_filter, List.mem_map] at hday
  obtain ⟨⟨date, -, rfl⟩, hlen⟩ := hday
  have hpos : (dayData toLowerCase (forecastDates dateOf days) sources date).sources.length > 0 := by
    simpa using hlen
  have hne : (dayData toLowerCase (forecastDates dateOf days) sources date).sources ≠ [] :=
    List.ne_nil_of_length_pos hpos
  have hagg : (dayData toLowerCase (forecastDates dateOf days) sources date).aggregated
      = aggregateWeatherData toLowerCase
          ((dayData toLowerCase (forecastDates dateOf days) sources date).sources.map
            (fun c => c.forecast)) := by
    unfold dayData at hpos ⊢
    simp only at hpos ⊢
    rw [if_pos hpos]
  refine ⟨hne, ?_, hagg⟩
  rw [hagg]
  exact aggregateWeatherData_isSome _ _ (by simpa using hne)

/-- Witness of C11: provider A returns five days and provider B three; the entry
of day index 4 of the five requested days has a source and an aggregate. -/
theorem forecast_entries_have_sources_witness :
    ∃ day, (aggregateForecastData asciiLower weekFrom fiveAndThree 5)[4]? = some day ∧
      day.sources ≠ [] ∧ day.aggregated.isSome = true := by
  have hday : (aggregateForecastData asciiLower weekFrom fiveAndThree 5)[4]? = some _ := rfl
  have h := forecast_entries_have_sources asciiLower weekFrom fiveAndThree 5 _
    (List.getElem?_mem hday)
  exact ⟨_, hday, h.1, h.2.1⟩

/-! ## The response cache -/

/-- C13. Hit-rate accounting: for all numbers of hits `H` and misses `M`,
`getCacheStats` reports the hit rate `H / (H + M)` when `H + M > 0` and the hit
rate `0` when `H = M = 0`; the hit rate lies between `0` and `1`. -/
theorem hit_rate_accounting {α : Type} (data : List (String × α)) (H M : Nat) :
    (getCacheStats ⟨data, H, M⟩).hits = H ∧ (getCacheStats ⟨data, H, M⟩).misses = M ∧
    (0 < H + M → (getCacheStats ⟨data, H, M⟩).hitRate = (H : ℚ) / ((H : ℚ) + (M : ℚ))) ∧
    (H = 0 ∧ M = 0 → (getCacheStats ⟨data, H, M⟩).hitRate = 0) ∧
    0 ≤ (getCacheStats ⟨data, H, M⟩).hitRate ∧ (getCacheStats ⟨data, H, M⟩).hitRate ≤ 1 := by
  refine ⟨rfl, rfl, ?_, ?_, ?_, ?_⟩
  · intro h
    have hne : H + M ≠ 0 := by omega
    simp only [getCacheStats, if_neg hne]
    push_cast
    rfl
  · rintro ⟨rfl, rfl⟩
    simp [getCacheStats]
  · simp only [getCacheStats]
    apply div_nonneg (Nat.cast_nonneg _)
    split
    · exact zero_le_one
    · exact Nat.cast_nonneg _
  · simp only [getCacheStats]
    split
    · rename_i h
      have : H = 0 := by omega
      subst this
      simp
    · rename_i h
      have hpos : (0 : ℚ) < ((H + M : Nat) : ℚ) := by
        exact_mod_cast Nat.pos_of_ne_zero h
      rw [div_le_one hpos]
      exact_mod_cast Nat.le_add_right H M

/-- Witness of C13: three hits and one miss give the hit rate 3/4, and no
traffic gives the hit rate 0. -/
theorem hit_rate_accounting_witness :
    (getCacheStats (⟨[], 3, 1⟩ : NodeCache String)).hitRate = 3 / 4 ∧
    (getCacheStats (⟨[], 0, 0⟩ : NodeCache String)).hitRate = 0 := by
  constructor
  · rw [(hit_rate_accounting ([] : List (String × String)) 3 1).2.2.1 (by decide)]
    norm_num
  · exact (hit_rate_accounting ([] : List (String × String)) 0 0).2.2.2.1 ⟨rfl, rfl⟩

theorem lookup_filter_self {α : Type} (data : List (String × α)) (key : String) :
    (data.filter (fun e => e.1 != key)).lookup key = none := by
  induction data with
  | nil => rfl
  | cons e data ih =>
    by_cases h : e.1 = key
    · simp [List.filter_cons, h, ih]
    · have h1 : (e.1 != key) = true := by simpa using h
      have h2 : (key == e.1) = false := by simpa using fun h' => h h'.symm
      rw [List.filter_cons, if_pos h1]
      rcases e with ⟨k, v⟩
      simp only [List.lookup, h2]
      exact ih

theorem lookup_filter_other {α : Type} (data : List (String × α)) (key other : String)
    (hne : other ≠ key) :
    (data.filter (fun e => e.1 != key)).lookup other = data.lookup other := by
  induction data with
  | nil => rfl
  | cons e data ih =>
    rcases e with ⟨k, v⟩
    by_cases h : k = key
    · subst h
      have h2 : (other == k) = false := by simpa using hne
      simp [List.filter_cons, List.lookup, h2, ih]
    · have h1 : (k != key) = true := by simpa using h
      rw [List.filter_cons]
      simp only [h1, if_true]
      by_cases h3 : other = k
      · subst h3; simp [List.lookup]
      · have h4 : (other == k) = false := by simpa using h3
        simp only [List.lookup, h4]
        exact ih

theorem cacheMiddleware_miss {α : Type} (cache : NodeCache α) (key : String)
    (h : cache.data.lookup key = none) : (cacheMiddleware cache key).1 = .miss := by
  simp [cacheMiddleware, NodeCache.get, h]

/-- Counterexample to C14 as stated: the cache holds entries under `/a` and
`/b`; `invalidateCache` with the given key `""` flushes the cache, so that the
lookup of the other key `/a`, a hit before, is a miss. -/
theorem empty_key_flushes_cache :
    (cacheMiddleware (⟨[("/a", "A"), ("/b", "B")], 0, 0⟩ : NodeCache String) "/a").1 = .hit "A" ∧
    (cacheMiddleware
      (invalidateCache (⟨[("/a", "A"), ("/b", "B")], 0, 0⟩ : NodeCache String) (some "")) "/a").1
      = .miss := by
  constructor <;> decide

/-- C14, as amended. Cache invalidation: `invalidateCache` with a non-empty key
makes a subsequent lookup of that key miss and leaves the entry of every other
key unchanged; `invalidateCache` with no key, or with the empty key, removes all
entries, so that every subsequent lookup misses. -/
theorem cache_invalidation {α : Type} (cache : NodeCache α) (key : String)
    (hkey : truthy (some key) = true) :
    (cacheMiddleware (invalidateCache cache (some key)) key).1 = .miss ∧
    (∀ other, other ≠ key →
      (invalidateCache cache (some key)).data.lookup other = cache.data.lookup other ∧
      (cacheMiddleware (invalidateCache cache (some key)) other).1
        = (cacheMiddleware cache other).1) ∧
    ∀ absent, truthy absent = false →
      (invalidateCache cache absent).data = [] ∧
      ∀ k, (cacheMiddleware (invalidateCache cache absent) k).1 = .miss := by
  have hdel : invalidateCache cache (some key) = cache.del key := by
    simp [invalidateCache, hkey]
  refine ⟨?_, ?_, ?_⟩
  · rw [hdel]
    exact cacheMiddleware_miss _ _ (lookup_filter_self _ _)
  · intro other hne
    rw [hdel]
    have h := lookup_filter_other cache.data key other hne
    refine ⟨h, ?_⟩
    simp only [cacheMiddleware, NodeCache.get, NodeCache.del, h]
    cases cache.data.lookup other <;> rfl
  · intro absent habsent
    have hflush : invalidateCache cache absent = cache.flushAll := by
      cases absent with
      | none => rfl
      | some k => simp [invalidateCache, habsent]
    rw [hflush]
    exact ⟨rfl, fun k => rfl⟩

/-- Witness of C14 as amended: invalidating `/a` in a cache that holds `/a` and
`/b` makes the lookup of `/a` miss and leaves the lookup of `/b` a hit. -/
theorem cache_invalidation_witness :
    (cacheMiddleware
      (invalidateCache (⟨[("/a", "A"), ("/b", "B")], 0, 0⟩ : NodeCache String) (some "/a")) "/a").1
      = .miss ∧
    (cacheMiddleware
      (invalidateCache (⟨[("/a", "A"), ("/b", "B")], 0, 0⟩ : NodeCache String) (some "/a")) "/b").1
      = .hit "B" := by
  have h := cache_invalidation (⟨[("/a", "A"), ("/b", "B")], 0, 0⟩ : NodeCache String) "/a"
    (by decide)
  exact ⟨h.1, ((h.2.1 "/b" (by decide)).2).trans (by decide)⟩

/-! ## Error mapping -/

theorem errorHandler_status (production : Bool) (originalUrl : String) (err : JsError) :
    (errorHandler production originalUrl err).status = (classify err).1 := rfl

theorem errorHandler_error (production : Bool) (originalUrl : String) (err : JsError) :
    (errorHandler production originalUrl err).error = (classify err).2.1 := rfl

theorem getForecast_no_success (lc : String → String) (dateOf : Nat → String) (lat lon : JsNum)
    (days : ℤ) (providers : Option (List String))
    (outcome : Provider → Except String (List Source)) (settling : Settling providers)
    (hnone : ∀ p ∈ dispatch providers, ∀ d, outcome p ≠ .ok d) :
    getForecast lc dateOf lat lon days providers outcome settling
      = .error "No forecast data available from any provider" := by
  unfold getForecast
  simp only [foldl_settleForecast_sources, List.nil_append, List.length_eq_zero]
  rw [if_pos]
  rw [List.filterMap_eq_nil_iff]
  intro p hp
  cases hd : outcome p with
  | ok d => exact absurd hd (hnone p (settling.perm.mem_iff.1 hp) d)
  | error e => simp [fulfilled, hd]

/-- C15. Zero-provider failure maps to service-unavailable: when no dispatched
adapter call is fulfilled, the error that `getCurrentWeather` throws, `new
Error('No weather data available from any provider')`, and the error that
`getForecast` throws, `new Error('No forecast data available from any
provider')`, are mapped by the error handler to the status 503 with the error
text 'Weather data services unavailable'. -/
theorem zero_provider_failure_is_503 (toLowerCase : String → String) (dateOf : Nat → String)
    (lat lon : JsNum) (days : ℤ) (providers : Option (List String))
    (current : Provider → Except String Source)
    (forecast : Provider → Except String (List Source))
    (settling settling' : Settling providers) (production : Bool) (originalUrl : String) :
    ((∀ p ∈ dispatch providers, ∀ d, current p ≠ .ok d) →
      ∃ message, getCurrentWeather toLowerCase lat lon providers current settling
          = .error message ∧
        message = "No weather data available from any provider" ∧
        (errorHandler production originalUrl (newError message)).status = 503 ∧
        (errorHandler production originalUrl (newError message)).error
          = "Weather data services unavailable") ∧
    ((∀ p ∈ dispatch providers, ∀ d, forecast p ≠ .ok d) →
      ∃ message, getForecast toLowerCase dateOf lat lon days providers forecast settling'
          = .error message ∧
        message = "No forecast data available from any provider" ∧
        (errorHandler production originalUrl (newError message)).status = 503 ∧
        (errorHandler production originalUrl (newError message)).error
          = "Weather data services unavailable") := by
  constructor
  · intro hnone
    refine ⟨_, ?_, rfl, ?_, ?_⟩
    · rw [getCurrentWeather_eq, if_pos]
      exact (filterMap_fulfilled_eq_nil current _).2
        (fun p hp => hnone p (settling.perm.mem_iff.1 hp))
    · rw [errorHandler_status]; decide
    · rw [errorHandler_error]; decide
  · intro hnone
    refine ⟨_, getForecast_no_success _ _ _ _ _ _ _ _ hnone, rfl, ?_, ?_⟩
    · rw [errorHandler_status]; decide
    · rw [errorHandler_error]; decide

/-- Witness of C15: every call of the default allowlist fails. -/
theorem zero_provider_failure_is_503_witness :
    (∃ message, getCurrentWeather asciiLower (.num 51) (.num 0) none noAnswer
        (inDispatchOrder none) = .error message ∧
      (errorHandler true "/api/weather/current?lat=51&lon=0" (newError message)).status = 503) ∧
    (∃ message, getForecast asciiLower weekFrom (.num 51) (.num 0) 5 none noAnswer
        (inDispatchOrder none) = .error message ∧
      (errorHandler true "/api/weather/forecast?lat=51&lon=0" (newError message)).status = 503) := by
  have h := zero_provider_failure_is_503 asciiLower weekFrom (.num 51) (.num 0) 5 none
    noAnswer noAnswer (inDispatchOrder none) (inDispatchOrder none) true
  constructor
  · obtain ⟨m, h1, -, h2, -⟩ := (h "/api/weather/current?lat=51&lon=0").1
      (fun _ _ _ hd => by cases hd)
    exact ⟨m, h1, h2⟩
  · obtain ⟨m, h1, -, h2, -⟩ := (h "/api/weather/forecast?lat=51&lon=0").2
      (fun _ _ _ hd => by cases hd)
    exact ⟨m, h1, h2⟩

/-- C16, evaluated at the failing input: every call of the default allowlist
rejects with the timeout error of axios, code `ECONNABORTED`.  The `.catch`
callbacks log its message and drop it, `getCurrentWeather` throws `new
Error('No weather data available from any provider')`, which has no `code`, and
the error handler maps that to 503, although it maps the timeout error itself
to 504. -/
theorem timeout_failure_is_503 :
    (∃ message, getCurrentWeather asciiLower (.num 51) (.num 0) none
        (fun _ => .error timeoutError.message) (inDispatchOrder none) = .error message ∧
      (errorHandler false "/api/weather/current?lat=51&lon=0" (newError message)).status = 503 ∧
      (errorHandler false "/api/weather/current?lat=51&lon=0" (newError message)).error
        = "Weather data services unavailable") ∧
    (errorHandler false "/api/weather/current?lat=51&lon=0" timeoutError).status = 504 := by
  refine ⟨⟨_, rfl, ?_, ?_⟩, ?_⟩ <;> decide

theorem includes_append_left (s t : String) : includes (s ++ t) s = true := by
  unfold includes
  rw [List.any_eq_true]
  refine ⟨(s ++ t).data, ?_, ?_⟩
  · cases h : (s ++ t).data <;> simp [List.tails]
  · rw [String.data_append]
    simp

/-- C17, evaluated at the failing input: for every city name the error of
`getCoordinatesByCity` for an empty result list is mapped to 404; the error of
`getCoordinatesByZip` for the zip code 99999 without location data has the
message 'No location found for zip code: 99999', which does not include 'No
locations found', and is mapped to 500. -/
theorem zip_not_found_is_500 :
    (∀ (cityName : String) (production : Bool) (originalUrl : String),
      ∃ e, getCoordinatesByCity cityName (.ok (some [])) = .error e ∧
        (errorHandler production originalUrl e).status = 404) ∧
    ∃ e, getCoordinatesByZip "99999" (.ok none) = .error e ∧
      e.message = "No location found for zip code: 99999" ∧
      (errorHandler false "/api/weather/zip/99999" e).status = 500 ∧
      (errorHandler false "/api/weather/zip/99999" e).error = "Server error" := by
  constructor
  · intro cityName production originalUrl
    refine ⟨_, rfl, ?_⟩
    have h : includes ("No locations found for city: " ++ cityName) "No locations found" = true := by
      have := includes_append_left "No locations found" (" for city: " ++ cityName)
      rwa [← String.append_assoc] at this
    rw [errorHandler_status]
    simp [classify, geocodingError, newError, h]
  · refine ⟨_, rfl, ?_, ?_, ?_⟩ <;> decide

/-! ## The fields of the merged observation -/

/-- Counterexample to C12 as stated: two sources report the cloud covers 40 and
60, the UV indices 3 and 5 and the visibilities 10 and 8; the merged
observation carries none of the three fields. -/
theorem clouds_are_not_merged :
    (aggregateWeatherData asciiLower
        [reading "openweather"
          { Observation.empty with clouds := .num 40, uv_index := .num 3, visibility := .num 10 },
         reading "weatherbit"
          { Observation.empty with clouds := .num 60, uv_index := .num 5, visibility := .num 8 }]).map
      (fun r => (r.clouds, r.uv_index, r.visibility))
      = some (.undefined, .undefined, .undefined) := by
  rfl

/-- C12, as amended. The merged fields: for more than one source, the
observation returned by `aggregateWeatherData` carries a number with two
fractional digits — the double that a decimal `n / 100` is read as — for each
of `temp`, `feels_like`, `humidity`, `pressure`, `wind_speed` and
`wind_direction`, and for no other numeric field: `clouds`, `uv_index`,
`visibility`, `rain_1h`, `snow_1h` and `aqi` are absent from it whatever the
sources report, and so is `is_day`. -/
theorem merged_numeric_fields (toLowerCase : String → String) (sources : List Source)
    (hN : 1 < sources.length) :
    ∃ r, aggregateWeatherData toLowerCase sources = some r ∧
      (∀ f : NumField, ∃ n : ℤ, f.get r = .num (roundDouble ((n : ℚ) / 100))) ∧
      r.clouds = .undefined ∧ r.uv_index = .undefined ∧ r.visibility = .undefined ∧
      r.rain_1h = .undefined ∧ r.snow_1h = .undefined ∧ r.aqi = .undefined ∧
      r.is_day = none := by
  match sources, hN with
  | a :: b :: rest, _ =>
    refine ⟨_, rfl, fun f => ?_, rfl, rfl, rfl, rfl, rfl, rfl, rfl⟩
    obtain ⟨r, hr, hf⟩ := aggregate_numField toLowerCase f a b rest
    obtain ⟨n, hn, -⟩ := toFixed2_spec
      (doubleMean ((a :: b :: rest).map (fun s => (f.get s.current).orZero)))
    refine ⟨n, ?_⟩
    have hr' : some r = some _ := hr.symm.trans rfl
    rw [← Option.some.inj hr', hf, hn]

/-- Witness of C12 as amended: the merged observation of two sources with the
pressures 1000 and 1013 has the pressure 1006.5 and no cloud cover. -/
theorem merged_numeric_fields_witness :
    ∃ r, aggregateWeatherData asciiLower
        [reading "openweather" { Observation.empty with pressure := .num 1000, clouds := .num 40 },
         reading "weatherbit" { Observation.empty with pressure := .num 1013, clouds := .num 60 }]
        = some r ∧
      r.pressure = .num (2013 / 2) ∧ r.clouds = .undefined := by
  obtain ⟨r, hr, -, hc, -⟩ := merged_numeric_fields asciiLower
    [reading "openweather" { Observation.empty with pressure := .num 1000, clouds := .num 40 },
     reading "weatherbit" { Observation.empty with pressure := .num 1013, clouds := .num 60 }]
    (by decide)
  refine ⟨r, hr, ?_, hc⟩
  have hr' : some r = some _ := hr.symm.trans rfl
  rw [Option.some.inj hr']
  decide!

/-! ## The OpenWeather forecast adapter -/

theorem mapThrowing_ok {α β : Type} (f : α → Except JsError β) (l : List α) (r : List β)
    (h : mapThrowing f l = .ok r) : List.Forall₂ (fun a b => f a = .ok b) l r := by
  induction l generalizing r with
  | nil =>
    simp only [mapThrowing] at h
    injection h with h
    subst h
    exact List.Forall₂.nil
  | cons a rest ih =>
    simp only [mapThrowing] at h
    cases hfa : f a with
    | error e => rw [hfa] at h; cases h
    | ok b =>
      rw [hfa] at h
      cases hrest : mapThrowing f rest with
      | error e => rw [hrest] at h; cases h
      | ok bs =>
        rw [hrest] at h
        injection h with h
        subst h
        exact List.Forall₂.cons hfa (ih bs hrest)

theorem pushed_key (k : String) (v : Sample) (g : String × List Sample) :
    (if g.1 == k then (g.1, g.2 ++ [v]) else g).1 = g.1 := by
  split <;> rfl

theorem groupInv_push (dated : List (String × Sample)) (groups : List (String × List Sample))
    (inv : GroupInv dated groups) (x : String × Sample) :
    GroupInv (dated ++ [x]) (pushSample groups x) := by
  have hidx : ∀ a, a ∈ dated.map (fun p => p.1) →
      ((dated ++ [x]).map (fun p => p.1)).indexOf a = (dated.map (fun p => p.1)).indexOf a := by
    intro a ha
    rw [List.map_append, List.indexOf_append_of_mem ha]
  have hkeys : ∀ a ∈ groups.map (fun g => g.1), a ∈ dated.map (fun p => p.1) := by
    intro a ha
    obtain ⟨g, hg, rfl⟩ := List.mem_map.1 ha
    exact (inv.members g hg).2
  have horder : (groups.map (fun g => g.1)).Pairwise
      (fun a b => ((dated ++ [x]).map (fun p => p.1)).indexOf a
        < ((dated ++ [x]).map (fun p => p.1)).indexOf b) := by
    refine inv.order.imp_of_mem ?_
    intro a b ha hb hab
    rw [hidx a (hkeys a ha), hidx b (hkeys b hb)]
    exact hab
  unfold pushSample
  by_cases hany : groups.any (fun g => g.1 == x.1) = true
  · rw [if_pos hany]
    refine ⟨?_, ?_, ?_⟩
    · intro g' hg'
      obtain ⟨g, hg, rfl⟩ := List.mem_map.1 hg'
      obtain ⟨hm, hk⟩ := inv.members g hg
      by_cases hgx : g.1 = x.1
      · have h1 : (g.1 == x.1) = true := by simpa using hgx
        have h2 : (x.1 == g.1) = true := by simpa using hgx.symm
        simp only [h1, if_true, List.filter_append, List.map_append]
        refine ⟨?_, by simp [hgx]⟩
        rw [hm]
        simp [List.filter_cons, h2]
      · have h1 : (g.1 == x.1) = false := by simpa using hgx
        have h2 : (x.1 == g.1) = false := by simpa using fun h => hgx h.symm
        simp only [h1, Bool.false_eq_true, if_false, List.filter_append, List.map_append]
        refine ⟨?_, List.mem_append_left _ hk⟩
        rw [hm]
        simp [List.filter_cons, h2]
    · intro p hp
      have hex : ∃ g ∈ groups, g.1 = p.1 := by
        rcases List.mem_append.1 hp with hp | hp
        · exact inv.covered p hp
        · rw [List.mem_singleton.1 hp]
          obtain ⟨g, hg, hgx⟩ := List.any_eq_true.1 hany
          exact ⟨g, hg, by simpa using hgx⟩
      obtain ⟨g, hg, hgp⟩ := hex
      refine ⟨_, List.mem_map_of_mem _ hg, ?_⟩
      rw [pushed_key]
      exact hgp
    · have hmap : (groups.map (fun g => if g.1 == x.1 then (g.1, g.2 ++ [x.2]) else g)).map
          (fun g => g.1) = groups.map (fun g => g.1) := by
        rw [List.map_map]
        apply List.map_congr_left
        intro g _
        exact pushed_key x.1 x.2 g
      rw [hmap]
      exact horder
  · rw [if_neg hany]
    have hfresh : ∀ g ∈ groups, g.1 ≠ x.1 := by
      intro g hg hgx
      exact hany (List.any_eq_true.2 ⟨g, hg, by simpa using hgx⟩)
    have hnot : x.1 ∉ dated.map (fun p => p.1) := by
      intro hmem
      obtain ⟨p, hp, hpx⟩ := List.mem_map.1 hmem
      obtain ⟨g, hg, hgp⟩ := inv.covered p hp
      exact hfresh g hg (hgp.trans hpx)
    refine ⟨?_, ?_, ?_⟩
    · intro g hg
      rcases List.mem_append.1 hg with hg | hg
      · obtain ⟨hm, hk⟩ := inv.members g hg
        have h2 : (x.1 == g.1) = false := by simpa using fun h => hfresh g hg h.symm
        refine ⟨?_, by rw [List.map_append]; exact List.mem_append_left _ hk⟩
        rw [hm, List.filter_append]
        simp [List.filter_cons, h2]
      · rw [List.mem_singleton.1 hg]
        refine ⟨?_, by simp⟩
        have hnil : dated.filter (fun p => p.1 == x.1) = [] := by
          rw [List.filter_eq_nil_iff]
          intro p hp hpx
          exact hnot (List.mem_map.2 ⟨p, hp, by simpa using hpx⟩)
        simp [List.filter_append, hnil, List.filter_cons]
    · intro p hp
      rcases List.mem_append.1 hp with hp | hp
      · obtain ⟨g, hg, hgp⟩ := inv.covered p hp
        exact ⟨g, List.mem_append_left _ hg, hgp⟩
      · rw [List.mem_singleton.1 hp]
        exact ⟨(x.1, [x.2]), by simp, rfl⟩
    · have hsplit : (groups ++ [(x.1, [x.2])]).map (fun g => g.1)
          = groups.map (fun g => g.1) ++ [x.1] := by simp
      rw [hsplit, List.pairwise_append]
      refine ⟨horder, by simp, ?_⟩
      intro a ha b hb
      rw [List.mem_singleton.1 hb]
      rw [hidx a (hkeys a ha)]
      have h1 : (dated.map (fun p => p.1)).indexOf a < (dated.map (fun p => p.1)).length :=
        List.indexOf_lt_length.2 (hkeys a ha)
      have h2 : ((dated ++ [x]).map (fun p => p.1)).indexOf x.1
          = (dated.map (fun p => p.1)).length := by
        rw [List.map_append, List.indexOf_append_of_not_mem hnot]
        simp
      omega

theorem groupInv_groupByDay (dated : List (String × Sample)) :
    GroupInv dated (groupByDay dated) := by
  unfold groupByDay
  induction dated using List.reverseRecOn with
  | nil => exact ⟨by simp, by simp, by simp⟩
  | append_singleton dated x ih =>
    rw [List.foldl_append, List.foldl_cons, List.foldl_nil]
    exact groupInv_push dated _ ih x

theorem closestInv_foldl (noon : ℤ) (middle : Sample) (fs : List Sample) :
    ClosestInv noon fs (fs.foldl (closer (some noon)) ⟨none, middle⟩) := by
  induction fs using List.reverseRecOn with
  | nil => exact ⟨fun _ => rfl, fun d h => by simp at h⟩
  | append_singleton fs f ih =>
    rw [List.foldl_append, List.foldl_cons, List.foldl_nil]
    generalize fs.foldl (closer (some noon)) ⟨none, middle⟩ = st at ih
    unfold closer
    simp only
    cases hc : st.closestToDiff with
    | none =>
      have hnil := ih.none_case hc
      subst hnil
      refine ⟨fun h => by simp at h, fun d hd => ?_⟩
      simp only [Option.some.injEq] at hd
      subst hd
      exact ⟨rfl, [], [], rfl, by simp, by simp⟩
    | some c =>
      obtain ⟨hcd, pre, post, hsplit, hlt, hle⟩ := ih.some_case c hc
      simp only
      by_cases hfc : (f.time - noon).natAbs < c
      · rw [if_pos hfc]
        refine ⟨fun h => by simp at h, fun d hd => ?_⟩
        simp only [Option.some.injEq] at hd
        subst hd
        refine ⟨rfl, fs, [], rfl, fun s hs => ?_, by simp⟩
        rw [hsplit] at hs
        simp only [List.mem_append, List.mem_cons] at hs
        show (f.time - noon).natAbs < (s.time - noon).natAbs
        rcases hs with hs | hs | hs
        · have := hlt s hs; omega
        · rw [hs]; omega
        · have := hle s hs; omega
      · rw [if_neg hfc]
        refine ⟨fun h => (by rw [hc] at h; cases h), fun d hd => ?_⟩
        rw [hc] at hd
        simp only [Option.some.injEq] at hd
        subst hd
        refine ⟨hcd, pre, post ++ [f], by rw [hsplit]; simp, hlt, fun s hs => ?_⟩
        rcases List.mem_append.1 hs with hs | hs
        · exact hle s hs
        · rw [List.mem_singleton.1 hs]; omega

theorem foldl_closer_none (st : Closest) (fs : List Sample) :
    fs.foldl (closer none) st = st := by
  induction fs with
  | nil => rfl
  | cons f fs ih => rw [List.foldl_cons]; exact ih

/-- The representative of a non-empty group: a sample of the group, and for a
noon that has a time value the first of the samples closest to it. -/
theorem noonRepresentative_spec (noonTarget : Option ℤ) (fs : List Sample) (hne : fs ≠ []) :
    ∃ sel, noonRepresentative noonTarget fs = some sel ∧ sel ∈ fs ∧
      ∀ noon, noonTarget = some noon →
        ∃ pre post, fs = pre ++ sel :: post ∧
          (∀ s ∈ pre, (sel.time - noon).natAbs < (s.time - noon).natAbs) ∧
          (∀ s ∈ post, (sel.time - noon).natAbs ≤ (s.time - noon).natAbs) := by
  have hlen : fs.length / 2 < fs.length :=
    Nat.div_lt_self (List.length_pos.2 hne) (by decide)
  unfold noonRepresentative
  rw [List.getElem?_eq_getElem hlen]
  simp only [Option.map_some']
  cases noonTarget with
  | none =>
    refine ⟨_, rfl, ?_, fun noon h => by cases h⟩
    rw [foldl_closer_none]
    exact List.getElem_mem _
  | some noon =>
    have inv := closestInv_foldl noon (fs[fs.length / 2]) fs
    generalize fs.foldl (closer (some noon)) ⟨none, fs[fs.length / 2]⟩ = st at inv
    cases hc : st.closestToDiff with
    | none => exact absurd (inv.none_case hc) hne
    | some d =>
      obtain ⟨hd, pre, post, hsplit, hlt, hle⟩ := inv.some_case d hc
      subst hd
      refine ⟨_, rfl, by rw [hsplit]; simp, fun noon' h => ?_⟩
      injection h with h
      subst h
      exact ⟨pre, post, hsplit, hlt, hle⟩

theorem mapThrowing_total {α β : Type} (f : α → Except JsError β) (l : List α)
    (h : ∀ a ∈ l, ∃ b, f a = .ok b) : ∃ r, mapThrowing f l = .ok r := by
  induction l with
  | nil => exact ⟨[], rfl⟩
  | cons a rest ih =>
    obtain ⟨b, hb⟩ := h a (by simp)
    obtain ⟨bs, hbs⟩ := ih (fun a' ha' => h a' (List.mem_cons_of_mem _ ha'))
    exact ⟨b :: bs, by simp [mapThrowing, hb, hbs]⟩

theorem slice0_eq_take {α : Type} (l : List α) (stop : ℤ) : ∃ n, slice0 l stop = l.take n := by
  unfold slice0
  split
  · exact ⟨_, rfl⟩
  · exact ⟨_, rfl⟩

theorem slice0_length_of_nonneg {α : Type} (l : List α) (stop : ℤ) (h : 0 ≤ stop) :
    (slice0 l stop).length = min stop.toNat l.length := by
  unfold slice0
  rw [if_neg (by omega), List.length_take]

theorem toSample_ok (isoDate : ℤ → String) (item : OpenWeatherData) (p : String × Sample)
    (h : toSample isoDate item = .ok p) :
    timeValue item.dt = some p.2.time ∧ transformOpenWeatherData item = .ok p.2.source ∧
      p.1 = isoDate p.2.time := by
  unfold toSample at h
  cases ht : timeValue item.dt with
  | none => rw [ht] at h; cases h
  | some time =>
    rw [ht] at h
    simp only at h
    cases hs : transformOpenWeatherData item with
    | error e => rw [hs] at h; cases h
    | ok source =>
      rw [hs] at h
      injection h with h
      subst h
      exact ⟨rfl, rfl, rfl⟩

theorem group_ne_nil (dated : List (String × Sample)) (g : String × List Sample)
    (hg : g ∈ groupByDay dated) : g.2 ≠ [] := by
  obtain ⟨hm, hk⟩ := (groupInv_groupByDay dated).members g hg
  obtain ⟨p, hp, hpg⟩ := List.mem_map.1 hk
  rw [hm]
  intro hnil
  have hmem : p.2 ∈ (dated.filter (fun q => q.1 == g.1)).map (fun q => q.2) :=
    List.mem_map.2 ⟨p, List.mem_filter.2 ⟨hp, by simpa using hpg⟩, rfl⟩
  rw [hnil] at hmem
  cases hmem

theorem dailyForecast_ok (noonOf : String → Option ℤ) (g : String × List Sample)
    (e : String × Sample) (h : dailyForecast noonOf g = .ok e) :
    e.1 = g.1 ∧ noonRepresentative (noonOf g.1) g.2 = some e.2 := by
  unfold dailyForecast at h
  cases hr : noonRepresentative (noonOf g.1) g.2 with
  | none => rw [hr] at h; cases h
  | some sel =>
    rw [hr] at h
    injection h with h
    subst h
    exact ⟨rfl, rfl⟩

/-- The selected days of the OpenWeather adapter, for a list whose items all
have a time value: one per date group of the slice, with the date of the group
and its representative. -/
theorem dailySamples_spec (isoDate : ℤ → String) (noonOf : String → Option ℤ)
    (list : List OpenWeatherData) (days : ℤ) (dated : List (String × Sample))
    (hdated : mapThrowing (toSample isoDate) list = .ok dated) :
    ∃ daily, OpenWeather.dailySamples isoDate noonOf list days = .ok daily ∧
      List.Forall₂ (fun g e => e.1 = g.1 ∧ noonRepresentative (noonOf g.1) g.2 = some e.2)
        (slice0 (groupByDay dated) days) daily := by
  unfold OpenWeather.dailySamples
  rw [hdated]
  simp only
  have hsub : ∀ g ∈ slice0 (groupByDay dated) days, g ∈ groupByDay dated := by
    obtain ⟨n, hn⟩ := slice0_eq_take (groupByDay dated) days
    rw [hn]
    exact fun g hg => List.mem_of_mem_take hg
  obtain ⟨daily, hdaily⟩ := mapThrowing_total (dailyForecast noonOf)
    (slice0 (groupByDay dated) days) (fun g hg => by
      obtain ⟨sel, hsel, -⟩ := noonRepresentative_spec (noonOf g.1) g.2
        (group_ne_nil dated g (hsub g hg))
      exact ⟨(g.1, sel), by simp [dailyForecast, hsel]⟩)
  refine ⟨daily, hdaily, ?_⟩
  exact (mapThrowing_ok _ _ _ hdaily).imp (fun g e h => dailyForecast_ok noonOf g e h)

theorem forall₂_mem_right {α β : Type} {R : α → β → Prop} {l : List α} {r : List β}
    (h : List.Forall₂ R l r) : ∀ b ∈ r, ∃ a ∈ l, R a b := by
  induction h with
  | nil => intro b hb; cases hb
  | cons hab _ ih =>
    intro b hb
    rcases List.mem_cons.1 hb with rfl | hb
    · exact ⟨_, by simp, hab⟩
    · obtain ⟨a, ha, hr⟩ := ih b hb
      exact ⟨a, List.mem_cons_of_mem _ ha, hr⟩

theorem getForecast_ok (isoDate : ℤ → String) (noonOf : String → Option ℤ)
    (http : OpenWeatherParams → Except JsError (Option (List OpenWeatherData)))
    (lat lon : JsNum) (days : ℤ) (units : Option String) (list : List OpenWeatherData)
    (result : List Source)
    (hresponse : http ⟨lat, lon, units.getD "metric"⟩ = .ok (some list))
    (hresult : OpenWeather.getForecast isoDate noonOf http lat lon days units = .ok result) :
    ∃ dated daily, mapThrowing (toSample isoDate) list = .ok dated ∧
      OpenWeather.dailySamples isoDate noonOf list days = .ok daily ∧
      result = daily.map (fun d => { d.2.source with date := some d.1 }) := by
  unfold OpenWeather.getForecast at hresult
  rw [hresponse] at hresult
  simp only at hresult
  cases hdaily : OpenWeather.dailySamples isoDate noonOf list days with
  | error e => rw [hdaily] at hresult; cases hresult
  | ok daily =>
    rw [hdaily] at hresult
    injection hresult with hresult
    cases hdated : mapThrowing (toSample isoDate) list with
    | error e =>
      unfold OpenWeather.dailySamples at hdaily
      rw [hdated] at hdaily
      cases hdaily
    | ok dated => exact ⟨dated, daily, rfl, rfl, hresult.symm⟩

/-- The selection of the OpenWeather adapter, read off a result. -/
theorem selection_of_result (isoDate : ℤ → String) (noonOf : String → Option ℤ)
    (http : OpenWeatherParams → Except JsError (Option (List OpenWeatherData)))
    (lat lon : JsNum) (days : ℤ) (units : Option String) (list : List OpenWeatherData)
    (result : List Source)
    (hresponse : http ⟨lat, lon, units.getD "metric"⟩ = .ok (some list))
    (hresult : OpenWeather.getForecast isoDate noonOf http lat lon days units = .ok result) :
    ∃ dated daily,
      List.Forall₂ (fun item p => timeValue item.dt = some p.2.time ∧
        transformOpenWeatherData item = .ok p.2.source ∧ p.1 = isoDate p.2.time) list dated ∧
      OpenWeather.dailySamples isoDate noonOf list days = .ok daily ∧
      result = daily.map (fun d => { d.2.source with date := some d.1 }) ∧
      (daily.map (fun d => d.1)).Pairwise
        (fun a b => (dated.map (fun p => p.1)).indexOf a < (dated.map (fun p => p.1)).indexOf b) ∧
      ∀ d ∈ daily, d ∈ dated ∧ d.1 = isoDate d.2.time ∧
        ∀ noon, noonOf d.1 = some noon →
          (∃ pre post,
            (dated.filter (fun p => p.1 == d.1)).map (fun p => p.2) = pre ++ d.2 :: post ∧
            (∀ s ∈ pre, (d.2.time - noon).natAbs < (s.time - noon).natAbs) ∧
            (∀ s ∈ post, (d.2.time - noon).natAbs ≤ (s.time - noon).natAbs)) ∧
          ((dated.map (fun p => p.2.time)).Pairwise (fun a b => a ≤ b) →
            ∀ p ∈ dated, p.1 = d.1 →
              (p.2.time - noon).natAbs = (d.2.time - noon).natAbs → d.2.time ≤ p.2.time) := by
  obtain ⟨dated, daily, hdated, hdaily, hres⟩ :=
    getForecast_ok isoDate noonOf http lat lon days units list result hresponse hresult
  have hitems := (mapThrowing_ok _ _ _ hdated).imp (fun item p h => toSample_ok isoDate item p h)
  obtain ⟨daily', hdaily', hsel⟩ := dailySamples_spec isoDate noonOf list days dated hdated
  rw [hdaily] at hdaily'
  injection hdaily' with hdaily'
  subst hdaily'
  have inv := groupInv_groupByDay dated
  obtain ⟨n, hn⟩ := slice0_eq_take (groupByDay dated) days
  rw [hn] at hsel
  have hkeys : daily.map (fun d => d.1) = ((groupByDay dated).take n).map (fun g => g.1) := by
    clear hdaily hres
    generalize (groupByDay dated).take n = gs at hsel
    induction hsel with
    | nil => rfl
    | cons h _ ih => simp [h.1, ih]
  have hdated_mem : ∀ p ∈ dated, p.1 = isoDate p.2.time := by
    intro p hp
    obtain ⟨item, -, h⟩ := forall₂_mem_right hitems p hp
    exact h.2.2
  refine ⟨dated, daily, hitems, hdaily, hres, ?_, ?_⟩
  · rw [hkeys]
    exact inv.order.sublist ((List.take_sublist n _).map _)
  · intro d hd
    obtain ⟨g, hg, hdg, hrep⟩ := forall₂_mem_right hsel d hd
    have hg' : g ∈ groupByDay dated := List.mem_of_mem_take hg
    obtain ⟨hm, -⟩ := inv.members g hg'
    obtain ⟨sel, hsel', hmem, hclosest⟩ :=
      noonRepresentative_spec (noonOf g.1) g.2 (group_ne_nil dated g hg')
    rw [hrep] at hsel'
    injection hsel' with hsel'
    subst hsel'
    have hd_mem : d ∈ dated := by
      rw [hm] at hmem
      obtain ⟨p, hp, hpd⟩ := List.mem_map.1 hmem
      obtain ⟨hp1, hp2⟩ := List.mem_filter.1 hp
      have hpg : p.1 = g.1 := by simpa using hp2
      have : p = d := Prod.ext (by rw [hpg, hdg]) hpd
      rw [← this]
      exact hp1
    refine ⟨hd_mem, hdated_mem d hd_mem, fun noon hnoon => ?_⟩
    rw [hdg] at hnoon ⊢
    obtain ⟨pre, post, hsplit, hlt, hle⟩ := hclosest noon hnoon
    rw [hm] at hsplit
    refine ⟨⟨pre, post, hsplit, hlt, hle⟩, fun hsorted p hp hpd hdist => ?_⟩
    have hpmem : p.2 ∈ (dated.filter (fun q => q.1 == g.1)).map (fun q => q.2) :=
      List.mem_map.2 ⟨p, List.mem_filter.2 ⟨hp, by simpa using hpd⟩, rfl⟩
    have hsorted' : ((dated.filter (fun q => q.1 == g.1)).map (fun q => q.2.time)).Pairwise
        (fun a b => a ≤ b) :=
      hsorted.sublist ((List.filter_sublist _).map _)
    have hmm : (dated.filter (fun q => q.1 == g.1)).map (fun q => q.2.time)
        = ((dated.filter (fun q => q.1 == g.1)).map (fun q => q.2)).map (fun s => s.time) := by
      rw [List.map_map]; rfl
    rw [hmm, hsplit, List.map_append, List.map_cons, List.pairwise_append,
      List.pairwise_cons] at hsorted'
    rw [hsplit] at hpmem
    simp only [List.mem_append, List.mem_cons] at hpmem
    rcases hpmem with hpre | heq | hpost
    · have := hlt p.2 hpre
      omega
    · rw [heq]
    · exact hsorted'.2.1.1 _ (List.mem_map_of_mem _ hpost)

theorem toSample_isOk (isoDate : ℤ → String) (item : OpenWeatherData)
    (h : (timeValue item.dt).isSome = true) : ∃ p, toSample isoDate item = .ok p := by
  obtain ⟨time, ht⟩ := Option.isSome_iff_exists.1 h
  simp only [toSample, transformOpenWeatherData, ht]
  exact ⟨_, rfl⟩

theorem getForecast_total (isoDate : ℤ → String) (noonOf : String → Option ℤ)
    (http : OpenWeatherParams → Except JsError (Option (List OpenWeatherData)))
    (lat lon : JsNum) (days : ℤ) (units : Option String) (list : List OpenWeatherData)
    (hresponse : http ⟨lat, lon, units.getD "metric"⟩ = .ok (some list))
    (hvalid : ∀ item ∈ list, (timeValue item.dt).isSome = true) :
    ∃ (dated daily : List (String × Sample)), mapThrowing (toSample isoDate) list = .ok dated ∧
      List.Forall₂ (fun g e => e.1 = g.1 ∧ noonRepresentative (noonOf g.1) g.2 = some e.2)
        (slice0 (groupByDay dated) days) daily ∧
      OpenWeather.getForecast isoDate noonOf http lat lon days units
        = .ok (daily.map (fun d => { d.2.source with date := some d.1 })) := by
  obtain ⟨dated, hdated⟩ := mapThrowing_total (toSample isoDate) list
    (fun item hitem => toSample_isOk isoDate item (hvalid item hitem))
  obtain ⟨daily, hdaily, hsel⟩ := dailySamples_spec isoDate noonOf list days dated hdated
  refine ⟨dated, daily, hdated, hsel, ?_⟩
  unfold OpenWeather.getForecast
  rw [hresponse]
  simp only [hdaily]

/-- Counterexample to C19 as stated: the response lists the sample at 13:30 of
2026-11-05 before the sample at 10:30 of that date.  Both are 5400000 ms away
from the noon of the date, and the adapter selects the one at 13:30, the first
in the list, which is not the earliest of the two. -/
theorem later_sample_selected_on_tie :
    (OpenWeather.getForecast weekIsoDate weekNoonOf (fun _ => .ok (some laterSampleFirst))
        (.num 51) (.num 0) 5 none).toOption.map
      (fun r => r.map (fun s => (s.date, s.current.temp)))
      = some [(some "2026-11-05", .num 13)] ∧
    laterSampleFirst.map (fun item => (timeValue item.dt, item.main_temp))
      = [(some 1793885400000, .num 13), (some 1793874600000, .num 10)] ∧
    weekIsoDate 1793885400000 = "2026-11-05" ∧ weekIsoDate 1793874600000 = "2026-11-05" ∧
    weekNoonOf "2026-11-05" = some 1793880000000 ∧
    (1793885400000 - 1793880000000 : ℤ).natAbs = 5400000 ∧
    (1793874600000 - 1793880000000 : ℤ).natAbs = 5400000 := by
  refine ⟨?_, ?_, ?_, ?_, ?_, ?_, ?_⟩ <;> decide

/-- C19, as amended. Noon-representative selection: for a response list whose
items all have a time value, `getForecast` of the OpenWeather adapter returns
the selected samples `daily` with their dates.  Their dates stand in the order
of first appearance in the list, pairwise distinct.  Each selected sample is a
sample of the list whose own date is the date it is labelled with, and when the
noon of that date has a time value, it is the first, in list order, of the
samples of that date at the least absolute distance from noon: every sample of
the date before it is strictly farther and every one after it is at least as
far; for a list in chronological order it is thus the earliest of the closest
samples. -/
theorem noon_representative_selection (isoDate : ℤ → String) (noonOf : String → Option ℤ)
    (http : OpenWeatherParams → Except JsError (Option (List OpenWeatherData)))
    (lat lon : JsNum) (days : ℤ) (units : Option String) (list : List OpenWeatherData)
    (hresponse : http ⟨lat, lon, units.getD "metric"⟩ = .ok (some list))
    (hvalid : ∀ item ∈ list, (timeValue item.dt).isSome = true) :
    ∃ result dated daily,
      OpenWeather.getForecast isoDate noonOf http lat lon days units = .ok result ∧
      List.Forall₂ (fun item p => timeValue item.dt = some p.2.time ∧
        transformOpenWeatherData item = .ok p.2.source ∧ p.1 = isoDate p.2.time) list dated ∧
      OpenWeather.dailySamples isoDate noonOf list days = .ok daily ∧
      result = daily.map (fun d => { d.2.source with date := some d.1 }) ∧
      (daily.map (fun d => d.1)).Pairwise
        (fun a b => (dated.map (fun p => p.1)).indexOf a < (dated.map (fun p => p.1)).indexOf b) ∧
      ∀ d ∈ daily, d ∈ dated ∧ d.1 = isoDate d.2.time ∧
        ∀ noon, noonOf d.1 = some noon →
          (∃ pre post,
            (dated.filter (fun p => p.1 == d.1)).map (fun p => p.2) = pre ++ d.2 :: post ∧
            (∀ s ∈ pre, (d.2.time - noon).natAbs < (s.time - noon).natAbs) ∧
            (∀ s ∈ post, (d.2.time - noon).natAbs ≤ (s.time - noon).natAbs)) ∧
          ((dated.map (fun p => p.2.time)).Pairwise (fun a b => a ≤ b) →
            ∀ p ∈ dated, p.1 = d.1 →
              (p.2.time - noon).natAbs = (d.2.time - noon).natAbs → d.2.time ≤ p.2.time) := by
  obtain ⟨dated0, daily0, -, -, hresult⟩ :=
    getForecast_total isoDate noonOf http lat lon days units list hresponse hvalid
  obtain ⟨dated, daily, h⟩ :=
    selection_of_result isoDate noonOf http lat lon days units list _ hresponse hresult
  exact ⟨_, dated, daily, hresult, h⟩

/-- Witness of C19: of the samples at 09:00, 12:00 and 15:00 of 2026-11-04 the
one at 12:00 is selected, and of the samples at 10:30 and 13:30 of 2026-11-05,
equally far from noon, the first. -/
theorem noon_representative_selection_witness :
    ∃ (result : List Source) (dated daily : List (String × Sample)),
      OpenWeather.getForecast weekIsoDate weekNoonOf (fun _ => .ok (some twoDaysOfSamples))
        (.num 51) (.num 0) 5 none = .ok result ∧
      result.map (fun s => (s.date, s.current.temp))
        = [(some "2026-11-04", .num 12), (some "2026-11-05", .num 10)] ∧
      result = daily.map (fun d => { d.2.source with date := some d.1 }) ∧
      ∀ d ∈ daily, d ∈ dated ∧ d.1 = weekIsoDate d.2.time := by
  obtain ⟨result, dated, daily, hresult, -, -, hres, -, hsel⟩ :=
    noon_representative_selection weekIsoDate weekNoonOf (fun _ => .ok (some twoDaysOfSamples))
      (.num 51) (.num 0) 5 none twoDaysOfSamples rfl (by decide)
  have hvalue : OpenWeather.getForecast weekIsoDate weekNoonOf
      (fun _ => .ok (some twoDaysOfSamples)) (.num 51) (.num 0) 5 none = .ok _ := rfl
  have heq : result = _ := Except.ok.inj (hresult.symm.trans hvalue)
  refine ⟨result, dated, daily, hresult, ?_, hres, fun d hd => ⟨(hsel d hd).1, (hsel d hd).2.1⟩⟩
  rw [heq]
  decide

/-! ## Days clamping -/

/-- Counterexample to C18 as stated: the list of the OpenWeather response spans
six dates; for `days = 6` the adapter returns six daily entries, more than
`min(max(6, 0), 5) = 5`, and for `days = -1` it returns five, more than
`min(max(-1, 0), 5) = 0`. -/
theorem openweather_days_not_clamped :
    (OpenWeather.getForecast weekIsoDate weekNoonOf (fun _ => .ok (some sixDates))
      (.num 51) (.num 0) 6 none).toOption.map (fun r => r.length) = some 6 ∧
    (OpenWeather.getForecast weekIsoDate weekNoonOf (fun _ => .ok (some sixDates))
      (.num 51) (.num 0) (-1) none).toOption.map (fun r => r.length) = some 5 := by
  constructor <;> decide

/-- C18, as amended. Days clamping: for every integer `days`, the one request of
the WeatherAPI adapter carries the day count `min(max(days, 1), 10)` and that
of the Weatherbit adapter `min(max(days, 1), 16)`: when the request with that
day count fails, the adapter fails with its error (passed through the `catch`
block), when it is answered, the adapter returns the transformed days of the
answer, and what the transport does for any other parameters has no effect.
The day counts lie in the range of the provider and equal `days` when `days`
lies in it.  The OpenWeather adapter does not clamp: for `days ≥ 0` and a list
whose items all have a time value it returns, in order, the representatives of
the first `min(days, G)` of the `G` date groups of the list, each with the date
of its group, so at most `days` entries. -/
theorem days_clamping (days : ℤ) :
    (∀ (parseDate : String → Option ℤ)
        (http : WeatherApiParams → Except JsError WeatherApiForecast) (lat lon : JsNum),
      (∀ e, http ⟨lat, lon, min (max days 1) 10, "no", "no"⟩ = .error e →
        WeatherApi.getForecast parseDate http lat lon days
          = .error (WeatherApi.forecastError e)) ∧
      (∀ response forecastday,
        http ⟨lat, lon, min (max days 1) 10, "no", "no"⟩ = .ok response →
        response.forecastday = some forecastday →
        WeatherApi.getForecast parseDate http lat lon days
          = (mapThrowing (WeatherApi.forecastDay parseDate response.location)
              forecastday).mapError WeatherApi.forecastError) ∧
      ∀ http' : WeatherApiParams → Except JsError WeatherApiForecast,
        http ⟨lat, lon, min (max days 1) 10, "no", "no"⟩
            = http' ⟨lat, lon, min (max days 1) 10, "no", "no"⟩ →
          WeatherApi.getForecast parseDate http lat lon days
            = WeatherApi.getForecast parseDate http' lat lon days) ∧
    (1 ≤ WeatherApi.validDays days ∧ WeatherApi.validDays days ≤ 10 ∧
      (1 ≤ days → days ≤ 10 → WeatherApi.validDays days = days)) ∧
    (∀ (http : WeatherBitParams → Except JsError WeatherBitData) (lat lon : JsNum)
        (units : Option String),
      (∀ e, http ⟨lat, lon, min (max days 1) 16, units.getD "M"⟩ = .error e →
        WeatherBit.getForecast http lat lon days units
          = .error (WeatherBit.forecastError e)) ∧
      (∀ response dayData rest,
        http ⟨lat, lon, min (max days 1) 16, units.getD "M"⟩ = .ok response →
        response.data = some (dayData :: rest) →
        WeatherBit.getForecast http lat lon days units
          = (mapThrowing (WeatherBit.forecastDay response lat lon)
              (dayData :: rest)).mapError WeatherBit.forecastError) ∧
      ∀ http' : WeatherBitParams → Except JsError WeatherBitData,
        http ⟨lat, lon, min (max days 1) 16, units.getD "M"⟩
            = http' ⟨lat, lon, min (max days 1) 16, units.getD "M"⟩ →
          WeatherBit.getForecast http lat lon days units
            = WeatherBit.getForecast http' lat lon days units) ∧
    (1 ≤ WeatherBit.validDays days ∧ WeatherBit.validDays days ≤ 16 ∧
      (1 ≤ days → days ≤ 16 → WeatherBit.validDays days = days)) ∧
    ∀ (isoDate : ℤ → String) (noonOf : String → Option ℤ)
      (http : OpenWeatherParams → Except JsError (Option (List OpenWeatherData)))
      (lat lon : JsNum) (units : Option String) (list : List OpenWeatherData),
      http ⟨lat, lon, units.getD "metric"⟩ = .ok (some list) →
      (∀ item ∈ list, (timeValue item.dt).isSome = true) → 0 ≤ days →
        ∃ (dated daily : List (String × Sample)) (result : List Source),
          mapThrowing (toSample isoDate) list = .ok dated ∧
          OpenWeather.getForecast isoDate noonOf http lat lon days units = .ok result ∧
          result = daily.map (fun d => { d.2.source with date := some d.1 }) ∧
          List.Forall₂ (fun g e => e.1 = g.1 ∧ noonRepresentative (noonOf g.1) g.2 = some e.2)
            ((groupByDay dated).take (min days.toNat (groupByDay dated).length)) daily ∧
          result.map (fun s => s.date)
            = ((groupByDay dated).take (min days.toNat (groupByDay dated).length)).map
                (fun g => some g.1) ∧
          result.length = min days.toNat (groupByDay dated).length ∧
          (result.length : ℤ) ≤ days := by
  refine ⟨?_, ?_, ?_, ?_, ?_⟩
  · intro parseDate http lat lon
    refine ⟨fun e h => ?_, fun response forecastday h hdays => ?_, fun http' h => ?_⟩
    · unfold WeatherApi.getForecast WeatherApi.validDays
      rw [h]
    · unfold WeatherApi.getForecast WeatherApi.validDays
      rw [h]
      simp only [hdays]
      cases mapThrowing (WeatherApi.forecastDay parseDate response.location) forecastday <;> rfl
    · unfold WeatherApi.getForecast WeatherApi.validDays
      rw [h]
  · unfold WeatherApi.validDays
    refine ⟨?_, ?_, fun h1 h2 => ?_⟩ <;> omega
  · intro http lat lon units
    refine ⟨fun e h => ?_, fun response dayData rest h hdata => ?_, fun http' h => ?_⟩
    · unfold WeatherBit.getForecast WeatherBit.validDays
      rw [h]
    · unfold WeatherBit.getForecast WeatherBit.validDays
      rw [h]
      simp only [hdata]
      cases mapThrowing (WeatherBit.forecastDay response lat lon) (dayData :: rest) <;> rfl
    · unfold WeatherBit.getForecast WeatherBit.validDays
      rw [h]
  · unfold WeatherBit.validDays
    refine ⟨?_, ?_, fun h1 h2 => ?_⟩ <;> omega
  · intro isoDate noonOf http lat lon units list hresponse hvalid hdays
    obtain ⟨dated, daily, hdated, hsel, hresult⟩ :=
      getForecast_total isoDate noonOf http lat lon days units list hresponse hvalid
    have hslice : slice0 (groupByDay dated) days
        = (groupByDay dated).take (min days.toNat (groupByDay dated).length) := by
      unfold slice0
      rw [if_neg (by omega), List.take_eq_take.2]
      simp
    rw [hslice] at hsel
    have hlen : daily.length = min days.toNat (groupByDay dated).length := by
      rw [← hsel.length_eq, List.length_take]
      simp
    have hkeys : daily.map (fun d => d.1)
        = ((groupByDay dated).take (min days.toNat (groupByDay dated).length)).map
            (fun g => g.1) := by
      clear hresult hlen hslice
      generalize (groupByDay dated).take (min days.toNat (groupByDay dated).length) = gs at hsel
      induction hsel with
      | nil => rfl
      | cons h _ ih => simp [h.1, ih]
    refine ⟨dated, daily, _, hdated, hresult, rfl, hsel, ?_, ?_, ?_⟩
    · have h := congrArg (List.map some) hkeys
      rw [List.map_map, List.map_map] at h
      rw [List.map_map]
      exact h
    · rw [List.length_map, hlen]
    · rw [List.length_map, hlen]
      omega

/-- Witness of C18 as amended: for `days = 3` the OpenWeather adapter returns
the representatives of the first three of the six date groups; a failed request
of the WeatherAPI adapter for `days = 14`, which asks for 10 days, is the
failure of the adapter; and inside the ranges 7 and 12 days stay 7 and 12. -/
theorem days_clamping_witness :
    (∃ (dated daily : List (String × Sample)) (result : List Source),
      mapThrowing (toSample weekIsoDate) sixDates = .ok dated ∧
      OpenWeather.getForecast weekIsoDate weekNoonOf (fun _ => .ok (some sixDates))
        (.num 51) (.num 0) 3 none = .ok result ∧
      result = daily.map (fun d => { d.2.source with date := some d.1 }) ∧
      List.Forall₂ (fun g e => e.1 = g.1 ∧ noonRepresentative (weekNoonOf g.1) g.2 = some e.2)
        ((groupByDay dated).take (min (3 : ℤ).toNat (groupByDay dated).length)) daily ∧
      result.map (fun s => s.date)
        = ((groupByDay dated).take (min (3 : ℤ).toNat (groupByDay dated).length)).map
            (fun g => some g.1) ∧
      result.length = min (3 : ℤ).toNat (groupByDay dated).length ∧ (result.length : ℤ) ≤ 3) ∧
    WeatherApi.getForecast (fun _ => none)
        (fun params => if params.days = 10 then .error timeoutError else .ok ⟨none, some []⟩)
        (.num 51) (.num 0) 14
      = .error (WeatherApi.forecastError timeoutError) ∧
    WeatherApi.validDays 7 = 7 ∧ WeatherBit.validDays 12 = 12 :=
  ⟨(days_clamping 3).2.2.2.2 weekIsoDate weekNoonOf (fun _ => .ok (some sixDates))
      (.num 51) (.num 0) none sixDates rfl (by decide) (by decide),
   ((days_clamping 14).1 (fun _ => none)
      (fun params => if params.days = 10 then .error timeoutError else .ok ⟨none, some []⟩)
      (.num 51) (.num 0)).1 timeoutError rfl,
   (days_clamping 7).2.1.2.2 (by decide) (by decide),
   (days_clamping 12).2.2.2.1.2.2 (by decide) (by decide)⟩

/-! ## Units -/

/-- C20, evaluated at the failing input: for every wind speed `v` reported by
OpenWeather as `wind.speed` and by Weatherbit as `wind_spd`,
`transformOpenWeatherData` emits `wind_speed = v`, unconverted, and
`transformWeatherBitData` emits `wind_speed = 3.6 · v`; for 10 m/s the two emit
10 and 36. -/
theorem openweather_wind_speed_unconverted :
    (∀ v : ℚ,
      (transformOpenWeatherData
        { openWeatherItem (.num 1793750400) with wind_speed := .num v }).toOption.map
          (fun s => s.current.wind_speed) = some (.num v) ∧
      (transformWeatherBitData
        { data := some [{ weatherBitItem with wind_spd := .num v }], city_name := none,
          country_code := none, lat := .num 51, lon := .num 0 }).toOption.map
          (fun s => s.current.wind_speed) = some (.num (v * (36 / 10)))) ∧
    (transformOpenWeatherData
      { openWeatherItem (.num 1793750400) with wind_speed := .num 10 }).toOption.map
        (fun s => s.current.wind_speed) = some (.num 10) ∧
    (transformWeatherBitData
      { data := some [{ weatherBitItem with wind_spd := .num 10 }], city_name := none,
        country_code := none, lat := .num 51, lon := .num 0 }).toOption.map
        (fun s => s.current.wind_speed) = some (.num 36) := by
  refine ⟨fun v => ⟨rfl, rfl⟩, rfl, ?_⟩
  show some (JsNum.num (10 * (36 / 10))) = some (JsNum.num 36)
  norm_num

/-! ## Absent fields -/

/-- Counterexample to C21 as stated: an OpenWeather payload without `uvi` is
transformed to `uv_index = 0`, a WeatherAPI payload without `is_day` to
`is_day = false`, and a Weatherbit payload without `wind_spd` to
`wind_speed = NaN`; none of the three is the absent marker, and none is a
precipitation field. -/
theorem defaults_replace_absent :
    (transformOpenWeatherData (openWeatherItem (.num 1793750400))).toOption.map
      (fun s => s.current.uv_index) = some (.num 0) ∧
    (transformWeatherApiData ⟨some weatherApiItem, none⟩).toOption.map
      (fun s => s.current.is_day) = some (some false) ∧
    (transformWeatherBitData ⟨some [weatherBitItem], none, none, .num 51, .num 0⟩).toOption.map
      (fun s => s.current.wind_speed) = some .nan := by
  refine ⟨?_, ?_, ?_⟩ <;> decide

theorem transformOpenWeatherData_ok (data : OpenWeatherData)
    (h : (timeValue data.dt).isSome = true) :
    ∃ s, transformOpenWeatherData data = .ok s ∧
      s.current =
        { temp := data.main_temp, feels_like := data.main_feels_like,
          humidity := data.main_humidity, pressure := data.main_pressure,
          wind_speed := data.wind_speed, wind_direction := data.wind_deg,
          description := data.weather_description, condition := data.weather_main,
          icon := data.weather_icon, clouds := data.clouds_all,
          uv_index := data.uvi.orZeroNum, visibility := data.visibility,
          rain_1h := data.rain_1h.orZeroNum, snow_1h := data.snow_1h.orZeroNum,
          aqi := .undefined, is_day := none } := by
  obtain ⟨time, ht⟩ := Option.isSome_iff_exists.1 h
  simp only [transformOpenWeatherData, ht]
  exact ⟨_, rfl, rfl⟩

theorem transformWeatherApiData_ok (current : WeatherApiCurrent)
    (location : Option WeatherApiLocation)
    (h : current.last_updated_epoch.truthy = true →
      (timeValue current.last_updated_epoch).isSome = true) :
    ∃ s, transformWeatherApiData ⟨some current, location⟩ = .ok s ∧
      s.current =
        { temp := current.temp_c, feels_like := current.feelslike_c,
          humidity := current.humidity, pressure := current.pressure_mb,
          wind_speed := current.wind_kph, wind_direction := current.wind_degree,
          description := current.condition_text, condition := current.condition_text,
          icon := current.condition_icon, clouds := current.cloud, uv_index := current.uv,
          visibility := current.vis_km, rain_1h := current.precip_mm.orZeroNum,
          snow_1h := .undefined, aqi := .undefined,
          is_day := some (decide (current.is_day = .num 1)) } := by
  have hcond : (current.last_updated_epoch.truthy
      && (timeValue current.last_updated_epoch).isNone) = false := by
    cases ht : current.last_updated_epoch.truthy with
    | false => rfl
    | true =>
      obtain ⟨time, htime⟩ := Option.isSome_iff_exists.1 (h ht)
      simp [htime]
  simp only [transformWeatherApiData, hcond]
  exact ⟨_, rfl, rfl⟩

theorem transformWeatherBitData_ok (current : WeatherBitCurrent) (rest : List WeatherBitCurrent)
    (city_name country_code : Option String) (lat lon : JsNum)
    (h : current.ts.truthy = true → (timeValue current.ts).isSome = true) :
    ∃ s, transformWeatherBitData ⟨some (current :: rest), city_name, country_code, lat, lon⟩
        = .ok s ∧
      s.current =
        { temp := current.temp, feels_like := current.app_temp, humidity := current.rh,
          pressure := current.pres, wind_speed := current.wind_spd.times (36 / 10),
          wind_direction := current.wind_dir, description := current.weather_description,
          condition := current.weather_description, icon := current.weather_icon,
          clouds := current.clouds, uv_index := current.uv, visibility := current.vis,
          rain_1h := current.precip.orZeroNum, snow_1h := current.snow.orZeroNum,
          aqi := current.aqi, is_day := none } := by
  have hcond : (current.ts.truthy && (timeValue current.ts).isNone) = false := by
    cases ht : current.ts.truthy with
    | false => rfl
    | true =>
      obtain ⟨time, htime⟩ := Option.isSome_iff_exists.1 (h ht)
      simp [htime]
  simp only [transformWeatherBitData, hcond]
  exact ⟨_, rfl, rfl⟩

/-- C21, as amended. Absent stays absent: each transformer returns for a payload
that has the members it needs (a `dt`, `last_updated_epoch` or `ts` that, when
used, has a time value), and a member lacking in the payload leaves the
observation field read from it absent, for every field without a default of
its own: all of `temp`, `feels_like`, `humidity`, `pressure`, `wind_speed`,
`wind_direction`, `description`, `condition`, `icon`, `clouds`, `uv_index`,
`visibility` and `aqi` that the transformer reads, except `uv_index` of
OpenWeather, which like `rain_1h` and `snow_1h` is replaced by 0, and
`wind_speed` of Weatherbit, about which nothing is said; `is_day` of WeatherAPI
is `false` when the payload lacks it.  A field that a transformer does not
emit is absent. -/
theorem absent_stays_absent (ow : OpenWeatherData) (wa : WeatherApiCurrent)
    (location : Option WeatherApiLocation) (wb : WeatherBitCurrent)
    (rest : List WeatherBitCurrent) (city_name country_code : Option String) (lat lon : JsNum) :
    ((timeValue ow.dt).isSome = true →
      ∃ s, transformOpenWeatherData ow = .ok s ∧
        StaysAbsent ow.main_temp s.current.temp ∧
        StaysAbsent ow.main_feels_like s.current.feels_like ∧
        StaysAbsent ow.main_humidity s.current.humidity ∧
        StaysAbsent ow.main_pressure s.current.pressure ∧
        StaysAbsent ow.wind_speed s.current.wind_speed ∧
        StaysAbsent ow.wind_deg s.current.wind_direction ∧
        StaysAbsentText ow.weather_description s.current.description ∧
        StaysAbsentText ow.weather_main s.current.condition ∧
        StaysAbsentText ow.weather_icon s.current.icon ∧
        StaysAbsent ow.clouds_all s.current.clouds ∧
        StaysAbsent ow.visibility s.current.visibility ∧
        s.current.aqi = .undefined ∧ s.current.is_day = none ∧
        (ow.uvi = .undefined → s.current.uv_index = .num 0) ∧
        (ow.rain_1h = .undefined → s.current.rain_1h = .num 0) ∧
        (ow.snow_1h = .undefined → s.current.snow_1h = .num 0)) ∧
    ((wa.last_updated_epoch.truthy = true → (timeValue wa.last_updated_epoch).isSome = true) →
      ∃ s, transformWeatherApiData ⟨some wa, location⟩ = .ok s ∧
        StaysAbsent wa.temp_c s.current.temp ∧
        StaysAbsent wa.feelslike_c s.current.feels_like ∧
        StaysAbsent wa.humidity s.current.humidity ∧
        StaysAbsent wa.pressure_mb s.current.pressure ∧
        StaysAbsent wa.wind_kph s.current.wind_speed ∧
        StaysAbsent wa.wind_degree s.current.wind_direction ∧
        StaysAbsentText wa.condition_text s.current.description ∧
        StaysAbsentText wa.condition_text s.current.condition ∧
        StaysAbsentText wa.condition_icon s.current.icon ∧
        StaysAbsent wa.cloud s.current.clouds ∧
        StaysAbsent wa.uv s.current.uv_index ∧
        StaysAbsent wa.vis_km s.current.visibility ∧
        s.current.snow_1h = .undefined ∧ s.current.aqi = .undefined ∧
        (wa.precip_mm = .undefined → s.current.rain_1h = .num 0) ∧
        (wa.is_day = .undefined → s.current.is_day = some false)) ∧
    ((wb.ts.truthy = true → (timeValue wb.ts).isSome = true) →
      ∃ s, transformWeatherBitData ⟨some (wb :: rest), city_name, country_code, lat, lon⟩
          = .ok s ∧
        StaysAbsent wb.temp s.current.temp ∧
        StaysAbsent wb.app_temp s.current.feels_like ∧
        StaysAbsent wb.rh s.current.humidity ∧
        StaysAbsent wb.pres s.current.pressure ∧
        StaysAbsent wb.wind_dir s.current.wind_direction ∧
        StaysAbsentText wb.weather_description s.current.description ∧
        StaysAbsentText wb.weather_description s.current.condition ∧
        StaysAbsentText wb.weather_icon s.current.icon ∧
        StaysAbsent wb.clouds s.current.clouds ∧
        StaysAbsent wb.uv s.current.uv_index ∧
        StaysAbsent wb.vis s.current.visibility ∧
        StaysAbsent wb.aqi s.current.aqi ∧
        s.current.is_day = none ∧
        (wb.precip = .undefined → s.current.rain_1h = .num 0) ∧
        (wb.snow = .undefined → s.current.snow_1h = .num 0)) := by
  refine ⟨fun h => ?_, fun h => ?_, fun h => ?_⟩
  · obtain ⟨s, hs, hc⟩ := transformOpenWeatherData_ok ow h
    refine ⟨s, hs, ?_⟩
    rw [hc]
    refine ⟨id, id, id, id, id, id, id, id, id, id, id, rfl, rfl, ?_, ?_, ?_⟩ <;>
      (intro h; simp only [h]; rfl)
  · obtain ⟨s, hs, hc⟩ := transformWeatherApiData_ok wa location h
    refine ⟨s, hs, ?_⟩
    rw [hc]
    refine ⟨id, id, id, id, id, id, id, id, id, id, id, id, rfl, rfl, ?_, ?_⟩
    · intro h; simp only [h]; rfl
    · intro h; simp only [h]; rfl
  · obtain ⟨s, hs, hc⟩ := transformWeatherBitData_ok wb rest city_name country_code lat lon h
    refine ⟨s, hs, ?_⟩
    rw [hc]
    refine ⟨id, id, id, id, id, id, id, id, id, id, id, id, rfl, ?_, ?_⟩ <;>
      (intro h; simp only [h]; rfl)

/-- Witness of C21 as amended: an OpenWeather payload with only a time and a
temperature, a WeatherAPI payload with only a humidity, and a Weatherbit payload
with only a pressure are transformed to observations with that field and
without, among others, wind direction, clouds and description. -/
theorem absent_stays_absent_witness :
    (∃ s, transformOpenWeatherData (sampleAt 43200 12) = .ok s ∧
      s.current.temp = .num 12 ∧ s.current.wind_direction = .undefined ∧
      s.current.clouds = .undefined ∧ s.current.description = none) ∧
    (∃ s, transformWeatherApiData ⟨some { weatherApiItem with humidity := .num 60 }, none⟩
        = .ok s ∧
      s.current.humidity = .num 60 ∧ s.current.wind_direction = .undefined ∧
      s.current.clouds = .undefined ∧ s.current.description = none) ∧
    (∃ s, transformWeatherBitData
        ⟨some [{ weatherBitItem with pres := .num 1013 }], none, none, .num 51, .num 0⟩ = .ok s ∧
      s.current.pressure = .num 1013 ∧ s.current.wind_direction = .undefined ∧
      s.current.clouds = .undefined ∧ s.current.description = none) := by
  have h := absent_stays_absent (sampleAt 43200 12) { weatherApiItem with humidity := .num 60 }
    none { weatherBitItem with pres := .num 1013 } [] none none (.num 51) (.num 0)
  refine ⟨?_, ?_, ?_⟩
  · obtain ⟨s, hs, -, -, -, -, -, hdir, hdesc, -, -, hclouds, -⟩ := h.1 (by decide)
    have hv : transformOpenWeatherData (sampleAt 43200 12) = .ok _ := rfl
    have heq : s = _ := Except.ok.inj (hs.symm.trans hv)
    exact ⟨s, hs, by rw [heq]; rfl, hdir rfl, hclouds rfl, hdesc rfl⟩
  · obtain ⟨s, hs, -, -, -, -, -, hdir, hdesc, -, -, hclouds, -⟩ := h.2.1 (by decide)
    have hv : transformWeatherApiData ⟨some { weatherApiItem with humidity := .num 60 }, none⟩
        = .ok _ := rfl
    have heq : s = _ := Except.ok.inj (hs.symm.trans hv)
    exact ⟨s, hs, by rw [heq], hdir rfl, hclouds rfl, hdesc rfl⟩
  · obtain ⟨s, hs, -, -, -, -, hdir, hdesc, -, -, hclouds, -⟩ := h.2.2 (by decide)
    have hv : transformWeatherBitData
        ⟨some [{ weatherBitItem with pres := .num 1013 }], none, none, .num 51, .num 0⟩
        = .ok _ := rfl
    have heq : s = _ := Except.ok.inj (hs.symm.trans hv)
    exact ⟨s, hs, by rw [heq], hdir rfl, hclouds rfl, hdesc rfl⟩

end WeatherAggregator
